import Mathlib

/-!
# Squaring in the dodecic extension Fp12 (RELIC, `relic_fp12_sqr.c`)

A shallow embedding of the squaring routines of `src/fpx/relic_fp12_sqr.c`
over the tower

* `Fp2  = Fp[u]/(u² − β)`,
* `Fp6  = Fp2[v]/(v³ − ξ)`,
* `Fp12 = Fp6[w]/(w² − v)`.

The prime field is `ZMod p`.  The Fp2 and Fp6 primitives consumed by the file
live in other translation units of the library; they are modelled from the
specification (§4.1, §4.2, §4.3, §4.5) and are marked as such.  The routines of
`relic_fp12_sqr.c` itself are transcribed statement by statement.

The routines are also given as statement lists, one `Stmt` per C statement;
these are run on explicit stores (aliasing), over arbitrary primitives
(reducedness), under failure scenarios (error propagation) and as traces of
acquisitions and releases (temporaries).
-/

namespace Relic

/-! ## The quadratic extension Fp2 -/

/-- An element `c0 + c1·u` of `Fp2 = Fp[u]/(u² − β)` (the C type `fp2_t`). -/
@[ext] structure Fp2 (p : ℕ) (β : ZMod p) where
  c0 : ZMod p
  c1 : ZMod p
deriving DecidableEq

/-- Double-precision Fp2 accumulator (the C type `dv2_t`), tracked by its exact
value modulo `p`. -/
abbrev Dv2 (p : ℕ) (β : ZMod p) := Fp2 p β

variable {p : ℕ} {β : ZMod p}

/-- Modelled from the spec: `fp_inv` (absent from src/), inversion in Fp, here
by Fermat's little theorem, `a^(p−2)` (§6). -/
def fp_inv (a : ZMod p) : ZMod p := a ^ (p - 2)

/-- Modelled from the spec: `fp_hlv` (absent from src/), halving in Fp through
the inverse of two modulo `p` (§4.1). -/
def fp_hlv (a : ZMod p) : ZMod p := a * fp_inv 2

/-- Modelled from the spec: `fp2_zero` (absent from src/). -/
def fp2_zero : Fp2 p β := ⟨0, 0⟩

/-- Modelled from the spec: the Fp2 unit element (absent from src/). -/
def fp2_one : Fp2 p β := ⟨1, 0⟩

/-- Modelled from the spec: `fp2_add` (absent from src/), component-wise in Fp
(§4.1). -/
def fp2_add (a b : Fp2 p β) : Fp2 p β := ⟨a.c0 + b.c0, a.c1 + b.c1⟩

/-- Modelled from the spec: `fp2_sub` (absent from src/), component-wise in Fp
(§4.1). -/
def fp2_sub (a b : Fp2 p β) : Fp2 p β := ⟨a.c0 - b.c0, a.c1 - b.c1⟩

/-- Modelled from the spec: `fp2_neg` (absent from src/), component-wise in Fp
(§4.1). -/
def fp2_neg (a : Fp2 p β) : Fp2 p β := ⟨-a.c0, -a.c1⟩

/-- Modelled from the spec: `fp2_dbl` (absent from src/), `c = a + a` (§4.1). -/
def fp2_dbl (a : Fp2 p β) : Fp2 p β := fp2_add a a

/-- Modelled from the spec: `fp2_mul` (absent from src/), Karatsuba with one
twist: `t0 = a0·b0`, `t1 = a1·b1`, `t2 = (a0+a1)(b0+b1)`, `c0 = t0 + β·t1`,
`c1 = t2 − t0 − t1` (§4.1). -/
def fp2_mul (a b : Fp2 p β) : Fp2 p β :=
  let t0 := a.c0 * b.c0
  let t1 := a.c1 * b.c1
  let t2 := (a.c0 + a.c1) * (b.c0 + b.c1)
  ⟨t0 + β * t1, t2 - t0 - t1⟩

/-- Modelled from the spec: `fp2_sqr` (absent from src/), complex squaring:
`t0 = a0 + a1`, `t1 = a0 + β·a1`, `t2 = a0·a1`, `c0 = t0·t1 − t2 − β·t2`,
`c1 = 2·t2` (§4.1). -/
def fp2_sqr (a : Fp2 p β) : Fp2 p β :=
  let t0 := a.c0 + a.c1
  let t1 := a.c0 + β * a.c1
  let t2 := a.c0 * a.c1
  ⟨t0 * t1 - t2 - β * t2, t2 + t2⟩

/-- Modelled from the spec: `fp2_mul_art` (absent from src/), multiplication by
the adjoined root `u`: `c0 = β·a1`, `c1 = a0` (§4.1). -/
def fp2_mul_art (a : Fp2 p β) : Fp2 p β := ⟨β * a.c1, a.c0⟩

/-- Modelled from the spec: `fp2_mul_nor` (absent from src/), multiplication by
the non-residue `ξ` of the tower (§4.1); `ξ` is a parameter, which covers each
of the `p mod 8` cases of the library. -/
def fp2_mul_nor (ξ : Fp2 p β) (a : Fp2 p β) : Fp2 p β := fp2_mul a ξ

/-- Modelled from the spec: `fp2_inv` (absent from src/), `conj(a)/norm(a)` with
`norm = a0² − β·a1²`; fails (`none`) on the zero element (§4.1). -/
def fp2_inv (a : Fp2 p β) : Option (Fp2 p β) :=
  if a = fp2_zero then none
  else
    let n := fp_inv (a.c0 * a.c0 - β * (a.c1 * a.c1))
    some ⟨a.c0 * n, -(a.c1 * n)⟩

/-! ### Low-level (lazy-reduction) Fp2 primitives

Each unreduced primitive is modelled by the exact operation modulo `p` on the
value it represents; the reduction `rdcn` is then the identity on values. -/

/-- Modelled from the spec: `fp2_addn_low` (absent from src/), addition without
reduction, as the exact sum modulo `p` (§4.5). -/
def fp2_addn_low (a b : Fp2 p β) : Fp2 p β := fp2_add a b

/-- Modelled from the spec: `fp2_addm_low` (absent from src/), modular
addition (§4.5). -/
def fp2_addm_low (a b : Fp2 p β) : Fp2 p β := fp2_add a b

/-- Modelled from the spec: `fp2_subn_low` (absent from src/), subtraction
without reduction, as the exact difference modulo `p` (§4.5). -/
def fp2_subn_low (a b : Fp2 p β) : Fp2 p β := fp2_sub a b

/-- Modelled from the spec: `fp2_addc_low` (absent from src/), double-precision
addition with modular correction (§4.5). -/
def fp2_addc_low (a b : Dv2 p β) : Dv2 p β := fp2_add a b

/-- Modelled from the spec: `fp2_addd_low` (absent from src/), double-precision
addition (§4.5). -/
def fp2_addd_low (a b : Dv2 p β) : Dv2 p β := fp2_add a b

/-- Modelled from the spec: `fp2_subc_low` (absent from src/), double-precision
subtraction with modular correction (§4.5). -/
def fp2_subc_low (a b : Dv2 p β) : Dv2 p β := fp2_sub a b

/-- Modelled from the spec: `fp2_muln_low` (absent from src/), multiplication
without reduction (§4.5). -/
def fp2_muln_low (a b : Fp2 p β) : Dv2 p β := fp2_mul a b

/-- Modelled from the spec: `fp2_mulc_low` (absent from src/), multiplication
without reduction, `FP_SPACE` flavour (§4.5). -/
def fp2_mulc_low (a b : Fp2 p β) : Dv2 p β := fp2_mul a b

/-- Modelled from the spec: `fp2_sqrn_low` (absent from src/), squaring without
reduction (§4.5). -/
def fp2_sqrn_low (a : Fp2 p β) : Dv2 p β := fp2_sqr a

/-- Modelled from the spec: `fp2_nord_low` (absent from src/), multiplication
by the non-residue at double precision (§4.5). -/
def fp2_nord_low (ξ : Fp2 p β) (a : Dv2 p β) : Dv2 p β := fp2_mul_nor ξ a

/-- Modelled from the spec: `fp2_rdcn_low` (absent from src/), reduction of a
double-precision value; the identity on values modulo `p` (§4.5). -/
def fp2_rdcn_low (a : Dv2 p β) : Fp2 p β := a

/-! ### Ring structure of Fp2 -/

instance : Zero (Fp2 p β) := ⟨fp2_zero⟩
instance : One (Fp2 p β) := ⟨fp2_one⟩
instance : Add (Fp2 p β) := ⟨fp2_add⟩
instance : Sub (Fp2 p β) := ⟨fp2_sub⟩
instance : Neg (Fp2 p β) := ⟨fp2_neg⟩
instance : Mul (Fp2 p β) := ⟨fp2_mul⟩
instance : NatCast (Fp2 p β) := ⟨fun n => ⟨n, 0⟩⟩
instance : IntCast (Fp2 p β) := ⟨fun n => ⟨n, 0⟩⟩


@[simp] theorem fp2_zero_c0 : (0 : Fp2 p β).c0 = 0 := rfl
@[simp] theorem fp2_zero_c1 : (0 : Fp2 p β).c1 = 0 := rfl
@[simp] theorem fp2_one_c0 : (1 : Fp2 p β).c0 = 1 := rfl
@[simp] theorem fp2_one_c1 : (1 : Fp2 p β).c1 = 0 := rfl
@[simp] theorem fp2_add_c0 (a b : Fp2 p β) : (a + b).c0 = a.c0 + b.c0 := rfl
@[simp] theorem fp2_add_c1 (a b : Fp2 p β) : (a + b).c1 = a.c1 + b.c1 := rfl
@[simp] theorem fp2_sub_c0 (a b : Fp2 p β) : (a - b).c0 = a.c0 - b.c0 := rfl
@[simp] theorem fp2_sub_c1 (a b : Fp2 p β) : (a - b).c1 = a.c1 - b.c1 := rfl
@[simp] theorem fp2_neg_c0 (a : Fp2 p β) : (-a).c0 = -a.c0 := rfl
@[simp] theorem fp2_neg_c1 (a : Fp2 p β) : (-a).c1 = -a.c1 := rfl
@[simp] theorem fp2_mul_c0 (a b : Fp2 p β) :
    (a * b).c0 = a.c0 * b.c0 + β * (a.c1 * b.c1) := rfl
@[simp] theorem fp2_mul_c1 (a b : Fp2 p β) :
    (a * b).c1 = (a.c0 + a.c1) * (b.c0 + b.c1) - a.c0 * b.c0 - a.c1 * b.c1 := rfl
@[simp] theorem fp2_natCast_c0 (n : ℕ) : (n : Fp2 p β).c0 = n := rfl
@[simp] theorem fp2_natCast_c1 (n : ℕ) : (n : Fp2 p β).c1 = 0 := rfl
@[simp] theorem fp2_intCast_c0 (n : ℤ) : (n : Fp2 p β).c0 = n := rfl
@[simp] theorem fp2_intCast_c1 (n : ℤ) : (n : Fp2 p β).c1 = 0 := rfl
@[simp] theorem fp2_ofNat_c0 (n : ℕ) [n.AtLeastTwo] :
    (no_index (OfNat.ofNat n) : Fp2 p β).c0 = OfNat.ofNat n := rfl
@[simp] theorem fp2_ofNat_c1 (n : ℕ) [n.AtLeastTwo] : (no_index (OfNat.ofNat n) : Fp2 p β).c1 = 0 := rfl

instance instAddCommGroupFp2 : AddCommGroup (Fp2 p β) where
  add_assoc a b c := by ext <;> simp <;> ring
  zero_add a := by ext <;> simp
  add_zero a := by ext <;> simp
  add_comm a b := by ext <;> simp <;> ring
  nsmul := nsmulRec
  zsmul := zsmulRec
  neg_add_cancel a := by ext <;> simp
  sub_eq_add_neg a b := by ext <;> simp <;> ring

instance instCommMonoidFp2 : CommMonoid (Fp2 p β) where
  mul_assoc a b c := by ext <;> simp <;> ring
  one_mul a := by ext <;> simp
  mul_one a := by ext <;> simp
  mul_comm a b := by ext <;> simp <;> ring

instance instCommRingFp2 : CommRing (Fp2 p β) where
  __ := instAddCommGroupFp2
  __ := instCommMonoidFp2
  left_distrib a b c := by ext <;> simp <;> ring
  right_distrib a b c := by ext <;> simp <;> ring
  zero_mul a := by ext <;> simp
  mul_zero a := by ext <;> simp
  natCast_zero := by ext <;> simp
  natCast_succ n := by ext <;> simp
  intCast_ofNat n := by ext <;> simp
  intCast_negSucc n := by ext <;> simp

theorem fp2_add_eq (a b : Fp2 p β) : fp2_add a b = a + b := rfl

theorem fp2_sub_eq (a b : Fp2 p β) : fp2_sub a b = a - b := rfl

theorem fp2_neg_eq (a : Fp2 p β) : fp2_neg a = -a := rfl

theorem fp2_mul_eq (a b : Fp2 p β) : fp2_mul a b = a * b := rfl

theorem fp2_zero_eq : (fp2_zero : Fp2 p β) = 0 := rfl

theorem fp2_one_eq : (fp2_one : Fp2 p β) = 1 := rfl

theorem fp2_dbl_eq (a : Fp2 p β) : fp2_dbl a = 2 * a := by
  rw [two_mul]; rfl

theorem fp2_sqr_eq (a : Fp2 p β) : fp2_sqr a = a * a := by
  apply Fp2.ext <;> simp [fp2_sqr] <;> ring

theorem fp2_mul_nor_eq (ξ a : Fp2 p β) : fp2_mul_nor ξ a = ξ * a := by
  rw [mul_comm]; rfl

theorem fp2_mul_art_eq (a : Fp2 p β) : fp2_mul_art a = ⟨0, 1⟩ * a := by
  apply Fp2.ext <;> simp [fp2_mul_art]


/-! ## The cubic extension Fp6 -/

/-- An element `c0 + c1·v + c2·v²` of `Fp6 = Fp2[v]/(v³ − ξ)` (the C type
`fp6_t`, an array of three `fp2_t`). -/
@[ext] structure Fp6 (p : ℕ) (β : ZMod p) (ξ : Fp2 p β) where
  c0 : Fp2 p β
  c1 : Fp2 p β
  c2 : Fp2 p β
deriving DecidableEq

variable {ξ : Fp2 p β}

/-- Modelled from the spec: `fp6_zero` (absent from src/). -/
def fp6_zero : Fp6 p β ξ := ⟨fp2_zero, fp2_zero, fp2_zero⟩

/-- Modelled from the spec: the Fp6 unit element (absent from src/). -/
def fp6_one : Fp6 p β ξ := ⟨fp2_one, fp2_zero, fp2_zero⟩

/-- Modelled from the spec: `fp6_add` (absent from src/), component-wise
(§4.2). -/
def fp6_add (a b : Fp6 p β ξ) : Fp6 p β ξ :=
  ⟨fp2_add a.c0 b.c0, fp2_add a.c1 b.c1, fp2_add a.c2 b.c2⟩

/-- Modelled from the spec: `fp6_sub` (absent from src/), component-wise
(§4.2). -/
def fp6_sub (a b : Fp6 p β ξ) : Fp6 p β ξ :=
  ⟨fp2_sub a.c0 b.c0, fp2_sub a.c1 b.c1, fp2_sub a.c2 b.c2⟩

/-- Modelled from the spec: `fp6_neg` (absent from src/), component-wise
(§4.2). -/
def fp6_neg (a : Fp6 p β ξ) : Fp6 p β ξ :=
  ⟨fp2_neg a.c0, fp2_neg a.c1, fp2_neg a.c2⟩

/-- Modelled from the spec: `fp6_dbl` (absent from src/), component-wise
doubling (§4.2). -/
def fp6_dbl (a : Fp6 p β ξ) : Fp6 p β ξ :=
  ⟨fp2_dbl a.c0, fp2_dbl a.c1, fp2_dbl a.c2⟩

/-- Modelled from the spec: `fp6_mul` (absent from src/), Karatsuba with six
Fp2 multiplications (§4.2):
`t0 = a0·b0`, `t1 = a1·b1`, `t2 = a2·b2`,
`c0 = t0 + ξ·((a1+a2)(b1+b2) − t1 − t2)`,
`c1 = (a0+a1)(b0+b1) − t0 − t1 + ξ·t2`,
`c2 = (a0+a2)(b0+b2) − t0 − t2 + t1`. -/
def fp6_mul (a b : Fp6 p β ξ) : Fp6 p β ξ :=
  let t0 := fp2_mul a.c0 b.c0
  let t1 := fp2_mul a.c1 b.c1
  let t2 := fp2_mul a.c2 b.c2
  let c0 := fp2_add t0 (fp2_mul_nor ξ
    (fp2_sub (fp2_sub (fp2_mul (fp2_add a.c1 a.c2) (fp2_add b.c1 b.c2)) t1) t2))
  let c1 := fp2_add
    (fp2_sub (fp2_sub (fp2_mul (fp2_add a.c0 a.c1) (fp2_add b.c0 b.c1)) t0) t1)
    (fp2_mul_nor ξ t2)
  let c2 := fp2_add
    (fp2_sub (fp2_sub (fp2_mul (fp2_add a.c0 a.c2) (fp2_add b.c0 b.c2)) t0) t2) t1
  ⟨c0, c1, c2⟩

/-- Modelled from the spec: `fp6_mul_art` (absent from src/), multiplication by
the adjoined root `v`: `c0 = ξ·a2`, `c1 = a0`, `c2 = a1` (§4.2). -/
def fp6_mul_art (a : Fp6 p β ξ) : Fp6 p β ξ := ⟨fp2_mul_nor ξ a.c2, a.c0, a.c1⟩

instance : Zero (Fp6 p β ξ) := ⟨fp6_zero⟩
instance : One (Fp6 p β ξ) := ⟨fp6_one⟩
instance : Add (Fp6 p β ξ) := ⟨fp6_add⟩
instance : Sub (Fp6 p β ξ) := ⟨fp6_sub⟩
instance : Neg (Fp6 p β ξ) := ⟨fp6_neg⟩
instance : Mul (Fp6 p β ξ) := ⟨fp6_mul⟩
instance : NatCast (Fp6 p β ξ) := ⟨fun n => ⟨n, 0, 0⟩⟩
instance : IntCast (Fp6 p β ξ) := ⟨fun n => ⟨n, 0, 0⟩⟩


@[simp] theorem fp6_zero_c0 : (0 : Fp6 p β ξ).c0 = 0 := rfl
@[simp] theorem fp6_zero_c1 : (0 : Fp6 p β ξ).c1 = 0 := rfl
@[simp] theorem fp6_zero_c2 : (0 : Fp6 p β ξ).c2 = 0 := rfl
@[simp] theorem fp6_one_c0 : (1 : Fp6 p β ξ).c0 = 1 := rfl
@[simp] theorem fp6_one_c1 : (1 : Fp6 p β ξ).c1 = 0 := rfl
@[simp] theorem fp6_one_c2 : (1 : Fp6 p β ξ).c2 = 0 := rfl
@[simp] theorem fp6_add_c0 (a b : Fp6 p β ξ) : (a + b).c0 = a.c0 + b.c0 := rfl
@[simp] theorem fp6_add_c1 (a b : Fp6 p β ξ) : (a + b).c1 = a.c1 + b.c1 := rfl
@[simp] theorem fp6_add_c2 (a b : Fp6 p β ξ) : (a + b).c2 = a.c2 + b.c2 := rfl
@[simp] theorem fp6_sub_c0 (a b : Fp6 p β ξ) : (a - b).c0 = a.c0 - b.c0 := rfl
@[simp] theorem fp6_sub_c1 (a b : Fp6 p β ξ) : (a - b).c1 = a.c1 - b.c1 := rfl
@[simp] theorem fp6_sub_c2 (a b : Fp6 p β ξ) : (a - b).c2 = a.c2 - b.c2 := rfl
@[simp] theorem fp6_neg_c0 (a : Fp6 p β ξ) : (-a).c0 = -a.c0 := rfl
@[simp] theorem fp6_neg_c1 (a : Fp6 p β ξ) : (-a).c1 = -a.c1 := rfl
@[simp] theorem fp6_neg_c2 (a : Fp6 p β ξ) : (-a).c2 = -a.c2 := rfl
@[simp] theorem fp6_natCast_c0 (n : ℕ) : (n : Fp6 p β ξ).c0 = n := rfl
@[simp] theorem fp6_natCast_c1 (n : ℕ) : (n : Fp6 p β ξ).c1 = 0 := rfl
@[simp] theorem fp6_natCast_c2 (n : ℕ) : (n : Fp6 p β ξ).c2 = 0 := rfl
@[simp] theorem fp6_intCast_c0 (n : ℤ) : (n : Fp6 p β ξ).c0 = n := rfl
@[simp] theorem fp6_intCast_c1 (n : ℤ) : (n : Fp6 p β ξ).c1 = 0 := rfl
@[simp] theorem fp6_intCast_c2 (n : ℤ) : (n : Fp6 p β ξ).c2 = 0 := rfl
@[simp] theorem fp6_ofNat_c0 (n : ℕ) [n.AtLeastTwo] :
    (no_index (OfNat.ofNat n) : Fp6 p β ξ).c0 = OfNat.ofNat n := rfl
@[simp] theorem fp6_ofNat_c1 (n : ℕ) [n.AtLeastTwo] : (no_index (OfNat.ofNat n) : Fp6 p β ξ).c1 = 0 := rfl
@[simp] theorem fp6_ofNat_c2 (n : ℕ) [n.AtLeastTwo] : (no_index (OfNat.ofNat n) : Fp6 p β ξ).c2 = 0 := rfl

@[simp] theorem fp6_mul_c0 (a b : Fp6 p β ξ) :
    (a * b).c0 = a.c0 * b.c0 + ξ * (a.c1 * b.c2 + a.c2 * b.c1) := by
  show (fp6_mul a b).c0 = _
  simp only [fp6_mul, fp2_add_eq, fp2_sub_eq, fp2_mul_eq, fp2_mul_nor_eq]
  ring

@[simp] theorem fp6_mul_c1 (a b : Fp6 p β ξ) :
    (a * b).c1 = a.c0 * b.c1 + a.c1 * b.c0 + ξ * (a.c2 * b.c2) := by
  show (fp6_mul a b).c1 = _
  simp only [fp6_mul, fp2_add_eq, fp2_sub_eq, fp2_mul_eq, fp2_mul_nor_eq]
  ring

@[simp] theorem fp6_mul_c2 (a b : Fp6 p β ξ) :
    (a * b).c2 = a.c0 * b.c2 + a.c1 * b.c1 + a.c2 * b.c0 := by
  show (fp6_mul a b).c2 = _
  simp only [fp6_mul, fp2_add_eq, fp2_sub_eq, fp2_mul_eq, fp2_mul_nor_eq]
  ring

instance instAddCommGroupFp6 : AddCommGroup (Fp6 p β ξ) where
  add_assoc a b c := by apply Fp6.ext <;> simp <;> ring
  zero_add a := by apply Fp6.ext <;> simp
  add_zero a := by apply Fp6.ext <;> simp
  add_comm a b := by apply Fp6.ext <;> simp <;> ring
  nsmul := nsmulRec
  zsmul := zsmulRec
  neg_add_cancel a := by apply Fp6.ext <;> simp
  sub_eq_add_neg a b := by apply Fp6.ext <;> simp <;> ring

instance instCommMonoidFp6 : CommMonoid (Fp6 p β ξ) where
  mul_assoc a b c := by apply Fp6.ext <;> simp <;> ring
  one_mul a := by apply Fp6.ext <;> simp
  mul_one a := by apply Fp6.ext <;> simp
  mul_comm a b := by apply Fp6.ext <;> simp <;> ring

instance instCommRingFp6 : CommRing (Fp6 p β ξ) where
  __ := instAddCommGroupFp6
  __ := instCommMonoidFp6
  left_distrib a b c := by apply Fp6.ext <;> simp <;> ring
  right_distrib a b c := by apply Fp6.ext <;> simp <;> ring
  zero_mul a := by apply Fp6.ext <;> simp
  mul_zero a := by apply Fp6.ext <;> simp
  natCast_zero := by apply Fp6.ext <;> simp
  natCast_succ n := by apply Fp6.ext <;> simp
  intCast_ofNat n := by apply Fp6.ext <;> simp
  intCast_negSucc n := by apply Fp6.ext <;> simp

theorem fp6_add_eq (a b : Fp6 p β ξ) : fp6_add a b = a + b := rfl

theorem fp6_sub_eq (a b : Fp6 p β ξ) : fp6_sub a b = a - b := rfl

theorem fp6_mul_eq (a b : Fp6 p β ξ) : fp6_mul a b = a * b := rfl

theorem fp6_dbl_eq (a : Fp6 p β ξ) : fp6_dbl a = 2 * a := by
  rw [two_mul]; rfl

/-- The adjoined root `v` of Fp6. -/
def Fp6.v : Fp6 p β ξ := ⟨0, 1, 0⟩

theorem fp6_mul_art_eq (a : Fp6 p β ξ) : fp6_mul_art a = Fp6.v * a := by
  apply Fp6.ext <;> simp [fp6_mul_art, Fp6.v, fp2_mul_nor_eq]


/-! ## The dodecic extension Fp12 -/

/-- An element `c0 + c1·w` of `Fp12 = Fp6[w]/(w² − v)` (the C type `fp12_t`, an
array of two `fp6_t`); `a[i][j]` of the C code is `a.ci.cj`. -/
@[ext] structure Fp12 (p : ℕ) (β : ZMod p) (ξ : Fp2 p β) where
  c0 : Fp6 p β ξ
  c1 : Fp6 p β ξ
deriving DecidableEq

/-- Modelled from the spec: `fp12_zero` (absent from src/). -/
def fp12_zero : Fp12 p β ξ := ⟨fp6_zero, fp6_zero⟩

/-- Modelled from the spec: the multiplicative identity of Fp12 (absent from
src/): `c0[0][0] = 1`, all other components zero (§8). -/
def fp12_one : Fp12 p β ξ := ⟨fp6_one, fp6_zero⟩

/-- Modelled from the spec: `fp12_add` (absent from src/), component-wise
(§4.3). -/
def fp12_add (a b : Fp12 p β ξ) : Fp12 p β ξ := ⟨fp6_add a.c0 b.c0, fp6_add a.c1 b.c1⟩

/-- Modelled from the spec: `fp12_sub` (absent from src/), component-wise
(§4.3). -/
def fp12_sub (a b : Fp12 p β ξ) : Fp12 p β ξ := ⟨fp6_sub a.c0 b.c0, fp6_sub a.c1 b.c1⟩

/-- Modelled from the spec: `fp12_neg` (absent from src/), component-wise
(§4.3). -/
def fp12_neg (a : Fp12 p β ξ) : Fp12 p β ξ := ⟨fp6_neg a.c0, fp6_neg a.c1⟩

/-- Modelled from the spec: `fp12_mul` (absent from src/), Karatsuba with three
Fp6 multiplications (§4.3): `t0 = a0·b0`, `t1 = a1·b1`,
`t2 = (a0+a1)(b0+b1)`, `c0 = t0 + v·t1`, `c1 = t2 − t0 − t1`. -/
def fp12_mul (a b : Fp12 p β ξ) : Fp12 p β ξ :=
  let t0 := fp6_mul a.c0 b.c0
  let t1 := fp6_mul a.c1 b.c1
  let t2 := fp6_mul (fp6_add a.c0 a.c1) (fp6_add b.c0 b.c1)
  ⟨fp6_add t0 (fp6_mul_art t1), fp6_sub (fp6_sub t2 t0) t1⟩

instance : Zero (Fp12 p β ξ) := ⟨fp12_zero⟩
instance : One (Fp12 p β ξ) := ⟨fp12_one⟩
instance : Add (Fp12 p β ξ) := ⟨fp12_add⟩
instance : Sub (Fp12 p β ξ) := ⟨fp12_sub⟩
instance : Neg (Fp12 p β ξ) := ⟨fp12_neg⟩
instance : Mul (Fp12 p β ξ) := ⟨fp12_mul⟩
instance : NatCast (Fp12 p β ξ) := ⟨fun n => ⟨n, 0⟩⟩
instance : IntCast (Fp12 p β ξ) := ⟨fun n => ⟨n, 0⟩⟩


@[simp] theorem fp12_zero_c0 : (0 : Fp12 p β ξ).c0 = 0 := rfl
@[simp] theorem fp12_zero_c1 : (0 : Fp12 p β ξ).c1 = 0 := rfl
@[simp] theorem fp12_one_c0 : (1 : Fp12 p β ξ).c0 = 1 := rfl
@[simp] theorem fp12_one_c1 : (1 : Fp12 p β ξ).c1 = 0 := rfl
@[simp] theorem fp12_add_c0 (a b : Fp12 p β ξ) : (a + b).c0 = a.c0 + b.c0 := rfl
@[simp] theorem fp12_add_c1 (a b : Fp12 p β ξ) : (a + b).c1 = a.c1 + b.c1 := rfl
@[simp] theorem fp12_sub_c0 (a b : Fp12 p β ξ) : (a - b).c0 = a.c0 - b.c0 := rfl
@[simp] theorem fp12_sub_c1 (a b : Fp12 p β ξ) : (a - b).c1 = a.c1 - b.c1 := rfl
@[simp] theorem fp12_neg_c0 (a : Fp12 p β ξ) : (-a).c0 = -a.c0 := rfl
@[simp] theorem fp12_neg_c1 (a : Fp12 p β ξ) : (-a).c1 = -a.c1 := rfl
@[simp] theorem fp12_natCast_c0 (n : ℕ) : (n : Fp12 p β ξ).c0 = n := rfl
@[simp] theorem fp12_natCast_c1 (n : ℕ) : (n : Fp12 p β ξ).c1 = 0 := rfl
@[simp] theorem fp12_intCast_c0 (n : ℤ) : (n : Fp12 p β ξ).c0 = n := rfl
@[simp] theorem fp12_intCast_c1 (n : ℤ) : (n : Fp12 p β ξ).c1 = 0 := rfl
@[simp] theorem fp12_ofNat_c0 (n : ℕ) [n.AtLeastTwo] :
    (no_index (OfNat.ofNat n) : Fp12 p β ξ).c0 = OfNat.ofNat n := rfl
@[simp] theorem fp12_ofNat_c1 (n : ℕ) [n.AtLeastTwo] : (no_index (OfNat.ofNat n) : Fp12 p β ξ).c1 = 0 := rfl

@[simp] theorem fp12_mul_c0 (a b : Fp12 p β ξ) :
    (a * b).c0 = a.c0 * b.c0 + Fp6.v * (a.c1 * b.c1) := by
  show (fp12_mul a b).c0 = _
  simp only [fp12_mul, fp6_add_eq, fp6_mul_eq, fp6_mul_art_eq]

@[simp] theorem fp12_mul_c1 (a b : Fp12 p β ξ) :
    (a * b).c1 = a.c0 * b.c1 + a.c1 * b.c0 := by
  show (fp12_mul a b).c1 = _
  simp only [fp12_mul, fp6_add_eq, fp6_sub_eq, fp6_mul_eq]
  ring

instance instAddCommGroupFp12 : AddCommGroup (Fp12 p β ξ) where
  add_assoc a b c := by apply Fp12.ext <;> simp <;> ring
  zero_add a := by apply Fp12.ext <;> simp
  add_zero a := by apply Fp12.ext <;> simp
  add_comm a b := by apply Fp12.ext <;> simp <;> ring
  nsmul := nsmulRec
  zsmul := zsmulRec
  neg_add_cancel a := by apply Fp12.ext <;> simp
  sub_eq_add_neg a b := by apply Fp12.ext <;> simp <;> ring

instance instCommMonoidFp12 : CommMonoid (Fp12 p β ξ) where
  mul_assoc a b c := by apply Fp12.ext <;> simp <;> ring
  one_mul a := by apply Fp12.ext <;> simp
  mul_one a := by apply Fp12.ext <;> simp
  mul_comm a b := by apply Fp12.ext <;> simp <;> ring

instance instCommRingFp12 : CommRing (Fp12 p β ξ) where
  __ := instAddCommGroupFp12
  __ := instCommMonoidFp12
  left_distrib a b c := by apply Fp12.ext <;> simp <;> ring
  right_distrib a b c := by apply Fp12.ext <;> simp <;> ring
  zero_mul a := by apply Fp12.ext <;> simp
  mul_zero a := by apply Fp12.ext <;> simp
  natCast_zero := by apply Fp12.ext <;> simp
  natCast_succ n := by apply Fp12.ext <;> simp
  intCast_ofNat n := by apply Fp12.ext <;> simp
  intCast_negSucc n := by apply Fp12.ext <;> simp

theorem fp12_mul_eq (a b : Fp12 p β ξ) : fp12_mul a b = a * b := rfl

theorem fp12_one_eq : (fp12_one : Fp12 p β ξ) = 1 := rfl


/-- Modelled from the spec: `fp12_inv_uni` (absent from src/), the conjugate
`c = (a0, −a1)` (§4.3). -/
def fp12_inv_uni (a : Fp12 p β ξ) : Fp12 p β ξ := ⟨a.c0, fp6_neg a.c1⟩

/-- Modelled from the spec: the decompression formulas of §4.4 (absent from
src/) on the four compressed coordinates, giving `(g0, g1)`:
if `g2 ≠ 0`, `g1 = (g5²·ξ + 3·g4² − 2·g3)/(4·g2)` and
`g0 = (2·g1² + g2·g5 − 3·g3·g4)·ξ + 1`;
if `g2 = 0`, `g1 = 2·g4·g5/g3` and `g0 = (2·g1² − 3·g3·g4)·ξ + 1`.
The result is `none` when the divisor is zero (`fp2_inv` fails). -/
def back_cyc_coords (ξ g2 g3 g4 g5 : Fp2 p β) : Option (Fp2 p β × Fp2 p β) :=
  if g2 ≠ 0 then
    (fp2_inv (4 * g2)).map fun i =>
      let g1 := (g5 * g5 * ξ + 3 * (g4 * g4) - 2 * g3) * i
      let g0 := (2 * (g1 * g1) + g2 * g5 - 3 * (g3 * g4)) * ξ + 1
      (g0, g1)
  else
    (fp2_inv g3).map fun i =>
      let g1 := 2 * (g4 * g5) * i
      let g0 := (2 * (g1 * g1) - 3 * (g3 * g4)) * ξ + 1
      (g0, g1)

/-- Modelled from the spec: `fp12_back_cyc` (absent from src/), decompression
with the coordinate naming of §4.4: `g0 = c0[0]`, `g1 = c1[1]`, `g2 = c0[1]`,
`g3 = c1[0]`, `g4 = c0[2]`, `g5 = c1[2]`. -/
def fp12_back_cyc (c : Fp12 p β ξ) : Option (Fp12 p β ξ) :=
  (back_cyc_coords ξ c.c0.c1 c.c1.c0 c.c0.c2 c.c1.c2).map fun r =>
    ⟨⟨r.1, c.c0.c1, c.c0.c2⟩, ⟨c.c1.c0, r.2, c.c1.c2⟩⟩

/-- The decompression formulas of §4.4 read with the coordinates of the
Fp4-view used by the squaring routines, `a = (a00, a11) + (a10, a02)·w +
(a01, a12)·w²`: `g0 = c0[0]`, `g1 = c1[1]`, `g2 = c1[0]`, `g3 = c0[2]`,
`g4 = c0[1]`, `g5 = c1[2]`. -/
def fp12_back_cyc_fp4 (c : Fp12 p β ξ) : Option (Fp12 p β ξ) :=
  (back_cyc_coords ξ c.c1.c0 c.c0.c2 c.c0.c1 c.c1.c2).map fun r =>
    ⟨⟨r.1, c.c0.c1, c.c0.c2⟩, ⟨c.c1.c0, r.2, c.c1.c2⟩⟩

/-- The field tower is well formed: `p` is an odd prime, `β` is a quadratic
non-residue of Fp, and `ξ` is neither a square nor a cube in Fp2 (so that
`v³ = ξ` and `w² = v` define fields). -/
structure IsTower (p : ℕ) (β : ZMod p) (ξ : Fp2 p β) : Prop where
  prime : p.Prime
  odd : p ≠ 2
  beta : ¬ IsSquare β
  xi_sq : ¬ IsSquare ξ
  xi_cube : ¬ ∃ y : Fp2 p β, y ^ 3 = ξ

/-! ## The routines of `relic_fp12_sqr.c`

Each routine is transcribed statement by statement; a C assignment to a
temporary becomes a `let` that shadows the previous binding.  The routines
that overwrite the whole of `c` return the new `c`; the compressed squarings,
which write only part of `c`, take the prior content of `c` as an argument. -/

/-- Embedding of `fp4_mul_unr` (relic_fp12_sqr.c, lines 46-85):
`(e, f) = (a + b·z)(c + d·z)` over `Fp4 = Fp2[z]/(z² − ξ)`, unreduced.  The
flag selects the `FP_SPACE` branch of the conditional compilation. -/
def fp4_mul_unr (ξ : Fp2 p β) (fp_space : Bool) (a b c d : Fp2 p β) :
    Dv2 p β × Dv2 p β :=
  let u0 := if fp_space then fp2_mulc_low a c else fp2_muln_low a c
  let u1 := if fp_space then fp2_mulc_low b d else fp2_muln_low b d
  let t0 := if fp_space then fp2_addn_low c d else fp2_addm_low c d
  let t1 := if fp_space then fp2_addn_low a b else fp2_addm_low a b
  let f := fp2_muln_low t1 t0
  let f := fp2_subc_low f u0
  let f := fp2_subc_low f u1
  let e := fp2_nord_low ξ u1
  let e := fp2_addc_low e u0
  (e, f)

/-- Embedding of `fp4_sqr_unr` (relic_fp12_sqr.c, lines 87-110):
`(c, d) = (a + b·z)²` over `Fp4`, unreduced. -/
def fp4_sqr_unr (ξ : Fp2 p β) (a b : Fp2 p β) : Dv2 p β × Dv2 p β :=
  let u0 := fp2_sqrn_low a
  let u1 := fp2_sqrn_low b
  let t := fp2_addm_low a b
  let c := fp2_nord_low ξ u1
  let c := fp2_addc_low c u0
  let u1 := fp2_addc_low u1 u0
  let d := fp2_sqrn_low t
  let d := fp2_subc_low d u1
  (c, d)

/-- Embedding of `fp12_sqr` (relic_fp12_sqr.c, lines 118-143), with the output
`c` distinct from the input `a`. -/
def fp12_sqr (a : Fp12 p β ξ) : Fp12 p β ξ :=
  let t0 := fp6_add a.c0 a.c1
  let t1 := fp6_mul_art a.c1
  let t1 := fp6_add a.c0 t1
  let t0 := fp6_mul t0 t1
  let c1 := fp6_mul a.c0 a.c1
  let c0 := fp6_sub t0 c1
  let t1 := fp6_mul_art c1
  let c0 := fp6_sub c0 t1
  let c1 := fp6_dbl c1
  ⟨c0, c1⟩

/-- Embedding of `fp12_sqr2` (relic_fp12_sqr.c, lines 147-251).  The flag is the
`FP_SPACE` switch seen by the callee `fp4_mul_unr`. -/
def fp12_sqr2 (fp_space : Bool) (a : Fp12 p β ξ) : Fp12 p β ξ :=
  -- (t0,t1) = a0^2
  let r := fp4_sqr_unr ξ a.c0.c0 a.c1.c1
  let t0 := fp2_rdcn_low r.1
  let t1 := fp2_rdcn_low r.2
  -- (t2,t3) = 2 * a1 * a2
  let r := fp4_mul_unr ξ fp_space a.c1.c0 a.c0.c2 a.c0.c1 a.c1.c2
  let u2 := fp2_addc_low r.1 r.1
  let u3 := fp2_addc_low r.2 r.2
  let t2 := fp2_rdcn_low u2
  let t3 := fp2_rdcn_low u3
  -- (t4,t5) = a2^2
  let r := fp4_sqr_unr ξ a.c0.c1 a.c1.c2
  let t4 := fp2_rdcn_low r.1
  let t5 := fp2_rdcn_low r.2
  -- c2 = a0 + a2
  let t8 := fp2_addn_low a.c0.c0 a.c0.c1
  let t9 := fp2_addn_low a.c1.c1 a.c1.c2
  -- (t6,t7) = (a0 + a2 + a1)^2
  let t6 := fp2_addn_low t8 a.c1.c0
  let t7 := fp2_addn_low t9 a.c0.c2
  let r := fp4_sqr_unr ξ t6 t7
  let t6 := fp2_rdcn_low r.1
  let t7 := fp2_rdcn_low r.2
  -- c2 = (a0 + a2 - a1)^2
  let t8 := fp2_subn_low t8 a.c1.c0
  let t9 := fp2_subn_low t9 a.c0.c2
  let r := fp4_sqr_unr ξ t8 t9
  let t8 := fp2_rdcn_low r.1
  let t9 := fp2_rdcn_low r.2
  -- c2 = (c2 + (t6,t7))/2
  let t8 := fp2_addn_low t8 t6
  let t9 := fp2_addn_low t9 t7
  let t8 : Fp2 p β := ⟨fp_hlv t8.c0, t8.c1⟩
  let t8 : Fp2 p β := ⟨t8.c0, fp_hlv t8.c1⟩
  let t9 : Fp2 p β := ⟨fp_hlv t9.c0, t9.c1⟩
  let t9 : Fp2 p β := ⟨t9.c0, fp_hlv t9.c1⟩
  -- (t6,t7) = (t6,t7) - c2 - (t2,t3)
  let t6 := fp2_sub t6 t8
  let t7 := fp2_sub t7 t9
  let t6 := fp2_sub t6 t2
  let t7 := fp2_sub t7 t3
  -- c2 = c2 - (t0,t1) - (t4,t5)
  let t8 := fp2_sub t8 t0
  let t9 := fp2_sub t9 t1
  let c01 := fp2_sub t8 t4
  let c12 := fp2_sub t9 t5
  -- c1 = (t6,t7) + (t4,t5) * E
  let t9 := fp2_mul_nor ξ t5
  let c10 := fp2_add t6 t9
  let c02 := fp2_add t7 t4
  -- c0 = (t0,t1) + (t2,t3) * E
  let t9 := fp2_mul_nor ξ t3
  let c00 := fp2_add t0 t9
  let c11 := fp2_add t1 t2
  ⟨⟨c00, c01, c02⟩, ⟨c10, c11, c12⟩⟩

/-- Embedding of `fp12_sqr_cyc_basic` (relic_fp12_sqr.c, lines 257-349), with the
output `c` distinct from the input `a`. -/
def fp12_sqr_cyc_basic (a : Fp12 p β ξ) : Fp12 p β ξ :=
  -- (t0, t1) = (a00 + a11*z)^2
  let t2 := fp2_sqr a.c0.c0
  let t3 := fp2_sqr a.c1.c1
  let t1 := fp2_add a.c0.c0 a.c1.c1
  let t0 := fp2_mul_nor ξ t3
  let t0 := fp2_add t0 t2
  let t1 := fp2_sqr t1
  let t1 := fp2_sub t1 t2
  let t1 := fp2_sub t1 t3
  let c00 := fp2_sub t0 a.c0.c0
  let c00 := fp2_add c00 c00
  let c00 := fp2_add t0 c00
  let c11 := fp2_add t1 a.c1.c1
  let c11 := fp2_add c11 c11
  let c11 := fp2_add t1 c11
  let t0 := fp2_sqr a.c0.c1
  let t1 := fp2_sqr a.c1.c2
  let t5 := fp2_add a.c0.c1 a.c1.c2
  let t2 := fp2_sqr t5
  let t3 := fp2_add t0 t1
  let t5 := fp2_sub t2 t3
  let t6 := fp2_add a.c1.c0 a.c0.c2
  let t3 := fp2_sqr t6
  let t2 := fp2_sqr a.c1.c0
  let t6 := fp2_mul_nor ξ t5
  let t5 := fp2_add t6 a.c1.c0
  let t5 := fp2_dbl t5
  let c10 := fp2_add t5 t6
  let t4 := fp2_mul_nor ξ t1
  let t5 := fp2_add t0 t4
  let t6 := fp2_sub t5 a.c0.c2
  let t1 := fp2_sqr a.c0.c2
  let t6 := fp2_dbl t6
  let c02 := fp2_add t6 t5
  let t4 := fp2_mul_nor ξ t1
  let t5 := fp2_add t2 t4
  let t6 := fp2_sub t5 a.c0.c1
  let t6 := fp2_dbl t6
  let c01 := fp2_add t6 t5
  let t0 := fp2_add t2 t1
  let t5 := fp2_sub t3 t0
  let t6 := fp2_add t5 a.c1.c2
  let t6 := fp2_dbl t6
  let c12 := fp2_add t5 t6
  ⟨⟨c00, c01, c02⟩, ⟨c10, c11, c12⟩⟩

/-- Embedding of `fp12_sqr_pck_basic` (relic_fp12_sqr.c, lines 351-419).  The
first argument is the content of `c` before the call; `c[0][0]` and `c[1][1]`
are never assigned. -/
def fp12_sqr_pck_basic (c a : Fp12 p β ξ) : Fp12 p β ξ :=
  let t0 := fp2_sqr a.c0.c1
  let t1 := fp2_sqr a.c1.c2
  let t5 := fp2_add a.c0.c1 a.c1.c2
  let t2 := fp2_sqr t5
  let t3 := fp2_add t0 t1
  let t5 := fp2_sub t2 t3
  let t6 := fp2_add a.c1.c0 a.c0.c2
  let t3 := fp2_sqr t6
  let t2 := fp2_sqr a.c1.c0
  let t6 := fp2_mul_nor ξ t5
  let t5 := fp2_add t6 a.c1.c0
  let t5 := fp2_dbl t5
  let c10 := fp2_add t5 t6
  let t4 := fp2_mul_nor ξ t1
  let t5 := fp2_add t0 t4
  let t6 := fp2_sub t5 a.c0.c2
  let t1 := fp2_sqr a.c0.c2
  let t6 := fp2_dbl t6
  let c02 := fp2_add t6 t5
  let t4 := fp2_mul_nor ξ t1
  let t5 := fp2_add t2 t4
  let t6 := fp2_sub t5 a.c0.c1
  let t6 := fp2_dbl t6
  let c01 := fp2_add t6 t5
  let t0 := fp2_add t2 t1
  let t5 := fp2_sub t3 t0
  let t6 := fp2_add t5 a.c1.c2
  let t6 := fp2_dbl t6
  let c12 := fp2_add t5 t6
  ⟨⟨c.c0.c0, c01, c02⟩, ⟨c10, c.c1.c1, c12⟩⟩

/-- Embedding of `fp12_sqr_cyc_lazyr` (relic_fp12_sqr.c, lines 425-519), with the
output `c` distinct from the input `a`. -/
def fp12_sqr_cyc_lazyr (a : Fp12 p β ξ) : Fp12 p β ξ :=
  let u2 := fp2_sqrn_low a.c0.c0
  let u3 := fp2_sqrn_low a.c1.c1
  let t1 := fp2_add a.c0.c0 a.c1.c1
  let u0 := fp2_nord_low ξ u3
  let u0 := fp2_addc_low u0 u2
  let t0 := fp2_rdcn_low u0
  let u1 := fp2_sqrn_low t1
  let u2 := fp2_addd_low u2 u3
  let u1 := fp2_subc_low u1 u2
  let t1 := fp2_rdcn_low u1
  let c00 := fp2_sub t0 a.c0.c0
  let c00 := fp2_dbl c00
  let c00 := fp2_add t0 c00
  let c11 := fp2_add t1 a.c1.c1
  let c11 := fp2_dbl c11
  let c11 := fp2_add t1 c11
  let u0 := fp2_sqrn_low a.c0.c1
  let u1 := fp2_sqrn_low a.c1.c2
  let t0 := fp2_add a.c0.c1 a.c1.c2
  let u2 := fp2_sqrn_low t0
  let u3 := fp2_addd_low u0 u1
  let u3 := fp2_subc_low u2 u3
  let t0 := fp2_rdcn_low u3
  let t1 := fp2_add a.c1.c0 a.c0.c2
  let u3 := fp2_sqrn_low t1
  let u2 := fp2_sqrn_low a.c1.c0
  let t1 := fp2_mul_nor ξ t0
  let t0 := fp2_add t1 a.c1.c0
  let t0 := fp2_dbl t0
  let c10 := fp2_add t0 t1
  let u4 := fp2_nord_low ξ u1
  let u4 := fp2_addc_low u0 u4
  let t0 := fp2_rdcn_low u4
  let t1 := fp2_sub t0 a.c0.c2
  let u1 := fp2_sqrn_low a.c0.c2
  let t1 := fp2_dbl t1
  let c02 := fp2_add t1 t0
  let u4 := fp2_nord_low ξ u1
  let u4 := fp2_addc_low u2 u4
  let t0 := fp2_rdcn_low u4
  let t1 := fp2_sub t0 a.c0.c1
  let t1 := fp2_dbl t1
  let c01 := fp2_add t1 t0
  let u0 := fp2_addd_low u2 u1
  let u3 := fp2_subc_low u3 u0
  let t0 := fp2_rdcn_low u3
  let t1 := fp2_add t0 a.c1.c2
  let t1 := fp2_dbl t1
  let c12 := fp2_add t0 t1
  ⟨⟨c00, c01, c02⟩, ⟨c10, c11, c12⟩⟩

/-- Embedding of `fp12_sqr_pck_lazyr` (relic_fp12_sqr.c, lines 521-594).  The
first argument is the content of `c` before the call; `c[0][0]` and `c[1][1]`
are never assigned. -/
def fp12_sqr_pck_lazyr (c a : Fp12 p β ξ) : Fp12 p β ξ :=
  let u0 := fp2_sqrn_low a.c0.c1
  let u1 := fp2_sqrn_low a.c1.c2
  let t0 := fp2_add a.c0.c1 a.c1.c2
  let u2 := fp2_sqrn_low t0
  let u3 := fp2_addc_low u0 u1
  let u3 := fp2_subc_low u2 u3
  let t0 := fp2_rdcn_low u3
  let t1 := fp2_add a.c1.c0 a.c0.c2
  let u3 := fp2_sqrn_low t1
  let u2 := fp2_sqrn_low a.c1.c0
  let t1 := fp2_mul_nor ξ t0
  let t0 := fp2_add t1 a.c1.c0
  let t0 := fp2_dbl t0
  let c10 := fp2_add t0 t1
  let u4 := fp2_nord_low ξ u1
  let u4 := fp2_addc_low u0 u4
  let t0 := fp2_rdcn_low u4
  let t1 := fp2_sub t0 a.c0.c2
  let u1 := fp2_sqrn_low a.c0.c2
  let t1 := fp2_dbl t1
  let c02 := fp2_add t1 t0
  let u4 := fp2_nord_low ξ u1
  let u4 := fp2_addc_low u2 u4
  let t0 := fp2_rdcn_low u4
  let t1 := fp2_sub t0 a.c0.c1
  let t1 := fp2_dbl t1
  let c01 := fp2_add t1 t0
  let u0 := fp2_addc_low u2 u1
  let u3 := fp2_subc_low u3 u0
  let t0 := fp2_rdcn_low u3
  let t1 := fp2_add t0 a.c1.c2
  let t1 := fp2_dbl t1
  let c12 := fp2_add t0 t1
  ⟨⟨c.c0.c0, c01, c02⟩, ⟨c10, c.c1.c1, c12⟩⟩

/-! ## `fp12_sqr` on explicit storage

To speak about a call whose output pointer aliases its input pointer, the
routine is also given as a sequence of assignments on a store of `fp6_t` cells.
The pointer arguments `c[0]`, `c[1]`, `a[0]`, `a[1]` are the cells they
designate; passing the same cells for `c` and `a` is the in-place call
`fp12_sqr(a, a)`.  Each consumed Fp6 primitive reads its operands before it
writes its destination. -/

/-- The `fp6_t` cells `fp12_sqr` can touch: the halves of the caller's two
`fp12_t` objects and the two temporaries. -/
inductive Cell6 where
  | a0 | a1 | c0 | c1 | t0 | t1
deriving DecidableEq

/-- A store of `fp6_t` cells. -/
abbrev Store6 (p : ℕ) (β : ZMod p) (ξ : Fp2 p β) := Cell6 → Fp6 p β ξ

/-- Assignment to one cell. -/
def Store6.set (s : Store6 p β ξ) (x : Cell6) (val : Fp6 p β ξ) : Store6 p β ξ :=
  fun y => if y = x then val else s y

/-- Embedding of the body of `fp12_sqr` (relic_fp12_sqr.c, lines 128-136) on
storage: `pc0 pc1` are the cells of `c[0]`, `c[1]` and `pa0 pa1` those of
`a[0]`, `a[1]`. -/
def fp12_sqr_mem (pc0 pc1 pa0 pa1 : Cell6) (s : Store6 p β ξ) : Store6 p β ξ :=
  let s := s.set .t0 (fp6_add (s pa0) (s pa1))
  let s := s.set .t1 (fp6_mul_art (s pa1))
  let s := s.set .t1 (fp6_add (s pa0) (s .t1))
  let s := s.set .t0 (fp6_mul (s .t0) (s .t1))
  let s := s.set pc1 (fp6_mul (s pa0) (s pa1))
  let s := s.set pc0 (fp6_sub (s .t0) (s pc1))
  let s := s.set .t1 (fp6_mul_art (s pc1))
  let s := s.set pc0 (fp6_sub (s pc0) (s .t1))
  let s := s.set pc1 (fp6_dbl (s pc1))
  s

/-! ## Auxiliary definitions -/

/-- The constant one half of Fp2. -/
def Fp2.half : Fp2 p β := ⟨fp_inv 2, 0⟩

/-- The norm of Fp2 over Fp. -/
def Fp2.norm (a : Fp2 p β) : ZMod p := a.c0 * a.c0 - β * (a.c1 * a.c1)

/-- Fp2 is in bijection with pairs of elements of Fp. -/
def Fp2.equivProd : Fp2 p β ≃ ZMod p × ZMod p where
  toFun a := (a.c0, a.c1)
  invFun x := ⟨x.1, x.2⟩
  left_inv _ := rfl
  right_inv _ := rfl

/-- The embedding of Fp2 in Fp6 as the constant coefficients. -/
def Fp6.ofFp2 : Fp2 p β →+* Fp6 p β ξ where
  toFun a := ⟨a, 0, 0⟩
  map_one' := rfl
  map_zero' := rfl
  map_mul' a b := by apply Fp6.ext <;> simp
  map_add' a b := by apply Fp6.ext <;> simp

/-- The embedding of Fp6 in Fp12 as the constant coefficients. -/
def Fp12.ofFp6 : Fp6 p β ξ →+* Fp12 p β ξ where
  toFun a := ⟨a, 0⟩
  map_one' := rfl
  map_zero' := rfl
  map_mul' a b := by apply Fp12.ext <;> simp
  map_add' a b := by apply Fp12.ext <;> simp

/-- The adjoined root `w` of Fp12. -/
def Fp12.w : Fp12 p β ξ := ⟨0, 1⟩

/-- The `p²`-power Frobenius of Fp6 in coordinates, `ω = ξ^((p²−1)/6)`. -/
def fp6_frbq (ω : Fp2 p β) (x : Fp6 p β ξ) : Fp6 p β ξ :=
  ⟨x.c0, ω ^ 2 * x.c1, ω ^ 4 * x.c2⟩

/-- The `p²`-power Frobenius of Fp12 in coordinates, for a primitive sixth root
of unity `ω = ξ^((p²−1)/6)` of Fp2: the coefficient of `w^k` is scaled by `ω^k`,
with the powers of `ω` reduced through `ω² = ω − 1`. -/
def fp12_frbq (ω : Fp2 p β) (g : Fp12 p β ξ) : Fp12 p β ξ :=
  ⟨⟨g.c0.c0, (ω - 1) * g.c0.c1, -ω * g.c0.c2⟩,
   ⟨ω * g.c1.c0, -g.c1.c1, (1 - ω) * g.c1.c2⟩⟩

/-- The relations between the six Fp2 coordinates of an element of the
cyclotomic subgroup: the three Granger–Scott relations over Fp4 (constant and
`z` parts) and two of the unitarity relations. -/
structure CycRel (g : Fp12 p β ξ) : Prop where
  r1c : g.c0.c0 * g.c0.c0 + ξ * (g.c1.c1 * g.c1.c1)
      - ξ * (g.c1.c0 * g.c1.c2 + g.c0.c2 * g.c0.c1) = g.c0.c0
  r1z : 2 * (g.c0.c0 * g.c1.c1) - (g.c1.c0 * g.c0.c1 + ξ * (g.c0.c2 * g.c1.c2)) = -g.c1.c1
  r2c : g.c0.c0 * g.c1.c0 + ξ * (g.c1.c1 * g.c0.c2) - 2 * (ξ * (g.c0.c1 * g.c1.c2)) = g.c1.c0
  r2z : g.c0.c0 * g.c0.c2 + g.c1.c1 * g.c1.c0 - g.c0.c1 * g.c0.c1 - ξ * (g.c1.c2 * g.c1.c2)
      = -g.c0.c2
  r3c : g.c1.c0 * g.c1.c0 + ξ * (g.c0.c2 * g.c0.c2) - g.c0.c0 * g.c0.c1
      - ξ * (g.c1.c1 * g.c1.c2) = g.c0.c1
  r3z : 2 * (g.c1.c0 * g.c0.c2) - g.c0.c0 * g.c1.c2 - g.c1.c1 * g.c0.c1 = -g.c1.c2
  u0 : g.c0.c0 * g.c0.c0 - ξ * (g.c1.c1 * g.c1.c1)
      + 2 * (ξ * (g.c0.c2 * g.c0.c1 - g.c1.c0 * g.c1.c2)) = 1
  u1 : 2 * (g.c0.c0 * g.c0.c2 - g.c1.c1 * g.c1.c0) + g.c0.c1 * g.c0.c1
      - ξ * (g.c1.c2 * g.c1.c2) = 0

/-- The non-residue `ξ = 2 + u` of the example tower `p = 7`, `β = −1`. -/
abbrev xi7 : Fp2 7 6 := ⟨2, 1⟩

/-- An element of order 13 of Fp12 over the example tower; 13 divides
`Φ12(7) = 2353`, so it lies in the cyclotomic subgroup. -/
abbrev g13 : Fp12 7 6 xi7 := ⟨⟨⟨4, 4⟩, ⟨0, 4⟩, ⟨2, 3⟩⟩, ⟨⟨2, 5⟩, ⟨3, 0⟩, ⟨0, 2⟩⟩⟩

/-! ## The routines as statement lists

For the properties that are about the text of the routines (which cell is read
or written when, which temporary is acquired and released, what happens when
a step raises an error) each routine is also transcribed as data: one `Stmt`
per C statement, with the callee and the arguments as they are written. -/

/-- The identifiers that occur in `relic_fp12_sqr.c`: temporaries and
parameters. -/
inductive Var where
  | t | t0 | t1 | t2 | t3 | t4 | t5 | t6 | t7 | t8 | t9
  | u0 | u1 | u2 | u3 | u4 | u5 | u6 | u7 | u8 | u9
  | a | b | c | d | e | f
deriving DecidableEq

/-- An argument expression: `x`, `x[i]` or `x[i][j]`. -/
inductive Arg where
  | v (x : Var)
  | i1 (x : Var) (i : ℕ)
  | i2 (x : Var) (i j : ℕ)
deriving DecidableEq

/-- The functions and allocation macros called in `relic_fp12_sqr.c`. -/
inductive Fn where
  | fp2_null | fp2_new | fp2_free | dv2_null | dv2_new | dv2_free
  | fp6_null | fp6_new | fp6_free
  | fp2_add | fp2_sub | fp2_dbl | fp2_sqr | fp2_mul_nor
  | fp2_addn_low | fp2_addm_low | fp2_subn_low | fp2_addc_low | fp2_addd_low
  | fp2_subc_low | fp2_muln_low | fp2_mulc_low | fp2_sqrn_low | fp2_nord_low
  | fp2_rdcn_low | fp_hlv
  | fp6_add | fp6_sub | fp6_dbl | fp6_mul | fp6_mul_art
  | fp4_mul_unr | fp4_sqr_unr
deriving DecidableEq

/-- The declared types of the temporaries. -/
inductive Kind where
  | fp2_t | fp6_t | dv2_t
deriving DecidableEq

/-- Error codes of the library that matter here. -/
inductive Err where
  | ERR_NO_MEMORY | ERR_NO_VALID | ERR_CAUGHT
deriving DecidableEq

/-- The content of a `CATCH_ANY` block: `THROW(e)`, or nothing. -/
inductive Handler where
  | rethrow (e : Err)
  | swallow
deriving DecidableEq

/-- One C statement `fn(args)`. -/
structure Stmt where
  fn : Fn
  args : List Arg
deriving DecidableEq

/-- A routine: the declarations of its temporaries, the statements before the
`TRY`, the `TRY` block, the `CATCH_ANY` block and the `FINALLY` block. -/
structure Routine where
  decls : List (Var × Kind)
  pre : List Stmt
  body : List Stmt
  handler : Handler
  fin : List Stmt

/-- Syntactic transcription of `fp4_mul_unr` (relic_fp12_sqr.c, lines 46-85); the
flag selects the `FP_SPACE` branch. -/
def fp4_mul_unr_prog (fp_space : Bool) : Routine where
  decls := [(.t0, .fp2_t), (.t1, .fp2_t), (.u0, .dv2_t), (.u1, .dv2_t)]
  pre := [
    ⟨.fp2_null, [.v .t0]⟩,
    ⟨.fp2_null, [.v .t1]⟩,
    ⟨.dv2_null, [.v .u0]⟩,
    ⟨.dv2_null, [.v .u1]⟩]
  body :=
    [
      ⟨.fp2_new, [.v .t0]⟩,
      ⟨.fp2_new, [.v .t1]⟩,
      ⟨.dv2_new, [.v .u0]⟩,
      ⟨.dv2_new, [.v .u1]⟩] ++
    (if fp_space then [
      ⟨.fp2_mulc_low, [.v .u0, .v .a, .v .c]⟩,
      ⟨.fp2_mulc_low, [.v .u1, .v .b, .v .d]⟩,
      ⟨.fp2_addn_low, [.v .t0, .v .c, .v .d]⟩,
      ⟨.fp2_addn_low, [.v .t1, .v .a, .v .b]⟩]
     else [
      ⟨.fp2_muln_low, [.v .u0, .v .a, .v .c]⟩,
      ⟨.fp2_muln_low, [.v .u1, .v .b, .v .d]⟩,
      ⟨.fp2_addm_low, [.v .t0, .v .c, .v .d]⟩,
      ⟨.fp2_addm_low, [.v .t1, .v .a, .v .b]⟩]) ++
    [
      ⟨.fp2_muln_low, [.v .f, .v .t1, .v .t0]⟩,
      ⟨.fp2_subc_low, [.v .f, .v .f, .v .u0]⟩,
      ⟨.fp2_subc_low, [.v .f, .v .f, .v .u1]⟩,
      ⟨.fp2_nord_low, [.v .e, .v .u1]⟩,
      ⟨.fp2_addc_low, [.v .e, .v .e, .v .u0]⟩]
  handler := .rethrow .ERR_CAUGHT
  fin := [
    ⟨.fp2_free, [.v .t0]⟩,
    ⟨.dv2_free, [.v .t1]⟩,
    ⟨.dv2_free, [.v .u0]⟩,
    ⟨.dv2_free, [.v .u1]⟩]

/-- Syntactic transcription of `fp4_sqr_unr` (relic_fp12_sqr.c, lines 87-110). -/
def fp4_sqr_unr_prog : Routine where
  decls := [(.u0, .dv2_t), (.u1, .dv2_t), (.t, .fp2_t)]
  pre := []
  body := [
    ⟨.fp2_sqrn_low, [.v .u0, .v .a]⟩,
    ⟨.fp2_sqrn_low, [.v .u1, .v .b]⟩,
    ⟨.fp2_addm_low, [.v .t, .v .a, .v .b]⟩,
    ⟨.fp2_nord_low, [.v .c, .v .u1]⟩,
    ⟨.fp2_addc_low, [.v .c, .v .c, .v .u0]⟩,
    ⟨.fp2_addc_low, [.v .u1, .v .u1, .v .u0]⟩,
    ⟨.fp2_sqrn_low, [.v .d, .v .t]⟩,
    ⟨.fp2_subc_low, [.v .d, .v .d, .v .u1]⟩]
  handler := .rethrow .ERR_CAUGHT
  fin := []

/-- Syntactic transcription of `fp12_sqr` (relic_fp12_sqr.c, lines 118-143). -/
def fp12_sqr_prog : Routine where
  decls := [(.t0, .fp6_t), (.t1, .fp6_t)]
  pre := [
    ⟨.fp6_null, [.v .t0]⟩,
    ⟨.fp6_null, [.v .t1]⟩]
  body := [
    ⟨.fp6_new, [.v .t0]⟩,
    ⟨.fp6_new, [.v .t1]⟩,
    ⟨.fp6_add, [.v .t0, .i1 .a 0, .i1 .a 1]⟩,
    ⟨.fp6_mul_art, [.v .t1, .i1 .a 1]⟩,
    ⟨.fp6_add, [.v .t1, .i1 .a 0, .v .t1]⟩,
    ⟨.fp6_mul, [.v .t0, .v .t0, .v .t1]⟩,
    ⟨.fp6_mul, [.i1 .c 1, .i1 .a 0, .i1 .a 1]⟩,
    ⟨.fp6_sub, [.i1 .c 0, .v .t0, .i1 .c 1]⟩,
    ⟨.fp6_mul_art, [.v .t1, .i1 .c 1]⟩,
    ⟨.fp6_sub, [.i1 .c 0, .i1 .c 0, .v .t1]⟩,
    ⟨.fp6_dbl, [.i1 .c 1, .i1 .c 1]⟩]
  handler := .rethrow .ERR_CAUGHT
  fin := [
    ⟨.fp6_free, [.v .t0]⟩,
    ⟨.fp6_free, [.v .t1]⟩]

/-- Syntactic transcription of `fp12_sqr2` (relic_fp12_sqr.c, lines 147-251). -/
def fp12_sqr2_prog : Routine where
  decls := [
    (.t0, .fp2_t), (.t1, .fp2_t), (.t2, .fp2_t), (.t3, .fp2_t), (.t4, .fp2_t), (.t5, .fp2_t),
    (.t6, .fp2_t), (.t7, .fp2_t), (.t8, .fp2_t), (.t9, .fp2_t), (.u0, .dv2_t), (.u1, .dv2_t),
    (.u2, .dv2_t), (.u3, .dv2_t), (.u4, .dv2_t), (.u5, .dv2_t), (.u6, .dv2_t), (.u7, .dv2_t),
    (.u8, .dv2_t), (.u9, .dv2_t)]
  pre := [
    ⟨.fp2_null, [.v .t0]⟩,
    ⟨.fp2_null, [.v .t1]⟩,
    ⟨.fp2_null, [.v .t3]⟩,
    ⟨.fp2_null, [.v .t4]⟩,
    ⟨.fp2_null, [.v .t5]⟩,
    ⟨.fp2_null, [.v .t6]⟩,
    ⟨.fp2_null, [.v .t7]⟩,
    ⟨.fp2_null, [.v .t8]⟩,
    ⟨.fp2_null, [.v .t9]⟩]
  body := [
    ⟨.fp2_new, [.v .t0]⟩,
    ⟨.fp2_new, [.v .t1]⟩,
    ⟨.fp2_new, [.v .t2]⟩,
    ⟨.fp2_new, [.v .t3]⟩,
    ⟨.fp2_new, [.v .t4]⟩,
    ⟨.fp2_new, [.v .t5]⟩,
    ⟨.fp2_new, [.v .t6]⟩,
    ⟨.fp2_new, [.v .t7]⟩,
    ⟨.fp2_new, [.v .t8]⟩,
    ⟨.fp2_new, [.v .t9]⟩,
    ⟨.fp4_sqr_unr, [.v .u0, .v .u1, .i2 .a 0 0, .i2 .a 1 1]⟩,
    ⟨.fp2_rdcn_low, [.v .t0, .v .u0]⟩,
    ⟨.fp2_rdcn_low, [.v .t1, .v .u1]⟩,
    ⟨.fp4_mul_unr, [.v .u2, .v .u3, .i2 .a 1 0, .i2 .a 0 2, .i2 .a 0 1, .i2 .a 1 2]⟩,
    ⟨.fp2_addc_low, [.v .u2, .v .u2, .v .u2]⟩,
    ⟨.fp2_addc_low, [.v .u3, .v .u3, .v .u3]⟩,
    ⟨.fp2_rdcn_low, [.v .t2, .v .u2]⟩,
    ⟨.fp2_rdcn_low, [.v .t3, .v .u3]⟩,
    ⟨.fp4_sqr_unr, [.v .u4, .v .u5, .i2 .a 0 1, .i2 .a 1 2]⟩,
    ⟨.fp2_rdcn_low, [.v .t4, .v .u4]⟩,
    ⟨.fp2_rdcn_low, [.v .t5, .v .u5]⟩,
    ⟨.fp2_addn_low, [.v .t8, .i2 .a 0 0, .i2 .a 0 1]⟩,
    ⟨.fp2_addn_low, [.v .t9, .i2 .a 1 1, .i2 .a 1 2]⟩,
    ⟨.fp2_addn_low, [.v .t6, .v .t8, .i2 .a 1 0]⟩,
    ⟨.fp2_addn_low, [.v .t7, .v .t9, .i2 .a 0 2]⟩,
    ⟨.fp4_sqr_unr, [.v .u6, .v .u7, .v .t6, .v .t7]⟩,
    ⟨.fp2_rdcn_low, [.v .t6, .v .u6]⟩,
    ⟨.fp2_rdcn_low, [.v .t7, .v .u7]⟩,
    ⟨.fp2_subn_low, [.v .t8, .v .t8, .i2 .a 1 0]⟩,
    ⟨.fp2_subn_low, [.v .t9, .v .t9, .i2 .a 0 2]⟩,
    ⟨.fp4_sqr_unr, [.v .u8, .v .u9, .v .t8, .v .t9]⟩,
    ⟨.fp2_rdcn_low, [.v .t8, .v .u8]⟩,
    ⟨.fp2_rdcn_low, [.v .t9, .v .u9]⟩,
    ⟨.fp2_addn_low, [.v .t8, .v .t8, .v .t6]⟩,
    ⟨.fp2_addn_low, [.v .t9, .v .t9, .v .t7]⟩,
    ⟨.fp_hlv, [.i1 .t8 0, .i1 .t8 0]⟩,
    ⟨.fp_hlv, [.i1 .t8 1, .i1 .t8 1]⟩,
    ⟨.fp_hlv, [.i1 .t9 0, .i1 .t9 0]⟩,
    ⟨.fp_hlv, [.i1 .t9 1, .i1 .t9 1]⟩,
    ⟨.fp2_sub, [.v .t6, .v .t6, .v .t8]⟩,
    ⟨.fp2_sub, [.v .t7, .v .t7, .v .t9]⟩,
    ⟨.fp2_sub, [.v .t6, .v .t6, .v .t2]⟩,
    ⟨.fp2_sub, [.v .t7, .v .t7, .v .t3]⟩,
    ⟨.fp2_sub, [.v .t8, .v .t8, .v .t0]⟩,
    ⟨.fp2_sub, [.v .t9, .v .t9, .v .t1]⟩,
    ⟨.fp2_sub, [.i2 .c 0 1, .v .t8, .v .t4]⟩,
    ⟨.fp2_sub, [.i2 .c 1 2, .v .t9, .v .t5]⟩,
    ⟨.fp2_mul_nor, [.v .t9, .v .t5]⟩,
    ⟨.fp2_add, [.i2 .c 1 0, .v .t6, .v .t9]⟩,
    ⟨.fp2_add, [.i2 .c 0 2, .v .t7, .v .t4]⟩,
    ⟨.fp2_mul_nor, [.v .t9, .v .t3]⟩,
    ⟨.fp2_add, [.i2 .c 0 0, .v .t0, .v .t9]⟩,
    ⟨.fp2_add, [.i2 .c 1 1, .v .t1, .v .t2]⟩]
  handler := .rethrow .ERR_CAUGHT
  fin := [
    ⟨.fp2_free, [.v .t0]⟩,
    ⟨.fp2_free, [.v .t1]⟩,
    ⟨.fp2_free, [.v .t2]⟩,
    ⟨.fp2_free, [.v .t3]⟩,
    ⟨.fp2_free, [.v .t4]⟩,
    ⟨.fp2_free, [.v .t5]⟩]

/-- Syntactic transcription of `fp12_sqr_cyc_basic` (relic_fp12_sqr.c, lines
257-349). -/
def fp12_sqr_cyc_basic_prog : Routine where
  decls := [
    (.t0, .fp2_t), (.t1, .fp2_t), (.t2, .fp2_t), (.t3, .fp2_t), (.t4, .fp2_t), (.t5, .fp2_t),
    (.t6, .fp2_t)]
  pre := [
    ⟨.fp2_null, [.v .t0]⟩,
    ⟨.fp2_null, [.v .t1]⟩,
    ⟨.fp2_null, [.v .t2]⟩,
    ⟨.fp2_null, [.v .t3]⟩,
    ⟨.fp2_null, [.v .t4]⟩,
    ⟨.fp2_null, [.v .t5]⟩,
    ⟨.fp2_null, [.v .t6]⟩]
  body := [
    ⟨.fp2_new, [.v .t0]⟩,
    ⟨.fp2_new, [.v .t1]⟩,
    ⟨.fp2_new, [.v .t2]⟩,
    ⟨.fp2_new, [.v .t3]⟩,
    ⟨.fp2_new, [.v .t4]⟩,
    ⟨.fp2_new, [.v .t5]⟩,
    ⟨.fp2_new, [.v .t6]⟩,
    ⟨.fp2_sqr, [.v .t2, .i2 .a 0 0]⟩,
    ⟨.fp2_sqr, [.v .t3, .i2 .a 1 1]⟩,
    ⟨.fp2_add, [.v .t1, .i2 .a 0 0, .i2 .a 1 1]⟩,
    ⟨.fp2_mul_nor, [.v .t0, .v .t3]⟩,
    ⟨.fp2_add, [.v .t0, .v .t0, .v .t2]⟩,
    ⟨.fp2_sqr, [.v .t1, .v .t1]⟩,
    ⟨.fp2_sub, [.v .t1, .v .t1, .v .t2]⟩,
    ⟨.fp2_sub, [.v .t1, .v .t1, .v .t3]⟩,
    ⟨.fp2_sub, [.i2 .c 0 0, .v .t0, .i2 .a 0 0]⟩,
    ⟨.fp2_add, [.i2 .c 0 0, .i2 .c 0 0, .i2 .c 0 0]⟩,
    ⟨.fp2_add, [.i2 .c 0 0, .v .t0, .i2 .c 0 0]⟩,
    ⟨.fp2_add, [.i2 .c 1 1, .v .t1, .i2 .a 1 1]⟩,
    ⟨.fp2_add, [.i2 .c 1 1, .i2 .c 1 1, .i2 .c 1 1]⟩,
    ⟨.fp2_add, [.i2 .c 1 1, .v .t1, .i2 .c 1 1]⟩,
    ⟨.fp2_sqr, [.v .t0, .i2 .a 0 1]⟩,
    ⟨.fp2_sqr, [.v .t1, .i2 .a 1 2]⟩,
    ⟨.fp2_add, [.v .t5, .i2 .a 0 1, .i2 .a 1 2]⟩,
    ⟨.fp2_sqr, [.v .t2, .v .t5]⟩,
    ⟨.fp2_add, [.v .t3, .v .t0, .v .t1]⟩,
    ⟨.fp2_sub, [.v .t5, .v .t2, .v .t3]⟩,
    ⟨.fp2_add, [.v .t6, .i2 .a 1 0, .i2 .a 0 2]⟩,
    ⟨.fp2_sqr, [.v .t3, .v .t6]⟩,
    ⟨.fp2_sqr, [.v .t2, .i2 .a 1 0]⟩,
    ⟨.fp2_mul_nor, [.v .t6, .v .t5]⟩,
    ⟨.fp2_add, [.v .t5, .v .t6, .i2 .a 1 0]⟩,
    ⟨.fp2_dbl, [.v .t5, .v .t5]⟩,
    ⟨.fp2_add, [.i2 .c 1 0, .v .t5, .v .t6]⟩,
    ⟨.fp2_mul_nor, [.v .t4, .v .t1]⟩,
    ⟨.fp2_add, [.v .t5, .v .t0, .v .t4]⟩,
    ⟨.fp2_sub, [.v .t6, .v .t5, .i2 .a 0 2]⟩,
    ⟨.fp2_sqr, [.v .t1, .i2 .a 0 2]⟩,
    ⟨.fp2_dbl, [.v .t6, .v .t6]⟩,
    ⟨.fp2_add, [.i2 .c 0 2, .v .t6, .v .t5]⟩,
    ⟨.fp2_mul_nor, [.v .t4, .v .t1]⟩,
    ⟨.fp2_add, [.v .t5, .v .t2, .v .t4]⟩,
    ⟨.fp2_sub, [.v .t6, .v .t5, .i2 .a 0 1]⟩,
    ⟨.fp2_dbl, [.v .t6, .v .t6]⟩,
    ⟨.fp2_add, [.i2 .c 0 1, .v .t6, .v .t5]⟩,
    ⟨.fp2_add, [.v .t0, .v .t2, .v .t1]⟩,
    ⟨.fp2_sub, [.v .t5, .v .t3, .v .t0]⟩,
    ⟨.fp2_add, [.v .t6, .v .t5, .i2 .a 1 2]⟩,
    ⟨.fp2_dbl, [.v .t6, .v .t6]⟩,
    ⟨.fp2_add, [.i2 .c 1 2, .v .t5, .v .t6]⟩]
  handler := .rethrow .ERR_CAUGHT
  fin := [
    ⟨.fp2_free, [.v .t0]⟩,
    ⟨.fp2_free, [.v .t1]⟩,
    ⟨.fp2_free, [.v .t2]⟩,
    ⟨.fp2_free, [.v .t3]⟩,
    ⟨.fp2_free, [.v .t4]⟩,
    ⟨.fp2_free, [.v .t5]⟩,
    ⟨.fp2_free, [.v .t6]⟩]

/-- Syntactic transcription of `fp12_sqr_pck_basic` (relic_fp12_sqr.c, lines
351-419). -/
def fp12_sqr_pck_basic_prog : Routine where
  decls := [
    (.t0, .fp2_t), (.t1, .fp2_t), (.t2, .fp2_t), (.t3, .fp2_t), (.t4, .fp2_t), (.t5, .fp2_t),
    (.t6, .fp2_t)]
  pre := [
    ⟨.fp2_null, [.v .t0]⟩,
    ⟨.fp2_null, [.v .t1]⟩,
    ⟨.fp2_null, [.v .t2]⟩,
    ⟨.fp2_null, [.v .t3]⟩,
    ⟨.fp2_null, [.v .t4]⟩,
    ⟨.fp2_null, [.v .t5]⟩,
    ⟨.fp2_null, [.v .t6]⟩]
  body := [
    ⟨.fp2_new, [.v .t0]⟩,
    ⟨.fp2_new, [.v .t1]⟩,
    ⟨.fp2_new, [.v .t2]⟩,
    ⟨.fp2_new, [.v .t3]⟩,
    ⟨.fp2_new, [.v .t4]⟩,
    ⟨.fp2_new, [.v .t5]⟩,
    ⟨.fp2_new, [.v .t6]⟩,
    ⟨.fp2_sqr, [.v .t0, .i2 .a 0 1]⟩,
    ⟨.fp2_sqr, [.v .t1, .i2 .a 1 2]⟩,
    ⟨.fp2_add, [.v .t5, .i2 .a 0 1, .i2 .a 1 2]⟩,
    ⟨.fp2_sqr, [.v .t2, .v .t5]⟩,
    ⟨.fp2_add, [.v .t3, .v .t0, .v .t1]⟩,
    ⟨.fp2_sub, [.v .t5, .v .t2, .v .t3]⟩,
    ⟨.fp2_add, [.v .t6, .i2 .a 1 0, .i2 .a 0 2]⟩,
    ⟨.fp2_sqr, [.v .t3, .v .t6]⟩,
    ⟨.fp2_sqr, [.v .t2, .i2 .a 1 0]⟩,
    ⟨.fp2_mul_nor, [.v .t6, .v .t5]⟩,
    ⟨.fp2_add, [.v .t5, .v .t6, .i2 .a 1 0]⟩,
    ⟨.fp2_dbl, [.v .t5, .v .t5]⟩,
    ⟨.fp2_add, [.i2 .c 1 0, .v .t5, .v .t6]⟩,
    ⟨.fp2_mul_nor, [.v .t4, .v .t1]⟩,
    ⟨.fp2_add, [.v .t5, .v .t0, .v .t4]⟩,
    ⟨.fp2_sub, [.v .t6, .v .t5, .i2 .a 0 2]⟩,
    ⟨.fp2_sqr, [.v .t1, .i2 .a 0 2]⟩,
    ⟨.fp2_dbl, [.v .t6, .v .t6]⟩,
    ⟨.fp2_add, [.i2 .c 0 2, .v .t6, .v .t5]⟩,
    ⟨.fp2_mul_nor, [.v .t4, .v .t1]⟩,
    ⟨.fp2_add, [.v .t5, .v .t2, .v .t4]⟩,
    ⟨.fp2_sub, [.v .t6, .v .t5, .i2 .a 0 1]⟩,
    ⟨.fp2_dbl, [.v .t6, .v .t6]⟩,
    ⟨.fp2_add, [.i2 .c 0 1, .v .t6, .v .t5]⟩,
    ⟨.fp2_add, [.v .t0, .v .t2, .v .t1]⟩,
    ⟨.fp2_sub, [.v .t5, .v .t3, .v .t0]⟩,
    ⟨.fp2_add, [.v .t6, .v .t5, .i2 .a 1 2]⟩,
    ⟨.fp2_dbl, [.v .t6, .v .t6]⟩,
    ⟨.fp2_add, [.i2 .c 1 2, .v .t5, .v .t6]⟩]
  handler := .rethrow .ERR_CAUGHT
  fin := [
    ⟨.fp2_free, [.v .t0]⟩,
    ⟨.fp2_free, [.v .t1]⟩,
    ⟨.fp2_free, [.v .t2]⟩,
    ⟨.fp2_free, [.v .t3]⟩,
    ⟨.fp2_free, [.v .t4]⟩,
    ⟨.fp2_free, [.v .t5]⟩,
    ⟨.fp2_free, [.v .t6]⟩]

/-- Syntactic transcription of `fp12_sqr_cyc_lazyr` (relic_fp12_sqr.c, lines
425-519). -/
def fp12_sqr_cyc_lazyr_prog : Routine where
  decls := [
    (.t0, .fp2_t), (.t1, .fp2_t), (.u0, .dv2_t), (.u1, .dv2_t), (.u2, .dv2_t), (.u3, .dv2_t),
    (.u4, .dv2_t)]
  pre := [
    ⟨.fp2_null, [.v .t0]⟩,
    ⟨.fp2_null, [.v .t1]⟩,
    ⟨.dv2_null, [.v .u0]⟩,
    ⟨.dv2_null, [.v .u1]⟩,
    ⟨.dv2_null, [.v .u2]⟩,
    ⟨.dv2_null, [.v .u3]⟩,
    ⟨.dv2_null, [.v .u4]⟩]
  body := [
    ⟨.fp2_new, [.v .t0]⟩,
    ⟨.fp2_new, [.v .t1]⟩,
    ⟨.dv2_new, [.v .u0]⟩,
    ⟨.dv2_new, [.v .u1]⟩,
    ⟨.dv2_new, [.v .u2]⟩,
    ⟨.dv2_new, [.v .u3]⟩,
    ⟨.dv2_new, [.v .u4]⟩,
    ⟨.fp2_sqrn_low, [.v .u2, .i2 .a 0 0]⟩,
    ⟨.fp2_sqrn_low, [.v .u3, .i2 .a 1 1]⟩,
    ⟨.fp2_add, [.v .t1, .i2 .a 0 0, .i2 .a 1 1]⟩,
    ⟨.fp2_nord_low, [.v .u0, .v .u3]⟩,
    ⟨.fp2_addc_low, [.v .u0, .v .u0, .v .u2]⟩,
    ⟨.fp2_rdcn_low, [.v .t0, .v .u0]⟩,
    ⟨.fp2_sqrn_low, [.v .u1, .v .t1]⟩,
    ⟨.fp2_addd_low, [.v .u2, .v .u2, .v .u3]⟩,
    ⟨.fp2_subc_low, [.v .u1, .v .u1, .v .u2]⟩,
    ⟨.fp2_rdcn_low, [.v .t1, .v .u1]⟩,
    ⟨.fp2_sub, [.i2 .c 0 0, .v .t0, .i2 .a 0 0]⟩,
    ⟨.fp2_dbl, [.i2 .c 0 0, .i2 .c 0 0]⟩,
    ⟨.fp2_add, [.i2 .c 0 0, .v .t0, .i2 .c 0 0]⟩,
    ⟨.fp2_add, [.i2 .c 1 1, .v .t1, .i2 .a 1 1]⟩,
    ⟨.fp2_dbl, [.i2 .c 1 1, .i2 .c 1 1]⟩,
    ⟨.fp2_add, [.i2 .c 1 1, .v .t1, .i2 .c 1 1]⟩,
    ⟨.fp2_sqrn_low, [.v .u0, .i2 .a 0 1]⟩,
    ⟨.fp2_sqrn_low, [.v .u1, .i2 .a 1 2]⟩,
    ⟨.fp2_add, [.v .t0, .i2 .a 0 1, .i2 .a 1 2]⟩,
    ⟨.fp2_sqrn_low, [.v .u2, .v .t0]⟩,
    ⟨.fp2_addd_low, [.v .u3, .v .u0, .v .u1]⟩,
    ⟨.fp2_subc_low, [.v .u3, .v .u2, .v .u3]⟩,
    ⟨.fp2_rdcn_low, [.v .t0, .v .u3]⟩,
    ⟨.fp2_add, [.v .t1, .i2 .a 1 0, .i2 .a 0 2]⟩,
    ⟨.fp2_sqrn_low, [.v .u3, .v .t1]⟩,
    ⟨.fp2_sqrn_low, [.v .u2, .i2 .a 1 0]⟩,
    ⟨.fp2_mul_nor, [.v .t1, .v .t0]⟩,
    ⟨.fp2_add, [.v .t0, .v .t1, .i2 .a 1 0]⟩,
    ⟨.fp2_dbl, [.v .t0, .v .t0]⟩,
    ⟨.fp2_add, [.i2 .c 1 0, .v .t0, .v .t1]⟩,
    ⟨.fp2_nord_low, [.v .u4, .v .u1]⟩,
    ⟨.fp2_addc_low, [.v .u4, .v .u0, .v .u4]⟩,
    ⟨.fp2_rdcn_low, [.v .t0, .v .u4]⟩,
    ⟨.fp2_sub, [.v .t1, .v .t0, .i2 .a 0 2]⟩,
    ⟨.fp2_sqrn_low, [.v .u1, .i2 .a 0 2]⟩,
    ⟨.fp2_dbl, [.v .t1, .v .t1]⟩,
    ⟨.fp2_add, [.i2 .c 0 2, .v .t1, .v .t0]⟩,
    ⟨.fp2_nord_low, [.v .u4, .v .u1]⟩,
    ⟨.fp2_addc_low, [.v .u4, .v .u2, .v .u4]⟩,
    ⟨.fp2_rdcn_low, [.v .t0, .v .u4]⟩,
    ⟨.fp2_sub, [.v .t1, .v .t0, .i2 .a 0 1]⟩,
    ⟨.fp2_dbl, [.v .t1, .v .t1]⟩,
    ⟨.fp2_add, [.i2 .c 0 1, .v .t1, .v .t0]⟩,
    ⟨.fp2_addd_low, [.v .u0, .v .u2, .v .u1]⟩,
    ⟨.fp2_subc_low, [.v .u3, .v .u3, .v .u0]⟩,
    ⟨.fp2_rdcn_low, [.v .t0, .v .u3]⟩,
    ⟨.fp2_add, [.v .t1, .v .t0, .i2 .a 1 2]⟩,
    ⟨.fp2_dbl, [.v .t1, .v .t1]⟩,
    ⟨.fp2_add, [.i2 .c 1 2, .v .t0, .v .t1]⟩]
  handler := .rethrow .ERR_CAUGHT
  fin := [
    ⟨.fp2_free, [.v .t0]⟩,
    ⟨.fp2_free, [.v .t1]⟩,
    ⟨.dv2_free, [.v .u0]⟩,
    ⟨.dv2_free, [.v .u1]⟩,
    ⟨.dv2_free, [.v .u2]⟩,
    ⟨.dv2_free, [.v .u3]⟩,
    ⟨.dv2_free, [.v .u4]⟩]

/-- Syntactic transcription of `fp12_sqr_pck_lazyr` (relic_fp12_sqr.c, lines
521-594). -/
def fp12_sqr_pck_lazyr_prog : Routine where
  decls := [
    (.t0, .fp2_t), (.t1, .fp2_t), (.u0, .dv2_t), (.u1, .dv2_t), (.u2, .dv2_t), (.u3, .dv2_t),
    (.u4, .dv2_t)]
  pre := [
    ⟨.fp2_null, [.v .t0]⟩,
    ⟨.fp2_null, [.v .t1]⟩,
    ⟨.dv2_null, [.v .u0]⟩,
    ⟨.dv2_null, [.v .u1]⟩,
    ⟨.dv2_null, [.v .u2]⟩,
    ⟨.dv2_null, [.v .u3]⟩,
    ⟨.dv2_null, [.v .u4]⟩]
  body := [
    ⟨.fp2_new, [.v .t0]⟩,
    ⟨.fp2_new, [.v .t1]⟩,
    ⟨.dv2_new, [.v .u0]⟩,
    ⟨.dv2_new, [.v .u1]⟩,
    ⟨.dv2_new, [.v .u2]⟩,
    ⟨.dv2_new, [.v .u3]⟩,
    ⟨.dv2_new, [.v .u4]⟩,
    ⟨.fp2_sqrn_low, [.v .u0, .i2 .a 0 1]⟩,
    ⟨.fp2_sqrn_low, [.v .u1, .i2 .a 1 2]⟩,
    ⟨.fp2_add, [.v .t0, .i2 .a 0 1, .i2 .a 1 2]⟩,
    ⟨.fp2_sqrn_low, [.v .u2, .v .t0]⟩,
    ⟨.fp2_addc_low, [.v .u3, .v .u0, .v .u1]⟩,
    ⟨.fp2_subc_low, [.v .u3, .v .u2, .v .u3]⟩,
    ⟨.fp2_rdcn_low, [.v .t0, .v .u3]⟩,
    ⟨.fp2_add, [.v .t1, .i2 .a 1 0, .i2 .a 0 2]⟩,
    ⟨.fp2_sqrn_low, [.v .u3, .v .t1]⟩,
    ⟨.fp2_sqrn_low, [.v .u2, .i2 .a 1 0]⟩,
    ⟨.fp2_mul_nor, [.v .t1, .v .t0]⟩,
    ⟨.fp2_add, [.v .t0, .v .t1, .i2 .a 1 0]⟩,
    ⟨.fp2_dbl, [.v .t0, .v .t0]⟩,
    ⟨.fp2_add, [.i2 .c 1 0, .v .t0, .v .t1]⟩,
    ⟨.fp2_nord_low, [.v .u4, .v .u1]⟩,
    ⟨.fp2_addc_low, [.v .u4, .v .u0, .v .u4]⟩,
    ⟨.fp2_rdcn_low, [.v .t0, .v .u4]⟩,
    ⟨.fp2_sub, [.v .t1, .v .t0, .i2 .a 0 2]⟩,
    ⟨.fp2_sqrn_low, [.v .u1, .i2 .a 0 2]⟩,
    ⟨.fp2_dbl, [.v .t1, .v .t1]⟩,
    ⟨.fp2_add, [.i2 .c 0 2, .v .t1, .v .t0]⟩,
    ⟨.fp2_nord_low, [.v .u4, .v .u1]⟩,
    ⟨.fp2_addc_low, [.v .u4, .v .u2, .v .u4]⟩,
    ⟨.fp2_rdcn_low, [.v .t0, .v .u4]⟩,
    ⟨.fp2_sub, [.v .t1, .v .t0, .i2 .a 0 1]⟩,
    ⟨.fp2_dbl, [.v .t1, .v .t1]⟩,
    ⟨.fp2_add, [.i2 .c 0 1, .v .t1, .v .t0]⟩,
    ⟨.fp2_addc_low, [.v .u0, .v .u2, .v .u1]⟩,
    ⟨.fp2_subc_low, [.v .u3, .v .u3, .v .u0]⟩,
    ⟨.fp2_rdcn_low, [.v .t0, .v .u3]⟩,
    ⟨.fp2_add, [.v .t1, .v .t0, .i2 .a 1 2]⟩,
    ⟨.fp2_dbl, [.v .t1, .v .t1]⟩,
    ⟨.fp2_add, [.i2 .c 1 2, .v .t0, .v .t1]⟩]
  handler := .rethrow .ERR_CAUGHT
  fin := [
    ⟨.fp2_free, [.v .t0]⟩,
    ⟨.fp2_free, [.v .t1]⟩,
    ⟨.dv2_free, [.v .u0]⟩,
    ⟨.dv2_free, [.v .u1]⟩,
    ⟨.dv2_free, [.v .u2]⟩,
    ⟨.dv2_free, [.v .u3]⟩,
    ⟨.dv2_free, [.v .u4]⟩]

/-! ### Values: the Fp2-level routines on an explicit store -/

/-- A store of `fp2_t` and `dv2_t` cells, addressed by the argument expressions
that denote them. -/
abbrev Store2 (p : ℕ) (β : ZMod p) := Arg → Fp2 p β

/-- Assignment to one cell. -/
def Store2.set (s : Store2 p β) (x : Arg) (val : Fp2 p β) : Store2 p β :=
  fun y => if y = x then val else s y

/-- The effect of one statement on the values: a primitive reads its source
operands, then writes its destination (its first argument).  Acquisition and
release do not change values. -/
def step2 (ξ : Fp2 p β) (s : Store2 p β) (st : Stmt) : Store2 p β :=
  match st.fn, st.args with
  | .fp2_add, [d, x, y] => s.set d (fp2_add (s x) (s y))
  | .fp2_sub, [d, x, y] => s.set d (fp2_sub (s x) (s y))
  | .fp2_dbl, [d, x] => s.set d (fp2_dbl (s x))
  | .fp2_sqr, [d, x] => s.set d (fp2_sqr (s x))
  | .fp2_mul_nor, [d, x] => s.set d (fp2_mul_nor ξ (s x))
  | .fp2_sqrn_low, [d, x] => s.set d (fp2_sqrn_low (s x))
  | .fp2_nord_low, [d, x] => s.set d (fp2_nord_low ξ (s x))
  | .fp2_addc_low, [d, x, y] => s.set d (fp2_addc_low (s x) (s y))
  | .fp2_addd_low, [d, x, y] => s.set d (fp2_addd_low (s x) (s y))
  | .fp2_subc_low, [d, x, y] => s.set d (fp2_subc_low (s x) (s y))
  | .fp2_rdcn_low, [d, x] => s.set d (fp2_rdcn_low (s x))
  | _, _ => s

/-- The effect of a statement list on the values. -/
def run2 (ξ : Fp2 p β) (prog : List Stmt) (s : Store2 p β) : Store2 p β :=
  prog.foldl (step2 ξ) s

/-- The `fp12_t` object `x` held in a store. -/
def Store2.fp12 (ξ : Fp2 p β) (s : Store2 p β) (x : Var) : Fp12 p β ξ :=
  ⟨⟨s (.i2 x 0 0), s (.i2 x 0 1), s (.i2 x 0 2)⟩,
   ⟨s (.i2 x 1 0), s (.i2 x 1 1), s (.i2 x 1 2)⟩⟩

/-- The call with the output pointer equal to the input pointer: every
expression rooted at `c` denotes the cell of the same expression rooted at `a`. -/
def Arg.alias : Arg → Arg
  | .v .c => .v .a
  | .i1 .c i => .i1 .a i
  | .i2 .c i j => .i2 .a i j
  | x => x

/-- A statement of the in-place call. -/
def Stmt.alias (st : Stmt) : Stmt := ⟨st.fn, st.args.map Arg.alias⟩

/-- No statement reads `a[i][j]` after a statement has written `c[i][j]`; the
destination of a statement is its first argument, the others are read. -/
def noReadAfterWrite : List Stmt → Bool
  | [] => true
  | st :: rest =>
    (match st.args.head? with
      | some (.i2 .c i j) => rest.all fun r => decide (Arg.i2 .a i j ∉ r.args.tail)
      | _ => true) && noReadAfterWrite rest


/-! ### Representations: the Fp2-level routines over arbitrary primitives -/

/-- Does the step number `n` raise in this scenario? -/
def raises (fail : Option (ℕ × Err)) (n : ℕ) : Option Err :=
  match fail with
  | some (k, e) => if k = n then some e else none
  | none => none

/-- Modelled from the spec: the `TRY` macro (absent from src/), for a routine
that calls no routine of this file, from step number `n`: the statements run in
order until one raises; the result is the error that escapes the block, if
any, and the next step number (§7). -/
def runTryLeaf (fail : Option (ℕ × Err)) : List Stmt → ℕ → Option Err × ℕ
  | [], n => (none, n)
  | _ :: rest, n =>
    match raises fail n with
    | some e => (some e, n + 1)
    | none => runTryLeaf fail rest (n + 1)

/-- Modelled from the spec: the `CATCH_ANY` macro (absent from src/).  What the
caller sees when the `TRY` block ends with `r`: an error that reaches the
`CATCH_ANY` block is replaced by what that block throws, and is lost when the
block throws nothing (§7). -/
def catchAny (h : Handler) (r : Option Err) : Except Err Unit :=
  match r, h with
  | none, _ => .ok ()
  | some _, .rethrow e => .error e
  | some _, .swallow => .ok ()

/-- A routine that calls no routine of this file, from step number `n`: what
its caller sees, and the next step number. -/
def runLeaf (r : Routine) (fail : Option (ℕ × Err)) (n : ℕ) : Except Err Unit × ℕ :=
  (catchAny r.handler (runTryLeaf fail r.body n).1, (runTryLeaf fail r.body n).2)

/-- The routines of this file that a statement may call. -/
def callee (fp_space : Bool) (st : Stmt) : Option Routine :=
  match st.fn with
  | .fp4_mul_unr => some (fp4_mul_unr_prog fp_space)
  | .fp4_sqr_unr => some fp4_sqr_unr_prog
  | _ => none

/-- Modelled from the spec: the `TRY` macro (absent from src/), from step
number `n`; a statement that calls a routine of this file raises what that
routine throws to it (§7). -/
def runTry (fp_space : Bool) (fail : Option (ℕ × Err)) : List Stmt → ℕ → Option Err × ℕ
  | [], n => (none, n)
  | st :: rest, n =>
    match callee fp_space st with
    | some r =>
      match runLeaf r fail n with
      | (.error e, m) => (some e, m)
      | (.ok _, m) => runTry fp_space fail rest m
    | none =>
      match raises fail n with
      | some e => (some e, n + 1)
      | none => runTry fp_space fail rest (n + 1)

/-- A routine as an `Except`-valued function of the failure scenario: the value
`val` it computes when no step raises, or the error it returns to its caller. -/
def Routine.call {α : Type} (r : Routine) (fp_space : Bool) (fail : Option (ℕ × Err))
    (val : α) : Except Err α :=
  (catchAny r.handler (runTry fp_space fail r.body 0).1).map fun _ => val

/-- The number of steps of a statement list: one for a statement, and for a call
of a routine of this file the statements of its `TRY` block. -/
def stepCount (fp_space : Bool) : List Stmt → ℕ
  | [] => 0
  | st :: rest =>
    (match callee fp_space st with
      | some r => r.body.length
      | none => 1) + stepCount fp_space rest


/-- Does a step of the first `N` raise in this scenario? -/
def stepRaises (fail : Option (ℕ × Err)) (N : ℕ) : Bool :=
  match fail with
  | some (k, _) => decide (k < N)
  | none => false

/-! ### Temporaries: the acquire/release trace of a routine -/

/-- The events of a routine that concern its temporaries: `x = NULL`, a
successful acquisition, a call of a release macro, a use by a callee. -/
inductive Ev where
  | null (x : Var)
  | acq (k : Kind) (x : Var)
  | free (k : Kind) (x : Var)
  | use (x : Var)
deriving DecidableEq

/-- The variable an argument expression is rooted at. -/
def Arg.var : Arg → Var
  | .v x => x
  | .i1 x _ => x
  | .i2 x _ _ => x

/-- The declared kind of a temporary of a routine; `none` for a parameter. -/
def kindOf (decls : List (Var × Kind)) (x : Var) : Option Kind :=
  (decls.find? fun d => d.1 = x).map Prod.snd

/-- Modelled from the spec: the allocation macros `fp2_null`, `fp2_new`,
`fp2_free` and their `dv2` and `fp6` counterparts (absent from src/) act on
their argument with the kind they are made for (§5); any other callee uses the
temporaries among its arguments. -/
def Stmt.events (decls : List (Var × Kind)) (st : Stmt) : List Ev :=
  match st.fn, st.args with
  | .fp2_null, [.v x] => [.null x]
  | .dv2_null, [.v x] => [.null x]
  | .fp6_null, [.v x] => [.null x]
  | .fp2_new, [.v x] => [.acq .fp2_t x]
  | .dv2_new, [.v x] => [.acq .dv2_t x]
  | .fp6_new, [.v x] => [.acq .fp6_t x]
  | .fp2_free, [.v x] => [.free .fp2_t x]
  | .dv2_free, [.v x] => [.free .dv2_t x]
  | .fp6_free, [.v x] => [.free .fp6_t x]
  | _, args => ((args.map Arg.var).filter fun x => (kindOf decls x).isSome).map Ev.use

/-- Modelled from the spec: the `FINALLY` macro (absent from src/) runs on every
exit path (§7).  The trace of the exit path on which the statement number `k`
of the `TRY` block raises (the path without error when `k` is the length of the
block or more): the statements before the `TRY`, the first `k` statements of
the block, the `FINALLY` block. -/
def Routine.trace (r : Routine) (k : ℕ) : List Ev :=
  ((r.pre ++ r.body.take k ++ r.fin).map (Stmt.events r.decls)).flatten

/-- The state of a temporary along a trace. -/
inductive Status where
  | uninit | null | live | freed
deriving DecidableEq

/-- The check of a trace from the states `st`: an acquisition is of the declared
kind and not of a live temporary; a release macro is a no-op on `NULL`, and
otherwise releases a live temporary and is the macro of its declared kind; a
used temporary is live; at the end no temporary is live. -/
def balancedFrom (decls : List (Var × Kind)) : List Ev → (Var → Status) → Bool
  | [], st => decls.all fun d => decide (st d.1 ≠ .live)
  | .null x :: es, st =>
    decide (st x ≠ .live) && balancedFrom decls es (fun y => if y = x then .null else st y)
  | .acq k x :: es, st =>
    decide (kindOf decls x = some k) && decide (st x ≠ .live) &&
      balancedFrom decls es (fun y => if y = x then .live else st y)
  | .free k x :: es, st =>
    match st x with
    | .null => balancedFrom decls es st
    | .live =>
      decide (kindOf decls x = some k) &&
        balancedFrom decls es (fun y => if y = x then .freed else st y)
    | _ => false
  | .use x :: es, st => decide (st x = .live) && balancedFrom decls es st

/-- Every temporary acquired on the exit path `k` is released exactly once, by
the release macro of its declared kind, and every temporary used is acquired. -/
def Routine.balanced (r : Routine) (k : ℕ) : Bool :=
  balancedFrom r.decls (r.trace k) fun _ => .uninit


/-! ### The Fp4 view of `fp12_sqr2`

`fp12_sqr2` works on pairs of `fp2_t` read as elements `x + y·z` of
`Fp4 = Fp2[z]/(z² − ξ)`.  The operations below are the statement groups it is
made of. -/

/-- An element `x + y·z` of `Fp4`, as the pair of `fp2_t` the code holds. -/
abbrev Fp4 (p : ℕ) (β : ZMod p) := Fp2 p β × Fp2 p β

/-- Sum in `Fp4`, as in lines 195-196 and 199-200: `fp2_addn_low` on both
coordinates. -/
def fp4_add (x y : Fp4 p β) : Fp4 p β := (fp2_addn_low x.1 y.1, fp2_addn_low x.2 y.2)

/-- Difference in `Fp4`, as in lines 206-207: `fp2_subn_low` on both
coordinates. -/
def fp4_sub (x y : Fp4 p β) : Fp4 p β := (fp2_subn_low x.1 y.1, fp2_subn_low x.2 y.2)

/-- Halving in `Fp4`, as in lines 215-218: `fp_hlv` on the four `Fp`
coordinates. -/
def fp4_hlv (x : Fp4 p β) : Fp4 p β :=
  (⟨fp_hlv x.1.c0, fp_hlv x.1.c1⟩, ⟨fp_hlv x.2.c0, fp_hlv x.2.c1⟩)

/-- Doubling in `Fp4`, as in lines 184-187: `fp2_addc_low` of each coordinate
with itself, then reduction. -/
def fp4_dbl (x : Fp4 p β) : Fp4 p β :=
  (fp2_rdcn_low (fp2_addc_low x.1 x.1), fp2_rdcn_low (fp2_addc_low x.2 x.2))

/-- Square in `Fp4`, as in lines 178-180: `fp4_sqr_unr`, then reduction. -/
def fp4_sqr (ξ : Fp2 p β) (x : Fp4 p β) : Fp4 p β :=
  (fp2_rdcn_low (fp4_sqr_unr ξ x.1 x.2).1, fp2_rdcn_low (fp4_sqr_unr ξ x.1 x.2).2)

/-- Product in `Fp4`: `fp4_mul_unr`, then reduction. -/
def fp4_mul (ξ : Fp2 p β) (fp_space : Bool) (x y : Fp4 p β) : Fp4 p β :=
  (fp2_rdcn_low (fp4_mul_unr ξ fp_space x.1 x.2 y.1 y.2).1,
   fp2_rdcn_low (fp4_mul_unr ξ fp_space x.1 x.2 y.1 y.2).2)

/-! ### `fp12_sqr2` on integer representatives -/

/-- The representative in `[0, p)` of each coordinate of a reduced `fp2_t`. -/
def Fp2.rep (x : Fp2 p β) : ℤ × ℤ := (x.c0.val, x.c1.val)

/-- The `Fp2` value of a pair of integers. -/
def Fp2.ofRep (x : ℤ × ℤ) : Fp2 p β := ⟨x.1, x.2⟩

/-- Modelled from the spec: `fp2_addn_low` (absent from src/) on
representatives, integer addition of the coordinates without reduction
(§4.5). -/
def fp2_addn_low_int (a b : ℤ × ℤ) : ℤ × ℤ := (a.1 + b.1, a.2 + b.2)

/-- Modelled from the spec: `fp2_subn_low` (absent from src/) on
representatives, integer subtraction of the coordinates without reduction
(§4.5). -/
def fp2_subn_low_int (a b : ℤ × ℤ) : ℤ × ℤ := (a.1 - b.1, a.2 - b.2)

/-- The integers that lines 195-214 of `fp12_sqr2` produce: the results of
the two non-reducing subtractions, and the operands handed to `fp_hlv`. -/
structure Sqr2Ranges where
  sub8 : ℤ × ℤ
  sub9 : ℤ × ℤ
  hlv8 : ℤ × ℤ
  hlv9 : ℤ × ℤ
deriving DecidableEq

/-- Lines 195-214 of `fp12_sqr2` on the representatives of a reduced input;
`fp2_rdcn_low` writes the representative in `[0, p)`. -/
def fp12_sqr2_ranges (a : Fp12 p β ξ) : Sqr2Ranges :=
  -- c2 = a0 + a2
  let t8 := fp2_addn_low_int a.c0.c0.rep a.c0.c1.rep
  let t9 := fp2_addn_low_int a.c1.c1.rep a.c1.c2.rep
  -- (t6,t7) = (a0 + a2 + a1)^2
  let t6 := fp2_addn_low_int t8 a.c1.c0.rep
  let t7 := fp2_addn_low_int t9 a.c0.c2.rep
  let r := fp4_sqr_unr ξ (Fp2.ofRep t6) (Fp2.ofRep t7)
  let t6 := (fp2_rdcn_low r.1).rep
  let t7 := (fp2_rdcn_low r.2).rep
  -- c2 = (a0 + a2 - a1)^2
  let s8 := fp2_subn_low_int t8 a.c1.c0.rep
  let s9 := fp2_subn_low_int t9 a.c0.c2.rep
  let r := fp4_sqr_unr ξ (Fp2.ofRep s8) (Fp2.ofRep s9)
  let t8 := (fp2_rdcn_low r.1).rep
  let t9 := (fp2_rdcn_low r.2).rep
  -- c2 = (c2 + (t6,t7))/2
  let h8 := fp2_addn_low_int t8 t6
  let h9 := fp2_addn_low_int t9 t7
  ⟨s8, s9, h8, h9⟩


/-! ### Example data over the tower `p = 7`, `β = −1`, `ξ = 2 + u` -/

/-- A store that holds `g13` in `a` and zero elsewhere. -/
def store13 : Store2 7 6 := fun x =>
  match x with
  | .i2 .a 0 0 => ⟨4, 4⟩
  | .i2 .a 0 1 => ⟨0, 4⟩
  | .i2 .a 0 2 => ⟨2, 3⟩
  | .i2 .a 1 0 => ⟨2, 5⟩
  | .i2 .a 1 1 => ⟨3, 0⟩
  | .i2 .a 1 2 => ⟨0, 2⟩
  | _ => 0

/-- The product of `Fp4 = Fp2[z]/(z² − ξ)`, from the definition of the
quotient: `(x0 + x1·z)(y0 + y1·z) = (x0·y0 + ξ·x1·y1) + (x0·y1 + x1·y0)·z`. -/
def Fp4.mul (ξ : Fp2 p β) (x y : Fp4 p β) : Fp4 p β :=
  (x.1 * y.1 + ξ * (x.2 * y.2), x.1 * y.2 + x.2 * y.1)

/-- The conjugate of `Fp4` over `Fp2`: `conj(x0 + x1·z) = x0 − x1·z`. -/
def Fp4.conj (x : Fp4 p β) : Fp4 p β := (x.1, -x.2)

/-- Multiplication by `z` in `Fp4`: `z·(x0 + x1·z) = ξ·x1 + x0·z`. -/
def Fp4.mulz (ξ : Fp2 p β) (x : Fp4 p β) : Fp4 p β := (ξ * x.2, x.1)

/-- The element `x0 + x1·z` of `Fp4` as an element of Fp12, `z` being
`w³ = v·w`. -/
def Fp4.toFp12 (x : Fp4 p β) : Fp12 p β ξ := ⟨⟨x.1, 0, 0⟩, ⟨0, x.2, 0⟩⟩

/-- The coefficient `A = a00 + a11·z` of `a = A + B·w + C·w²`. -/
def Fp12.fp4A (a : Fp12 p β ξ) : Fp4 p β := (a.c0.c0, a.c1.c1)

/-- The coefficient `B = a10 + a02·z` of `a = A + B·w + C·w²`. -/
def Fp12.fp4B (a : Fp12 p β ξ) : Fp4 p β := (a.c1.c0, a.c0.c2)

/-- The coefficient `C = a01 + a12·z` of `a = A + B·w + C·w²`. -/
def Fp12.fp4C (a : Fp12 p β ξ) : Fp4 p β := (a.c0.c1, a.c1.c2)

/-! ## Auxiliary facts -/

theorem fp12_sqr_eq (a : Fp12 p β ξ) : fp12_sqr a = a * a := by
  apply Fp12.ext
  · simp only [fp12_sqr, fp6_add_eq, fp6_sub_eq, fp6_mul_eq, fp6_mul_art_eq,
      fp6_dbl_eq, fp12_mul_c0]
    ring
  · simp only [fp12_sqr, fp6_add_eq, fp6_sub_eq, fp6_mul_eq, fp6_mul_art_eq,
      fp6_dbl_eq, fp12_mul_c1]
    ring

theorem two_ne_zero_of_odd (hp : p.Prime) (h2 : p ≠ 2) : (2 : ZMod p) ≠ 0 := by
  intro h0
  have : ((2 : ℕ) : ZMod p) = 0 := by exact_mod_cast h0
  rw [ZMod.natCast_zmod_eq_zero_iff_dvd] at this
  exact h2 ((Nat.prime_dvd_prime_iff_eq hp Nat.prime_two).mp this)

theorem fp_inv_mul_cancel (hp : p.Prime) (a : ZMod p) (ha : a ≠ 0) : a * fp_inv a = 1 := by
  haveI := Fact.mk hp
  have h2 := hp.two_le
  unfold fp_inv
  rw [← pow_succ', show p - 2 + 1 = p - 1 by omega]
  exact ZMod.pow_card_sub_one_eq_one ha

theorem Fp2.half_mul_two (hp : p.Prime) (h2 : p ≠ 2) : (Fp2.half : Fp2 p β) * 2 = 1 := by
  have h := fp_inv_mul_cancel hp 2 (two_ne_zero_of_odd hp h2)
  apply Fp2.ext
  · simp only [Fp2.half, fp2_mul_c0, fp2_ofNat_c0, fp2_ofNat_c1, fp2_one_c0]
    linear_combination h
  · simp only [Fp2.half, fp2_mul_c1, fp2_ofNat_c0, fp2_ofNat_c1, fp2_one_c1]
    ring

theorem Fp2.hlv_pair (t : Fp2 p β) :
    (⟨fp_hlv t.c0, fp_hlv t.c1⟩ : Fp2 p β) = Fp2.half * t := by
  apply Fp2.ext <;> simp [Fp2.half, fp_hlv] <;> ring

theorem fp12_sqr2_eq (hp : p.Prime) (h2 : p ≠ 2) (fs : Bool) (a : Fp12 p β ξ) :
    fp12_sqr2 fs a = a * a := by
  have hh := Fp2.half_mul_two (β := β) hp h2
  obtain ⟨⟨a00, a01, a02⟩, ⟨a10, a11, a12⟩⟩ := a
  simp only [fp12_sqr2, fp4_sqr_unr, fp4_mul_unr, fp2_sqrn_low, fp2_nord_low, fp2_addc_low,
    fp2_subc_low, fp2_rdcn_low, fp2_addn_low, fp2_addm_low, fp2_subn_low,
    fp2_muln_low, fp2_mulc_low, ite_self, Fp2.hlv_pair,
    fp2_add_eq, fp2_sub_eq, fp2_sqr_eq, fp2_mul_eq,
    fp2_mul_nor_eq]
  apply Fp12.ext <;> apply Fp6.ext <;>
    simp only [fp12_mul_c0, fp12_mul_c1, fp6_mul_c0, fp6_mul_c1, fp6_mul_c2, fp6_add_c0,
      fp6_add_c1, fp6_add_c2, Fp6.v]
  · ring
  · linear_combination ((a00 + a01) * (a00 + a01) + ξ * ((a11 + a12) * (a11 + a12))
      + a10 * a10 + ξ * (a02 * a02)) * hh
  · linear_combination -(2 * (a00 + a01) * (a11 + a12) + 2 * a10 * a02) * hh
  · linear_combination -((a00 + a01) * (a00 + a01) + ξ * ((a11 + a12) * (a11 + a12))
      + a10 * a10 + ξ * (a02 * a02)) * hh
  · ring
  · linear_combination (2 * (a00 + a01) * (a11 + a12) + 2 * a10 * a02) * hh

theorem fp12_sqr_cyc_lazyr_eq (a : Fp12 p β ξ) :
    fp12_sqr_cyc_lazyr a = fp12_sqr_cyc_basic a := by
  simp only [fp12_sqr_cyc_lazyr, fp12_sqr_cyc_basic, fp2_sqrn_low, fp2_nord_low, fp2_addc_low,
    fp2_addd_low, fp2_subc_low, fp2_rdcn_low, fp2_add_eq, fp2_sub_eq, fp2_sqr_eq,
    fp2_mul_nor_eq, fp2_dbl_eq]
  congr 2 <;> ring

theorem fp12_sqr_pck_lazyr_eq (c a : Fp12 p β ξ) :
    fp12_sqr_pck_lazyr c a = fp12_sqr_pck_basic c a := by
  simp only [fp12_sqr_pck_lazyr, fp12_sqr_pck_basic, fp2_sqrn_low, fp2_nord_low, fp2_addc_low,
    fp2_subc_low, fp2_rdcn_low]

theorem ff_cube_of_pow_eq_one {K : Type*} [Field K] [Fintype K] (m : ℕ) (hm : 0 < m)
    (hcard : Fintype.card K = 6 * m + 1) (x : K) (hx : x ≠ 0) (h : x ^ (2 * m) = 1) :
    ∃ y : K, y ^ 3 = x := by
  classical
  obtain ⟨γ, hγ⟩ := IsCyclic.exists_generator (α := Kˣ)
  obtain ⟨k, hk⟩ := Subgroup.mem_zpowers_iff.mp (hγ (Units.mk0 x hx))
  have hord : orderOf γ = 6 * m := by
    rw [orderOf_eq_card_of_forall_mem_zpowers hγ, Nat.card_eq_fintype_card, Fintype.card_units,
      hcard]
    simp
  have h1 : γ ^ (k * (2 * m : ℕ)) = 1 := by
    rw [zpow_mul, hk, zpow_natCast]
    apply Units.ext
    simpa using h
  have h2 : ((6 * m : ℕ) : ℤ) ∣ k * (2 * m : ℕ) := by
    rw [← hord]
    exact (orderOf_dvd_iff_zpow_eq_one).mpr h1
  have h3 : (3 : ℤ) ∣ k := by
    obtain ⟨c, hc⟩ := h2
    have hm' : (m : ℤ) ≠ 0 := by exact_mod_cast hm.ne'
    have : k = 3 * c := by
      have : (2 * (m : ℤ)) * k = (2 * (m : ℤ)) * (3 * c) := by
        push_cast at hc
        linear_combination hc
      exact mul_left_cancel₀ (mul_ne_zero two_ne_zero hm') this
    exact ⟨c, this⟩
  obtain ⟨j, hj⟩ := h3
  refine ⟨((γ ^ j : Kˣ) : K), ?_⟩
  have : (γ ^ j) ^ 3 = Units.mk0 x hx := by
    rw [← hk, hj, mul_comm, zpow_mul]
    norm_cast
  have := congrArg (fun u : Kˣ => (u : K)) this
  simpa using this

theorem ff_omega {K : Type*} [Field K] [Fintype K] (m : ℕ)
    (hcard : Fintype.card K = 6 * m + 1) (x : K) (hx2 : ¬ IsSquare x)
    (hx3 : ¬ ∃ y : K, y ^ 3 = x) : (x ^ m) ^ 2 - x ^ m + 1 = 0 := by
  have hm : 0 < m := by
    rcases Nat.eq_zero_or_pos m with h | h
    · have := Fintype.one_lt_card (α := K)
      rw [hcard, h] at this
      omega
    · exact h
  have hx : x ≠ 0 := by
    rintro rfl
    exact hx2 ⟨0, by simp⟩
  have hchar : ringChar K ≠ 2 := by
    intro h
    have := (FiniteField.even_card_iff_char_two).mp h
    rw [hcard] at this
    omega
  have hhalf : Fintype.card K / 2 = 3 * m := by rw [hcard]; omega
  have h3 : x ^ (3 * m) = -1 := by
    rcases FiniteField.pow_dichotomy hchar hx with h | h
    · exfalso
      exact hx2 ((FiniteField.isSquare_iff hchar hx).mpr h)
    · rw [hhalf] at h
      exact h
  have h2 : x ^ (2 * m) ≠ 1 := fun h => hx3 (ff_cube_of_pow_eq_one m hm hcard x hx h)
  have e3 : (x ^ m) ^ 3 = -1 := by rw [← pow_mul, mul_comm]; exact h3
  have e2 : (x ^ m) ^ 2 ≠ 1 := by rw [← pow_mul, mul_comm]; exact h2
  have hprod : (x ^ m + 1) * ((x ^ m) ^ 2 - x ^ m + 1) = 0 := by
    linear_combination e3
  rcases mul_eq_zero.mp hprod with h | h
  · exfalso
    apply e2
    linear_combination (x ^ m - 1) * h
  · exact h

theorem fp2_natCast_eq_zero_iff (n : ℕ) : (n : Fp2 p β) = 0 ↔ (n : ZMod p) = 0 := by
  constructor
  · intro h
    have := congrArg Fp2.c0 h
    simpa using this
  · intro h
    apply Fp2.ext <;> simp [h]

instance instCharPFp2 : CharP (Fp2 p β) p where
  cast_eq_zero_iff' n := by
    rw [fp2_natCast_eq_zero_iff, ZMod.natCast_zmod_eq_zero_iff_dvd]

theorem fp6_natCast_eq_zero_iff (n : ℕ) : (n : Fp6 p β ξ) = 0 ↔ (n : ZMod p) = 0 := by
  rw [← fp2_natCast_eq_zero_iff (β := β)]
  constructor
  · intro h
    have := congrArg Fp6.c0 h
    simpa using this
  · intro h
    apply Fp6.ext <;> simp [h]

instance instCharPFp6 : CharP (Fp6 p β ξ) p where
  cast_eq_zero_iff' n := by
    rw [fp6_natCast_eq_zero_iff, ZMod.natCast_zmod_eq_zero_iff_dvd]

theorem fp12_natCast_eq_zero_iff (n : ℕ) : (n : Fp12 p β ξ) = 0 ↔ (n : ZMod p) = 0 := by
  rw [← fp6_natCast_eq_zero_iff (ξ := ξ)]
  constructor
  · intro h
    have := congrArg Fp12.c0 h
    simpa using this
  · intro h
    apply Fp12.ext <;> simp [h]

instance instCharPFp12 : CharP (Fp12 p β ξ) p where
  cast_eq_zero_iff' n := by
    rw [fp12_natCast_eq_zero_iff, ZMod.natCast_zmod_eq_zero_iff_dvd]

theorem Fp2.norm_ne_zero (hp : p.Prime) (hβ : ¬ IsSquare β) (a : Fp2 p β) (ha : a ≠ 0) :
    Fp2.norm a ≠ 0 := by
  haveI := Fact.mk hp
  intro h
  unfold Fp2.norm at h
  by_cases h1 : a.c1 = 0
  · rw [h1] at h
    simp at h
    exact ha (Fp2.ext h h1)
  · apply hβ
    refine ⟨a.c0 / a.c1, ?_⟩
    field_simp
    linear_combination -h

theorem Fp2.isField (hp : p.Prime) (hβ : ¬ IsSquare β) : IsField (Fp2 p β) where
  exists_pair_ne := by
    haveI := Fact.mk hp
    refine ⟨0, 1, ?_⟩
    intro h
    have := congrArg Fp2.c0 h
    simp at this
  mul_comm := mul_comm
  mul_inv_cancel := by
    intro a ha
    haveI := Fact.mk hp
    have hn := Fp2.norm_ne_zero hp hβ a ha
    refine ⟨⟨a.c0 * (Fp2.norm a)⁻¹, -(a.c1 * (Fp2.norm a)⁻¹)⟩, ?_⟩
    apply Fp2.ext
    · simp only [fp2_mul_c0, fp2_one_c0]
      unfold Fp2.norm at hn ⊢
      field_simp
      ring
    · simp only [fp2_mul_c1, fp2_one_c1]
      ring

theorem Fp2.pow_card (hp : p.Prime) (hβ : ¬ IsSquare β) (a : Fp2 p β) : a ^ (p ^ 2) = a := by
  haveI := Fact.mk hp
  letI : Field (Fp2 p β) := (Fp2.isField hp hβ).toField
  letI : Fintype (Fp2 p β) := Fintype.ofEquiv _ Fp2.equivProd.symm
  have hc : Fintype.card (Fp2 p β) = p ^ 2 := by
    rw [Fintype.card_congr Fp2.equivProd, Fintype.card_prod, ZMod.card, sq]
  have := FiniteField.pow_card a
  rw [hc] at this
  exact this

theorem sq_eq_six_mul_add_one (hp : p.Prime) (h2 : p ≠ 2) (h3 : p ≠ 3) :
    ∃ m, p ^ 2 = 6 * m + 1 := by
  have hodd : p % 2 = 1 := (hp.eq_two_or_odd).resolve_left h2
  have h3' : p % 3 ≠ 0 := by
    intro h
    exact h3 ((Nat.prime_dvd_prime_iff_eq Nat.prime_three hp).mp (Nat.dvd_of_mod_eq_zero h)).symm
  have h6 : p % 6 = 1 ∨ p % 6 = 5 := by omega
  have : p ^ 2 % 6 = 1 := by
    rw [Nat.pow_mod]
    rcases h6 with h | h <;> rw [h]
  exact ⟨p ^ 2 / 6, by omega⟩

theorem Fp2.omega_spec (hp : p.Prime) (h2 : p ≠ 2) (hβ : ¬ IsSquare β)
    (hξ2 : ¬ IsSquare ξ) (hξ3 : ¬ ∃ y : Fp2 p β, y ^ 3 = ξ) :
    ∃ m, p ^ 2 = 6 * m + 1 ∧ (ξ ^ m) ^ 2 - ξ ^ m + 1 = 0 := by
  have h3 : p ≠ 3 := by
    rintro rfl
    apply hξ3
    refine ⟨ξ ^ 3, ?_⟩
    have := Fp2.pow_card hp hβ ξ
    rw [← pow_mul]
    exact this
  obtain ⟨m, hm⟩ := sq_eq_six_mul_add_one hp h2 h3
  refine ⟨m, hm, ?_⟩
  haveI := Fact.mk hp
  letI : Field (Fp2 p β) := (Fp2.isField hp hβ).toField
  letI : Fintype (Fp2 p β) := Fintype.ofEquiv _ Fp2.equivProd.symm
  have hc : Fintype.card (Fp2 p β) = 6 * m + 1 := by
    rw [Fintype.card_congr Fp2.equivProd, Fintype.card_prod, ZMod.card, ← sq, hm]
  exact ff_omega m hc ξ hξ2 hξ3

@[simp] theorem fp6_ofFp2_c0 (a : Fp2 p β) : (Fp6.ofFp2 a : Fp6 p β ξ).c0 = a := rfl
@[simp] theorem fp6_ofFp2_c1 (a : Fp2 p β) : (Fp6.ofFp2 a : Fp6 p β ξ).c1 = 0 := rfl
@[simp] theorem fp6_ofFp2_c2 (a : Fp2 p β) : (Fp6.ofFp2 a : Fp6 p β ξ).c2 = 0 := rfl
@[simp] theorem fp12_ofFp6_c0 (a : Fp6 p β ξ) : (Fp12.ofFp6 a).c0 = a := rfl
@[simp] theorem fp12_ofFp6_c1 (a : Fp6 p β ξ) : (Fp12.ofFp6 a).c1 = 0 := rfl

theorem fp6_v_cube : (Fp6.v : Fp6 p β ξ) ^ 3 = Fp6.ofFp2 ξ := by
  rw [pow_succ, pow_two]
  apply Fp6.ext <;> simp [Fp6.v]

theorem fp12_w_sq : (Fp12.w : Fp12 p β ξ) ^ 2 = Fp12.ofFp6 Fp6.v := by
  rw [pow_two]
  apply Fp12.ext <;> simp [Fp12.w]

theorem fp6_decomp (a b c : Fp2 p β) :
    (⟨a, b, c⟩ : Fp6 p β ξ) =
      Fp6.ofFp2 a + Fp6.ofFp2 b * Fp6.v + Fp6.ofFp2 c * Fp6.v ^ 2 := by
  rw [pow_two]
  apply Fp6.ext <;> simp [Fp6.v]

theorem fp12_decomp (a b : Fp6 p β ξ) :
    (⟨a, b⟩ : Fp12 p β ξ) = Fp12.ofFp6 a + Fp12.ofFp6 b * Fp12.w := by
  apply Fp12.ext <;> simp [Fp12.w]

theorem fp6_pow_q (hp : p.Prime) (hβ : ¬ IsSquare β) (m : ℕ) (hm : p ^ 2 = 6 * m + 1)
    (x : Fp6 p β ξ) : x ^ (p ^ 2) = fp6_frbq (ξ ^ m) x := by
  haveI := Fact.mk hp
  have hfix : ∀ c : Fp2 p β, (Fp6.ofFp2 c : Fp6 p β ξ) ^ (p ^ 2) = Fp6.ofFp2 c := by
    intro c
    rw [← map_pow, Fp2.pow_card hp hβ]
  have hv : (Fp6.v : Fp6 p β ξ) ^ (p ^ 2) = Fp6.ofFp2 ((ξ ^ m) ^ 2) * Fp6.v := by
    rw [hm, show 6 * m + 1 = 3 * (2 * m) + 1 by ring, pow_succ, pow_mul, fp6_v_cube,
      ← map_pow, ← pow_mul, mul_comm 2 m]
  obtain ⟨a, b, c⟩ := x
  rw [fp6_decomp a b c, add_pow_char_pow, add_pow_char_pow, mul_pow, mul_pow, hfix, hfix, hfix,
    ← pow_mul, mul_comm 2 (p ^ 2), pow_mul, hv]
  generalize ξ ^ m = ω
  apply Fp6.ext <;>
    simp only [fp6_frbq, Fp6.v, pow_two, fp6_add_c0, fp6_add_c1, fp6_add_c2, fp6_mul_c0,
      fp6_mul_c1, fp6_mul_c2, fp6_ofFp2_c0, fp6_ofFp2_c1, fp6_ofFp2_c2] <;>
    ring

theorem fp12_pow_q (hp : p.Prime) (hβ : ¬ IsSquare β) (m : ℕ) (hm : p ^ 2 = 6 * m + 1)
    (hω : (ξ ^ m) ^ 2 - ξ ^ m + 1 = 0) (g : Fp12 p β ξ) :
    g ^ (p ^ 2) = fp12_frbq (ξ ^ m) g := by
  haveI := Fact.mk hp
  have hw : (Fp12.w : Fp12 p β ξ) ^ (p ^ 2) = Fp12.ofFp6 (Fp6.ofFp2 (ξ ^ m)) * Fp12.w := by
    rw [hm, show 6 * m + 1 = 2 * (3 * m) + 1 by ring, pow_succ, pow_mul, fp12_w_sq,
      ← map_pow, pow_mul, fp6_v_cube, ← map_pow]
  obtain ⟨⟨a00, a01, a02⟩, ⟨a10, a11, a12⟩⟩ := g
  rw [fp12_decomp, add_pow_char_pow, mul_pow, ← map_pow, ← map_pow,
    fp6_pow_q hp hβ m hm, fp6_pow_q hp hβ m hm, hw]
  revert hω
  generalize ξ ^ m = ω
  intro hω
  apply Fp12.ext <;> apply Fp6.ext <;>
    simp only [fp12_frbq, fp6_frbq, Fp12.w, Fp6.v, fp12_add_c0, fp12_add_c1, fp12_mul_c0,
      fp12_mul_c1, fp12_ofFp6_c0, fp12_ofFp6_c1, fp6_add_c0, fp6_add_c1, fp6_add_c2,
      fp6_mul_c0, fp6_mul_c1, fp6_mul_c2, fp6_ofFp2_c0, fp6_ofFp2_c1, fp6_ofFp2_c2,
      fp6_zero_c0, fp6_zero_c1, fp6_zero_c2, fp6_one_c0, fp6_one_c1, fp6_one_c2]
  · ring
  · linear_combination a01 * hω
  · linear_combination (a02 * ω + a02 * ω ^ 2) * hω
  · ring
  · linear_combination (a11 + a11 * ω) * hω
  · linear_combination (-a12 + a12 * ω ^ 2 + a12 * ω ^ 3) * hω

theorem fp12_frbq_cube (ω : Fp2 p β) (hω : ω ^ 2 - ω + 1 = 0) (g : Fp12 p β ξ) :
    fp12_frbq ω (fp12_frbq ω (fp12_frbq ω g)) = fp12_inv_uni g := by
  obtain ⟨⟨a00, a01, a02⟩, ⟨a10, a11, a12⟩⟩ := g
  apply Fp12.ext <;> apply Fp6.ext <;>
    simp only [fp12_frbq, fp12_inv_uni, fp6_neg, fp2_neg_eq]
  · linear_combination (-2 * a01 + a01 * ω) * hω
  · linear_combination (-a02 - a02 * ω) * hω
  · linear_combination (a10 + a10 * ω) * hω
  · ring
  · linear_combination (2 * a12 - a12 * ω) * hω

theorem pow_four_sub (hp : p.Prime) :
    p ^ 4 - p ^ 2 + 1 + p ^ 2 = p ^ 2 * p ^ 2 + 1 ∧
    (p ^ 4 - p ^ 2 + 1) * (p ^ 2 + 1) = p ^ 2 * p ^ 2 * p ^ 2 + 1 := by
  have h : p ^ 2 ≤ p ^ 4 := Nat.pow_le_pow_right hp.pos (by norm_num)
  have e : p ^ 4 = p ^ 2 * p ^ 2 := by ring
  constructor
  · omega
  · zify [h]
    ring

theorem cycRel_of_pow (ht : IsTower p β ξ) (g : Fp12 p β ξ)
    (hg : g ^ (p ^ 4 - p ^ 2 + 1) = 1) : CycRel g := by
  obtain ⟨hp, h2, hβ, hξ2, hξ3⟩ := ht
  obtain ⟨m, hm, hω⟩ := Fp2.omega_spec hp h2 hβ hξ2 hξ3
  have hq := fp12_pow_q hp hβ m hm hω
  obtain ⟨e1, e2⟩ := pow_four_sub hp
  have H1 : fp12_frbq (ξ ^ m) (fp12_frbq (ξ ^ m) g) * g = fp12_frbq (ξ ^ m) g := by
    rw [← hq, ← hq]
    calc (g ^ p ^ 2) ^ p ^ 2 * g = g ^ (p ^ 2 * p ^ 2 + 1) := by
          rw [← pow_mul]; exact (pow_succ g _).symm
      _ = g ^ (p ^ 4 - p ^ 2 + 1) * g ^ p ^ 2 := by rw [← e1, pow_add]
      _ = g ^ p ^ 2 := by rw [hg, one_mul]
  have H2 : fp12_inv_uni g * g = 1 := by
    rw [← fp12_frbq_cube (ξ ^ m) hω, ← hq, ← hq, ← hq]
    calc ((g ^ p ^ 2) ^ p ^ 2) ^ p ^ 2 * g = g ^ (p ^ 2 * p ^ 2 * p ^ 2 + 1) := by
          rw [← pow_mul, ← pow_mul, ← mul_assoc]; exact (pow_succ g _).symm
      _ = (g ^ (p ^ 4 - p ^ 2 + 1)) ^ (p ^ 2 + 1) := by rw [← e2, pow_mul]
      _ = 1 := by rw [hg, one_pow]
  revert hω H1
  generalize ξ ^ m = ω
  intro hω H1
  obtain ⟨⟨a00, a01, a02⟩, ⟨a10, a11, a12⟩⟩ := g
  have E00 := congrArg (fun x : Fp12 p β ξ => x.c0.c0) H1
  have E01 := congrArg (fun x : Fp12 p β ξ => x.c0.c1) H1
  have E02 := congrArg (fun x : Fp12 p β ξ => x.c0.c2) H1
  have E10 := congrArg (fun x : Fp12 p β ξ => x.c1.c0) H1
  have E11 := congrArg (fun x : Fp12 p β ξ => x.c1.c1) H1
  have E12 := congrArg (fun x : Fp12 p β ξ => x.c1.c2) H1
  have U00 := congrArg (fun x : Fp12 p β ξ => x.c0.c0) H2
  have U02 := congrArg (fun x : Fp12 p β ξ => x.c0.c2) H2
  simp only [fp12_frbq, fp12_inv_uni, fp6_neg, fp2_neg_eq, Fp6.v, fp12_mul_c0, fp12_mul_c1,
    fp6_add_c0, fp6_add_c1, fp6_add_c2, fp6_mul_c0, fp6_mul_c1, fp6_mul_c2,
    fp12_one_c0, fp6_one_c0, fp6_one_c2,
    fp6_zero_c0, fp6_zero_c1, fp6_zero_c2, fp6_one_c1] at E00 E01 E02 E10 E11 E12 U00 U02
  constructor <;> dsimp only
  · linear_combination E00 + (-2 * a10 * a12 * ξ - 2 * a01 * a02 * ξ) * hω
  · linear_combination E11 + (-2 * a02 * a12 * ξ - 2 * a01 * a10) * hω
  · linear_combination (1 - ω) * E10 + (-a10 + a02 * a11 * ξ * ω - 4 * a01 * a12 * ξ
      + 2 * a01 * a12 * ξ * ω + a00 * a10 * ω) * hω
  · linear_combination (1 - ω) * E02 + (-2 * a12 ^ 2 * ξ + a12 ^ 2 * ξ * ω + a10 * a11 * ω
      + a02 - 2 * a01 ^ 2 + a01 ^ 2 * ω + a00 * a02 * ω) * hω
  · linear_combination (-ω) * E01 + (-a11 * a12 * ξ + a11 * a12 * ξ * ω + a10 ^ 2
      + a10 ^ 2 * ω + a02 ^ 2 * ξ + a02 ^ 2 * ξ * ω - a01 - a00 * a01 + a00 * a01 * ω) * hω
  · linear_combination (-ω) * E12 + (a12 + 2 * a02 * a10 + 2 * a02 * a10 * ω - a01 * a11
      + a01 * a11 * ω - a00 * a12 + a00 * a12 * ω) * hω
  · linear_combination U00
  · linear_combination U02


theorem fp12_sqr_cyc_basic_eq_of_rel (g : Fp12 p β ξ) (h : CycRel g) :
    fp12_sqr_cyc_basic g = g * g := by
  obtain ⟨r1c, r1z, r2c, r2z, r3c, r3z, -, -⟩ := h
  obtain ⟨⟨a00, a01, a02⟩, ⟨a10, a11, a12⟩⟩ := g
  dsimp only at r1c r1z r2c r2z r3c r3z
  apply Fp12.ext <;> apply Fp6.ext <;>
    simp only [fp12_sqr_cyc_basic, fp2_add_eq, fp2_sub_eq, fp2_sqr_eq, fp2_mul_nor_eq,
      fp2_dbl_eq, fp12_mul_c0, fp12_mul_c1, fp6_mul_c0, fp6_mul_c1, fp6_mul_c2, fp6_add_c0,
      fp6_add_c1, fp6_add_c2, Fp6.v, fp6_zero_c0, fp6_zero_c1, fp6_zero_c2, fp6_one_c0,
      fp6_one_c1, fp6_one_c2]
  · linear_combination 2 * r1c
  · linear_combination 2 * r3c
  · linear_combination -2 * r2z
  · linear_combination -2 * r2c
  · linear_combination 2 * r1z
  · linear_combination 2 * r3z

theorem fp2_inv_spec (hp : p.Prime) (hβ : ¬ IsSquare β) (a : Fp2 p β) (ha : a ≠ 0) :
    ∃ i, fp2_inv a = some i ∧ a * i = 1 := by
  have hn := Fp2.norm_ne_zero hp hβ a ha
  have hi := fp_inv_mul_cancel hp _ hn
  unfold Fp2.norm at hi
  refine ⟨_, if_neg ha, ?_⟩
  apply Fp2.ext
  · simp only [fp2_mul_c0, fp2_one_c0]
    linear_combination hi
  · simp only [fp2_mul_c1, fp2_one_c1]
    ring

theorem fp2_four_mul_ne_zero (hp : p.Prime) (h2 : p ≠ 2) (a : Fp2 p β) (ha : a ≠ 0) :
    4 * a ≠ 0 := by
  intro h
  apply ha
  have hh := Fp2.half_mul_two (β := β) hp h2
  linear_combination (Fp2.half * Fp2.half) * h - (a * (Fp2.half * 2 + 1)) * hh

theorem back_cyc_coords_of_rel (ht : IsTower p β ξ) (h : Fp12 p β ξ) (R : CycRel h)
    (hnz : h.c1.c0 ≠ 0 ∨ h.c0.c2 ≠ 0) :
    back_cyc_coords ξ h.c1.c0 h.c0.c2 h.c0.c1 h.c1.c2 = some (h.c0.c0, h.c1.c1) := by
  obtain ⟨hp, h2, hβ, hξ2, -⟩ := ht
  obtain ⟨r1c, -, r2c, r2z, -, -, u0, u1⟩ := R
  obtain ⟨⟨a00, a01, a02⟩, ⟨a10, a11, a12⟩⟩ := h
  dsimp only at r1c r2c r2z u0 u1 hnz ⊢
  by_cases h10 : a10 = 0
  · have h02 : a02 ≠ 0 := hnz.resolve_left (fun hh => hh h10)
    have hξ : ξ ≠ 0 := by
      rintro rfl
      exact hξ2 ⟨0, by simp⟩
    obtain ⟨i, hi, hi1⟩ := fp2_inv_spec hp hβ a02 h02
    obtain ⟨j, -, hj1⟩ := fp2_inv_spec hp hβ ξ hξ
    subst h10
    have e1 : 2 * (a01 * a12) * i = a11 := by
      linear_combination (-(i * j)) * r2c + (a11 * a02 * i - 2 * a01 * a12 * i) * hj1
        + a11 * hi1
    simp only [back_cyc_coords, ne_eq, not_true_eq_false, if_false, hi, Option.map_some', e1]
    congr 2
    linear_combination r1c - u0
  · obtain ⟨i, hi, hi1⟩ := fp2_inv_spec hp hβ (4 * a10) (fp2_four_mul_ne_zero hp h2 a10 h10)
    have e1 : (a12 * a12 * ξ + 3 * (a01 * a01) - 2 * a02) * i = a11 := by
      linear_combination (-2 * i) * r2z + i * u1 + a11 * hi1
    simp only [back_cyc_coords, ne_eq, h10, not_false_eq_true, if_true, hi, Option.map_some', e1]
    congr 2
    linear_combination r1c - u0

theorem isTower_seven : IsTower 7 6 xi7 where
  prime := by norm_num
  odd := by decide
  beta := by decide
  xi_sq := by
    rintro ⟨⟨a, b⟩, h⟩
    revert a b
    decide
  xi_cube := by
    rintro ⟨⟨a, b⟩, h⟩
    rw [pow_succ, pow_two] at h
    revert a b
    decide

theorem g13_pow_thirteen : g13 ^ 13 = 1 := by
  have e2 : g13 * g13 = ⟨⟨⟨4, 3⟩, ⟨4, 4⟩, ⟨1, 3⟩⟩, ⟨⟨6, 4⟩, ⟨1, 2⟩, ⟨4, 2⟩⟩⟩ := by decide
  have e4 : (⟨⟨⟨4, 3⟩, ⟨4, 4⟩, ⟨1, 3⟩⟩, ⟨⟨6, 4⟩, ⟨1, 2⟩, ⟨4, 2⟩⟩⟩ : Fp12 7 6 xi7) *
      ⟨⟨⟨4, 3⟩, ⟨4, 4⟩, ⟨1, 3⟩⟩, ⟨⟨6, 4⟩, ⟨1, 2⟩, ⟨4, 2⟩⟩⟩ =
      ⟨⟨⟨4, 4⟩, ⟨0, 1⟩, ⟨1, 5⟩⟩, ⟨⟨6, 1⟩, ⟨4, 0⟩, ⟨0, 3⟩⟩⟩ := by decide
  have e8 : (⟨⟨⟨4, 4⟩, ⟨0, 1⟩, ⟨1, 5⟩⟩, ⟨⟨6, 1⟩, ⟨4, 0⟩, ⟨0, 3⟩⟩⟩ : Fp12 7 6 xi7) *
      ⟨⟨⟨4, 4⟩, ⟨0, 1⟩, ⟨1, 5⟩⟩, ⟨⟨6, 1⟩, ⟨4, 0⟩, ⟨0, 3⟩⟩⟩ =
      ⟨⟨⟨4, 3⟩, ⟨1, 1⟩, ⟨4, 5⟩⟩, ⟨⟨4, 5⟩, ⟨6, 5⟩, ⟨6, 3⟩⟩⟩ := by decide
  have e12 : (⟨⟨⟨4, 3⟩, ⟨1, 1⟩, ⟨4, 5⟩⟩, ⟨⟨4, 5⟩, ⟨6, 5⟩, ⟨6, 3⟩⟩⟩ : Fp12 7 6 xi7) *
      ⟨⟨⟨4, 4⟩, ⟨0, 1⟩, ⟨1, 5⟩⟩, ⟨⟨6, 1⟩, ⟨4, 0⟩, ⟨0, 3⟩⟩⟩ =
      ⟨⟨⟨4, 4⟩, ⟨0, 4⟩, ⟨2, 3⟩⟩, ⟨⟨5, 2⟩, ⟨4, 0⟩, ⟨0, 5⟩⟩⟩ := by decide
  have e13 : (⟨⟨⟨4, 4⟩, ⟨0, 4⟩, ⟨2, 3⟩⟩, ⟨⟨5, 2⟩, ⟨4, 0⟩, ⟨0, 5⟩⟩⟩ : Fp12 7 6 xi7) * g13 = 1 := by
    decide
  calc g13 ^ 13 = (g13 * g13) * (g13 * g13) * ((g13 * g13) * (g13 * g13)) *
        ((g13 * g13) * (g13 * g13)) * g13 := by ring
    _ = 1 := by rw [e2, e4, e8, e12, e13]

theorem g13_cyclotomic : g13 ^ (7 ^ 4 - 7 ^ 2 + 1) = 1 := by
  rw [show 7 ^ 4 - 7 ^ 2 + 1 = 13 * 181 by norm_num, pow_mul, g13_pow_thirteen, one_pow]

theorem fp12_inv_uni_inv_uni (a : Fp12 p β ξ) : fp12_inv_uni (fp12_inv_uni a) = a := by
  obtain ⟨a0, ⟨a10, a11, a12⟩⟩ := a
  simp [fp12_inv_uni, fp6_neg, fp2_neg_eq]

theorem fp12_pow_card (ht : IsTower p β ξ) (a : Fp12 p β ξ) : a ^ (p ^ 12) = a := by
  obtain ⟨hp, h2, hβ, hξ2, hξ3⟩ := ht
  obtain ⟨m, hm, hω⟩ := Fp2.omega_spec hp h2 hβ hξ2 hξ3
  have hq := fp12_pow_q hp hβ m hm hω
  have h3 : ∀ x : Fp12 p β ξ, x ^ (p ^ 6) = fp12_inv_uni x := by
    intro x
    rw [show p ^ 6 = p ^ 2 * p ^ 2 * p ^ 2 by ring, pow_mul, pow_mul, hq, hq, hq,
      fp12_frbq_cube _ hω]
  rw [show p ^ 12 = p ^ 6 * p ^ 6 by ring, pow_mul, h3, h3, fp12_inv_uni_inv_uni]

theorem conv_cyc_exponent (hp : p.Prime) :
    (p ^ 6 - 1) * (p ^ 2 + 1) * (p ^ 4 - p ^ 2 + 1) + 1 = p ^ 12 := by
  have h1 : 1 ≤ p ^ 6 := Nat.one_le_pow _ _ hp.pos
  have h2 : p ^ 2 ≤ p ^ 4 := Nat.pow_le_pow_right hp.pos (by norm_num)
  zify [h1, h2]
  ring

theorem cyclotomic_of_unit (ht : IsTower p β ξ) (a b : Fp12 p β ξ) (hab : a * b = 1) :
    (a ^ ((p ^ 6 - 1) * (p ^ 2 + 1))) ^ (p ^ 4 - p ^ 2 + 1) = 1 := by
  have h := fp12_pow_card ht a
  rw [← conv_cyc_exponent ht.prime, pow_succ] at h
  rw [← pow_mul]
  generalize a ^ ((p ^ 6 - 1) * (p ^ 2 + 1) * (p ^ 4 - p ^ 2 + 1)) = x at h ⊢
  calc x = x * a * b := by rw [mul_assoc x a b, hab, mul_one]
    _ = 1 := by rw [h, hab]

/-! ### Facts about the constant 2 -/

theorem fp12_two_ne_one (hp : p.Prime) : (2 : Fp12 p β ξ) ≠ 1 := by
  haveI := Fact.mk hp
  intro h
  have h1 := congrArg (fun x : Fp12 p β ξ => x.c0.c0.c0) h
  simp only [fp12_ofNat_c0, fp6_ofNat_c0, fp2_ofNat_c0, fp12_one_c0, fp6_one_c0, fp2_one_c0] at h1
  have : (1 : ZMod p) = 0 := by linear_combination h1
  exact one_ne_zero this

theorem fp12_natCast_pow_char (hp : p.Prime) (n : ℕ) : ((n : Fp12 p β ξ)) ^ p = n := by
  haveI := Fact.mk hp
  have h := ZMod.pow_card (n : ZMod p)
  have h2 := congrArg (ZMod.castHom (dvd_refl p) (Fp12 p β ξ)) h
  rw [map_pow, map_natCast] at h2
  exact h2

/-- The constant 2 is fixed by the exponent `p⁴ − p² + 1`. -/
theorem fp12_two_pow_cyc (hp : p.Prime) (h2 : p ≠ 2) :
    (2 : Fp12 p β ξ) ^ (p ^ 4 - p ^ 2 + 1) = 2 := by
  have hpw : ∀ k, (2 : Fp12 p β ξ) ^ (p ^ k) = 2 := by
    intro k
    induction k with
    | zero => simp
    | succ k ih =>
      rw [pow_succ, pow_mul, ih]
      exact_mod_cast fp12_natCast_pow_char (β := β) (ξ := ξ) hp 2
  obtain ⟨e1, -⟩ := pow_four_sub hp
  have h4 : (2 : Fp12 p β ξ) ^ (p ^ 4 - p ^ 2 + 1) * 2 = 2 * 2 := by
    calc (2 : Fp12 p β ξ) ^ (p ^ 4 - p ^ 2 + 1) * 2
        = (2 : Fp12 p β ξ) ^ (p ^ 4 - p ^ 2 + 1) * 2 ^ (p ^ 2) := by rw [hpw 2]
      _ = 2 ^ (p ^ 2 * p ^ 2 + 1) := by rw [← pow_add, e1]
      _ = 2 ^ (p ^ 4) * 2 := by rw [pow_succ]; congr 2; ring
      _ = 2 * 2 := by rw [hpw 4]
  have hh := Fp2.half_mul_two (β := β) hp h2
  have hinv : (2 : Fp12 p β ξ) * Fp12.ofFp6 (Fp6.ofFp2 Fp2.half) = 1 := by
    have := congrArg (fun x => Fp12.ofFp6 (Fp6.ofFp2 (ξ := ξ) x)) hh
    simp only [map_mul, map_one, map_ofNat] at this
    rw [mul_comm]; exact this
  calc (2 : Fp12 p β ξ) ^ (p ^ 4 - p ^ 2 + 1)
      = (2 : Fp12 p β ξ) ^ (p ^ 4 - p ^ 2 + 1) * 2 * Fp12.ofFp6 (Fp6.ofFp2 Fp2.half) := by
        rw [mul_assoc, hinv, mul_one]
    _ = 2 := by rw [h4, mul_assoc, hinv, mul_one]

theorem fp12_sqr_cyc_basic_two : fp12_sqr_cyc_basic (2 : Fp12 p β ξ) = 8 := by
  apply Fp12.ext <;> apply Fp6.ext <;>
    simp only [fp12_sqr_cyc_basic, fp2_add_eq, fp2_sub_eq, fp2_sqr_eq, fp2_mul_nor_eq,
      fp2_dbl_eq, fp12_ofNat_c0, fp12_ofNat_c1, fp6_ofNat_c0, fp6_ofNat_c1, fp6_ofNat_c2,
      fp6_zero_c0, fp6_zero_c1, fp6_zero_c2] <;> ring

theorem fp12_sqr_two : fp12_sqr (2 : Fp12 p β ξ) = 4 := by
  rw [fp12_sqr_eq]
  norm_num

theorem fp12_eight_ne_four (hp : p.Prime) (h2 : p ≠ 2) : (8 : Fp12 p β ξ) ≠ 4 := by
  intro h
  have h1 := congrArg (fun x : Fp12 p β ξ => x.c0.c0.c0) h
  simp only [fp12_ofNat_c0, fp6_ofNat_c0, fp2_ofNat_c0] at h1
  have h0 := two_ne_zero_of_odd hp h2
  haveI := Fact.mk hp
  have : (2 : ZMod p) * 2 = 0 := by linear_combination h1
  exact h0 (mul_self_eq_zero.mp this)

/-! ### Facts about the statement lists -/

/-- The statement list of `fp12_sqr_cyc_basic` computes the embedding. -/
theorem run2_cyc_basic (s : Store2 p β) :
    (run2 ξ fp12_sqr_cyc_basic_prog.body s).fp12 ξ .c = fp12_sqr_cyc_basic (s.fp12 ξ .a) := rfl

/-- The statement list of `fp12_sqr_cyc_basic`, called in place. -/
theorem run2_cyc_basic_alias (s : Store2 p β) :
    (run2 ξ (fp12_sqr_cyc_basic_prog.body.map Stmt.alias) s).fp12 ξ .a =
      fp12_sqr_cyc_basic (s.fp12 ξ .a) := rfl

/-- The statement list of `fp12_sqr_cyc_lazyr` computes the embedding. -/
theorem run2_cyc_lazyr (s : Store2 p β) :
    (run2 ξ fp12_sqr_cyc_lazyr_prog.body s).fp12 ξ .c = fp12_sqr_cyc_lazyr (s.fp12 ξ .a) := rfl

/-- The statement list of `fp12_sqr_cyc_lazyr`, called in place. -/
theorem run2_cyc_lazyr_alias (s : Store2 p β) :
    (run2 ξ (fp12_sqr_cyc_lazyr_prog.body.map Stmt.alias) s).fp12 ξ .a =
      fp12_sqr_cyc_lazyr (s.fp12 ξ .a) := rfl

/-- The statement list of `fp12_sqr_pck_basic` computes the embedding. -/
theorem run2_pck_basic (s : Store2 p β) :
    (run2 ξ fp12_sqr_pck_basic_prog.body s).fp12 ξ .c =
      fp12_sqr_pck_basic (s.fp12 ξ .c) (s.fp12 ξ .a) := rfl

/-- The statement list of `fp12_sqr_pck_basic`, called in place. -/
theorem run2_pck_basic_alias (s : Store2 p β) :
    (run2 ξ (fp12_sqr_pck_basic_prog.body.map Stmt.alias) s).fp12 ξ .a =
      fp12_sqr_pck_basic (s.fp12 ξ .a) (s.fp12 ξ .a) := rfl

/-- The statement list of `fp12_sqr_pck_lazyr` computes the embedding. -/
theorem run2_pck_lazyr (s : Store2 p β) :
    (run2 ξ fp12_sqr_pck_lazyr_prog.body s).fp12 ξ .c =
      fp12_sqr_pck_lazyr (s.fp12 ξ .c) (s.fp12 ξ .a) := rfl

/-- The compressed coordinates of the cyclotomic square depend only on the
compressed coordinates of the input. -/
theorem fp12_sqr_cyc_basic_compressed (a b : Fp12 p β ξ)
    (h01 : a.c0.c1 = b.c0.c1) (h10 : a.c1.c0 = b.c1.c0)
    (h02 : a.c0.c2 = b.c0.c2) (h12 : a.c1.c2 = b.c1.c2) :
    (fp12_sqr_cyc_basic a).c0.c1 = (fp12_sqr_cyc_basic b).c0.c1 ∧
    (fp12_sqr_cyc_basic a).c1.c0 = (fp12_sqr_cyc_basic b).c1.c0 ∧
    (fp12_sqr_cyc_basic a).c0.c2 = (fp12_sqr_cyc_basic b).c0.c2 ∧
    (fp12_sqr_cyc_basic a).c1.c2 = (fp12_sqr_cyc_basic b).c1.c2 := by
  simp only [fp12_sqr_cyc_basic, h01, h10, h02, h12, and_self]

/-- Iterated in-place compressed squaring against iterated cyclotomic
squaring, on the compressed coordinates. -/
theorem pck_iterate_compressed (k : ℕ) (s : Store2 p β) :
    (((run2 ξ (fp12_sqr_pck_basic_prog.body.map Stmt.alias))^[k] s).fp12 ξ .a).c0.c1 =
      (fp12_sqr_cyc_basic^[k] (s.fp12 ξ .a)).c0.c1 ∧
    (((run2 ξ (fp12_sqr_pck_basic_prog.body.map Stmt.alias))^[k] s).fp12 ξ .a).c1.c0 =
      (fp12_sqr_cyc_basic^[k] (s.fp12 ξ .a)).c1.c0 ∧
    (((run2 ξ (fp12_sqr_pck_basic_prog.body.map Stmt.alias))^[k] s).fp12 ξ .a).c0.c2 =
      (fp12_sqr_cyc_basic^[k] (s.fp12 ξ .a)).c0.c2 ∧
    (((run2 ξ (fp12_sqr_pck_basic_prog.body.map Stmt.alias))^[k] s).fp12 ξ .a).c1.c2 =
      (fp12_sqr_cyc_basic^[k] (s.fp12 ξ .a)).c1.c2 := by
  induction k with
  | zero => exact ⟨rfl, rfl, rfl, rfl⟩
  | succ k ih =>
    rw [Function.iterate_succ_apply', Function.iterate_succ_apply', run2_pck_basic_alias]
    obtain ⟨h1, h2, h3, h4⟩ := ih
    exact fp12_sqr_cyc_basic_compressed _ _ h1 h2 h3 h4

/-- On a cyclotomic element the iterated cyclotomic squaring is the power
`2^k`. -/
theorem cyc_iterate_pow (ht : IsTower p β ξ) (a : Fp12 p β ξ)
    (ha : a ^ (p ^ 4 - p ^ 2 + 1) = 1) (k : ℕ) :
    fp12_sqr_cyc_basic^[k] a = a ^ (2 ^ k) := by
  induction k with
  | zero => simp
  | succ k ih =>
    rw [Function.iterate_succ_apply', ih]
    have hc : (a ^ (2 ^ k)) ^ (p ^ 4 - p ^ 2 + 1) = 1 := by
      rw [← pow_mul, mul_comm, pow_mul, ha, one_pow]
    rw [fp12_sqr_cyc_basic_eq_of_rel _ (cycRel_of_pow ht _ hc), ← pow_add]
    congr 1
    ring

theorem store13_a : store13.fp12 xi7 .a = g13 := rfl

/-! ### Facts about reducedness -/

theorem runTryLeaf_none (l : List Stmt) (n : ℕ) : runTryLeaf none l n = (none, n + l.length) := by
  induction l generalizing n with
  | nil => rfl
  | cons st rest ih =>
    simp only [runTryLeaf, raises, ih, List.length_cons]
    congr 1; omega

theorem runTryLeaf_some (k : ℕ) (e : Err) (l : List Stmt) (n : ℕ) :
    runTryLeaf (some (k, e)) l n =
      if n ≤ k ∧ k < n + l.length then (some e, k + 1) else (none, n + l.length) := by
  induction l generalizing n with
  | nil =>
    rw [if_neg (by simp)]
    rfl
  | cons st rest ih =>
    simp only [runTryLeaf, raises, List.length_cons]
    by_cases h : k = n
    · subst h
      simp
    · simp only [h, if_false, ih]
      by_cases h2 : n + 1 ≤ k ∧ k < n + 1 + rest.length
      · rw [if_pos h2, if_pos ⟨by omega, by omega⟩]
      · rw [if_neg h2, if_neg (by omega)]
        congr 1; omega

theorem runTry_none (fs : Bool) (l : List Stmt) (n : ℕ) :
    runTry fs none l n = (none, n + stepCount fs l) := by
  induction l generalizing n with
  | nil => rfl
  | cons st rest ih =>
    simp only [runTry, stepCount]
    cases hc : callee fs st with
    | none =>
      simp only [raises, ih]
      congr 1; omega
    | some r =>
      simp only [runLeaf, runTryLeaf_none, catchAny, ih]
      congr 1; omega

/-- Every routine of this file that is called rethrows. -/
theorem callee_handler (fs : Bool) (st : Stmt) (r : Routine) (h : callee fs st = some r) :
    r.handler = .rethrow .ERR_CAUGHT := by
  unfold callee at h
  split at h <;> simp at h <;> subst h <;> rfl

theorem runTry_some (fs : Bool) (k : ℕ) (e : Err) (l : List Stmt) (n : ℕ) :
    (n ≤ k ∧ k < n + stepCount fs l → (runTry fs (some (k, e)) l n).1 ≠ none) ∧
    (¬ (n ≤ k ∧ k < n + stepCount fs l) →
      runTry fs (some (k, e)) l n = (none, n + stepCount fs l)) := by
  induction l generalizing n with
  | nil => simp [runTry, stepCount]
  | cons st rest ih =>
    simp only [runTry, stepCount]
    cases hc : callee fs st with
    | none =>
      simp only [raises]
      by_cases h : k = n
      · subst h
        simp
      · simp only [h, if_false]
        obtain ⟨ih1, ih2⟩ := ih (n + 1)
        constructor
        · intro hk
          exact ih1 ⟨by omega, by omega⟩
        · intro hk
          rw [ih2 (by omega)]
          congr 1; omega
    | some r =>
      have hh := callee_handler fs st r hc
      simp only [runLeaf, runTryLeaf_some, hh]
      by_cases h : n ≤ k ∧ k < n + r.body.length
      · simp [h, catchAny]
        omega
      · simp only [h, if_false, catchAny]
        obtain ⟨ih1, ih2⟩ := ih (n + r.body.length)
        constructor
        · intro hk
          exact ih1 ⟨by omega, by omega⟩
        · intro hk
          rw [ih2 (by omega)]
          congr 1; omega

/-- A routine whose handler rethrows returns an error exactly when one of its
steps raises. -/
theorem call_eq {α : Type} (r : Routine) (hr : r.handler = .rethrow .ERR_CAUGHT) (fs : Bool)
    (fail : Option (ℕ × Err)) (val : α) :
    r.call fs fail val =
      if stepRaises fail (stepCount fs r.body) then .error .ERR_CAUGHT else .ok val := by
  unfold Routine.call
  rw [hr]
  cases fail with
  | none => simp [runTry_none, catchAny, Except.map, stepRaises]
  | some ke =>
    obtain ⟨k, e⟩ := ke
    obtain ⟨h1, h2⟩ := runTry_some fs k e r.body 0
    by_cases h : k < stepCount fs r.body
    · have := h1 ⟨by omega, by omega⟩
      have hs : stepRaises (some (k, e)) (stepCount fs r.body) = true := by
        simp [stepRaises, h]
      rw [hs, if_pos rfl]
      cases hx : (runTry fs (some (k, e)) r.body 0).1 with
      | none => exact absurd hx this
      | some e' => rfl
    · have hs : stepRaises (some (k, e)) (stepCount fs r.body) = false := by
        simp [stepRaises, h]
      rw [h2 (by omega), hs]
      rfl

/-! ### Facts about the temporaries -/

/-- Past the end of the `TRY` block every exit path is the path without
error. -/
theorem balanced_of_length_le (r : Routine) (k : ℕ) (h : r.body.length ≤ k) :
    r.balanced k = r.balanced r.body.length := by
  unfold Routine.balanced Routine.trace
  rw [List.take_of_length_le h, List.take_of_length_le le_rfl]

theorem balanced_fp12_sqr (k : ℕ) : fp12_sqr_prog.balanced k = true := by
  have h : ∀ k, k ≤ 11 → fp12_sqr_prog.balanced k = true := by decide
  by_cases hk : k ≤ 11
  · exact h k hk
  · rw [balanced_of_length_le _ _ (by simp only [fp12_sqr_prog, List.length]; omega)]
    exact h _ (by decide)

theorem balanced_cyc_basic (k : ℕ) : fp12_sqr_cyc_basic_prog.balanced k = true := by
  have h : ∀ k, k ≤ 50 → fp12_sqr_cyc_basic_prog.balanced k = true := by decide
  by_cases hk : k ≤ 50
  · exact h k hk
  · rw [balanced_of_length_le _ _ (by simp only [fp12_sqr_cyc_basic_prog, List.length]; omega)]
    exact h _ (by decide)

theorem balanced_pck_basic (k : ℕ) : fp12_sqr_pck_basic_prog.balanced k = true := by
  have h : ∀ k, k ≤ 36 → fp12_sqr_pck_basic_prog.balanced k = true := by decide
  by_cases hk : k ≤ 36
  · exact h k hk
  · rw [balanced_of_length_le _ _ (by simp only [fp12_sqr_pck_basic_prog, List.length]; omega)]
    exact h _ (by decide)

theorem balanced_cyc_lazyr (k : ℕ) : fp12_sqr_cyc_lazyr_prog.balanced k = true := by
  have h : ∀ k, k ≤ 56 → fp12_sqr_cyc_lazyr_prog.balanced k = true := by decide
  by_cases hk : k ≤ 56
  · exact h k hk
  · rw [balanced_of_length_le _ _ (by simp only [fp12_sqr_cyc_lazyr_prog, List.length]; omega)]
    exact h _ (by decide)

theorem balanced_pck_lazyr (k : ℕ) : fp12_sqr_pck_lazyr_prog.balanced k = true := by
  have h : ∀ k, k ≤ 40 → fp12_sqr_pck_lazyr_prog.balanced k = true := by decide
  by_cases hk : k ≤ 40
  · exact h k hk
  · rw [balanced_of_length_le _ _ (by simp only [fp12_sqr_pck_lazyr_prog, List.length]; omega)]
    exact h _ (by decide)

/-! ### Facts about the Fp4 view -/

theorem fp4_hlv_eq (x : Fp4 p β) : fp4_hlv x = (Fp2.half * x.1, Fp2.half * x.2) := by
  unfold fp4_hlv
  rw [Fp2.hlv_pair, Fp2.hlv_pair]

/-! ### Facts about the closed form of the cyclotomic squaring -/

/-- The closed form of the six outputs of `fp12_sqr_cyc_basic`. -/
theorem fp12_sqr_cyc_basic_closed (a : Fp12 p β ξ) :
    fp12_sqr_cyc_basic a =
      ⟨⟨3 * (a.c0.c0 * a.c0.c0 + ξ * (a.c1.c1 * a.c1.c1)) - 2 * a.c0.c0,
        3 * (a.c1.c0 * a.c1.c0 + ξ * (a.c0.c2 * a.c0.c2)) - 2 * a.c0.c1,
        3 * (a.c0.c1 * a.c0.c1 + ξ * (a.c1.c2 * a.c1.c2)) - 2 * a.c0.c2⟩,
       ⟨6 * (ξ * (a.c0.c1 * a.c1.c2)) + 2 * a.c1.c0,
        6 * (a.c0.c0 * a.c1.c1) + 2 * a.c1.c1,
        6 * (a.c1.c0 * a.c0.c2) + 2 * a.c1.c2⟩⟩ := by
  apply Fp12.ext <;> apply Fp6.ext <;>
    simp only [fp12_sqr_cyc_basic, fp2_add_eq, fp2_sub_eq, fp2_sqr_eq, fp2_mul_nor_eq,
      fp2_dbl_eq] <;> ring

/-- The components of the square in Fp12. -/
theorem fp12_mul_self_closed (a : Fp12 p β ξ) :
    a * a =
      ⟨⟨a.c0.c0 * a.c0.c0 + ξ * (a.c1.c1 * a.c1.c1)
          + 2 * (ξ * (a.c1.c0 * a.c1.c2 + a.c0.c2 * a.c0.c1)),
        a.c1.c0 * a.c1.c0 + ξ * (a.c0.c2 * a.c0.c2)
          + 2 * (a.c0.c0 * a.c0.c1 + ξ * (a.c1.c1 * a.c1.c2)),
        a.c0.c1 * a.c0.c1 + ξ * (a.c1.c2 * a.c1.c2)
          + 2 * (a.c0.c0 * a.c0.c2 + a.c1.c1 * a.c1.c0)⟩,
       ⟨2 * (a.c0.c0 * a.c1.c0 + ξ * (a.c1.c1 * a.c0.c2)) + 2 * (ξ * (a.c0.c1 * a.c1.c2)),
        2 * (a.c0.c0 * a.c1.c1) + 2 * (a.c1.c0 * a.c0.c1 + ξ * (a.c0.c2 * a.c1.c2)),
        2 * (a.c1.c0 * a.c0.c2) + 2 * (a.c0.c0 * a.c1.c2 + a.c1.c1 * a.c0.c1)⟩⟩ := by
  obtain ⟨⟨a00, a01, a02⟩, ⟨a10, a11, a12⟩⟩ := a
  apply Fp12.ext <;> apply Fp6.ext <;>
    simp only [fp12_mul_c0, fp12_mul_c1, fp6_mul_c0, fp6_mul_c1, fp6_mul_c2, fp6_add_c0,
      fp6_add_c1, fp6_add_c2, Fp6.v, fp6_zero_c0, fp6_zero_c1, fp6_zero_c2, fp6_one_c0,
      fp6_one_c1, fp6_one_c2] <;> ring

/-- For odd `p` the constant 2 is invertible in Fp2. -/
theorem fp2_two_unit (hp : Odd p) : ∃ h : Fp2 p β, h * 2 = 1 := by
  obtain ⟨m, hm⟩ := hp
  refine ⟨((m + 1 : ℕ) : Fp2 p β), ?_⟩
  have h1 : ((2 * m + 1 : ℕ) : Fp2 p β) = 0 :=
    (CharP.cast_eq_zero_iff (Fp2 p β) p (2 * m + 1)).mpr ⟨1, by omega⟩
  have h2 : (((m + 1 : ℕ) : Fp2 p β)) * 2 = ((2 * m + 1 : ℕ) : Fp2 p β) + 1 := by
    push_cast
    ring
  rw [h2, h1, zero_add]

/-- For odd `p`, equations in Fp2 that differ by the factor 2 are equivalent. -/
theorem fp2_eq_iff_of_two (hp : Odd p) {s t x y : Fp2 p β} (h : s - t = 2 * (x - y)) :
    s = t ↔ x = y := by
  obtain ⟨k, hk⟩ := fp2_two_unit (β := β) hp
  constructor
  · intro e
    have e2 : 2 * (x - y) = 0 := by rw [← h, e, sub_self]
    linear_combination k * e2 - (x - y) * hk
  · intro e
    linear_combination h + 2 * e

/-- The embedding of `Fp4` in Fp12 is multiplicative. -/
theorem Fp4.toFp12_mul (x y : Fp4 p β) :
    (Fp4.toFp12 (Fp4.mul ξ x y) : Fp12 p β ξ) = Fp4.toFp12 x * Fp4.toFp12 y := by
  obtain ⟨x0, x1⟩ := x
  obtain ⟨y0, y1⟩ := y
  apply Fp12.ext <;> apply Fp6.ext <;>
    simp only [Fp4.toFp12, Fp4.mul, fp12_mul_c0, fp12_mul_c1, fp6_mul_c0, fp6_mul_c1,
      fp6_mul_c2, fp6_add_c0, fp6_add_c1, fp6_add_c2, Fp6.v, fp6_zero_c0, fp6_zero_c1,
      fp6_zero_c2, fp6_one_c0, fp6_one_c1, fp6_one_c2] <;> ring

/-- The decomposition `a = A + B·w + C·w²` over `Fp4`. -/
theorem fp12_fp4_decomp (a : Fp12 p β ξ) :
    a = Fp4.toFp12 a.fp4A + Fp4.toFp12 a.fp4B * Fp12.w
      + Fp4.toFp12 a.fp4C * (Fp12.w * Fp12.w) := by
  obtain ⟨⟨a00, a01, a02⟩, ⟨a10, a11, a12⟩⟩ := a
  apply Fp12.ext <;> apply Fp6.ext <;>
    simp only [Fp4.toFp12, Fp12.fp4A, Fp12.fp4B, Fp12.fp4C, Fp12.w, fp12_add_c0, fp12_add_c1,
      fp12_mul_c0, fp12_mul_c1, fp6_mul_c0, fp6_mul_c1,
      fp6_mul_c2, fp6_add_c0, fp6_add_c1, fp6_add_c2, Fp6.v, fp6_zero_c0, fp6_zero_c1,
      fp6_zero_c2, fp6_one_c0, fp6_one_c1, fp6_one_c2] <;> ring

/-- The outputs of `fp4_sqr_unr`. -/
theorem fp4_sqr_eq (x : Fp4 p β) : fp4_sqr ξ x = Fp4.mul ξ x x := by
  obtain ⟨a, b⟩ := x
  simp only [fp4_sqr, fp4_sqr_unr, Fp4.mul, fp2_sqrn_low, fp2_nord_low, fp2_addc_low,
    fp2_subc_low, fp2_rdcn_low, fp2_addm_low, fp2_add_eq, fp2_sub_eq, fp2_sqr_eq,
    fp2_mul_nor_eq]
  refine Prod.ext ?_ ?_ <;> ring

/-- The outputs of `fp4_mul_unr`. -/
theorem fp4_mul_eq (fs : Bool) (x y : Fp4 p β) : fp4_mul ξ fs x y = Fp4.mul ξ x y := by
  obtain ⟨a, b⟩ := x
  obtain ⟨c, d⟩ := y
  simp only [fp4_mul, fp4_mul_unr, Fp4.mul, fp2_nord_low, fp2_addc_low,
    fp2_subc_low, fp2_rdcn_low, fp2_addm_low, fp2_addn_low, fp2_muln_low, fp2_mulc_low,
    ite_self, fp2_add_eq, fp2_sub_eq, fp2_mul_eq, fp2_mul_nor_eq]
  refine Prod.ext ?_ ?_ <;> ring

/-! ## The claims -/

/-- C1: for every Fp12 element `a`, `fp12_sqr` produces the product `a·a` in
`Fp12 = Fp6[w]/(w² − v)`: it equals `fp12_mul a a`, whose halves are
`c0 = a0·a0 + v·a1·a1` and `c1 = (a0+a1)(a0+a1) − a0·a0 − a1·a1`. -/
theorem C1_fp12_sqr_is_mul (a : Fp12 p β ξ) :
    fp12_sqr a = fp12_mul a a ∧
    (fp12_sqr a).c0 = fp6_add (fp6_mul a.c0 a.c0) (fp6_mul_art (fp6_mul a.c1 a.c1)) ∧
    (fp12_sqr a).c1 = fp6_sub (fp6_sub (fp6_mul (fp6_add a.c0 a.c1) (fp6_add a.c0 a.c1))
      (fp6_mul a.c0 a.c0)) (fp6_mul a.c1 a.c1) := by
  have h : fp12_sqr a = fp12_mul a a := by rw [fp12_sqr_eq, fp12_mul_eq]
  refine ⟨h, ?_, ?_⟩ <;> rw [h] <;> rfl

/-- C2: over a well-formed tower with odd prime `p`, for every cyclotomic `g`
(`g^(p⁴ − p² + 1) = 1`) `fp12_sqr_cyc_basic` produces `g²` as computed by
`fp12_sqr`, which is `fp12_mul g g`, on all six Fp2 components; and every
`g = a^((p⁶−1)(p²+1))` with `a` invertible is such a cyclotomic element. -/
theorem C2_sqr_cyc_basic_eq_sqr (ht : IsTower p β ξ) :
    (∀ g : Fp12 p β ξ, g ^ (p ^ 4 - p ^ 2 + 1) = 1 →
      fp12_sqr_cyc_basic g = fp12_sqr g ∧ fp12_sqr_cyc_basic g = fp12_mul g g) ∧
    (∀ a b : Fp12 p β ξ, a * b = 1 →
      (a ^ ((p ^ 6 - 1) * (p ^ 2 + 1))) ^ (p ^ 4 - p ^ 2 + 1) = 1) := by
  refine ⟨fun g hg => ?_, fun a b hab => cyclotomic_of_unit ht a b hab⟩
  have h := fp12_sqr_cyc_basic_eq_of_rel g (cycRel_of_pow ht g hg)
  rw [h, fp12_sqr_eq, fp12_mul_eq]
  exact ⟨rfl, rfl⟩

/-- Witness of C2: an element of order 13 of the cyclotomic subgroup over the
tower `p = 7`, `β = −1`, `ξ = 2 + u`; it is invertible, with inverse its
conjugate. -/
theorem C2_sqr_cyc_basic_eq_sqr_witness :
    IsTower 7 6 xi7 ∧ g13 ^ (7 ^ 4 - 7 ^ 2 + 1) = 1 ∧
    fp12_sqr_cyc_basic g13 = fp12_sqr g13 ∧
    g13 * fp12_inv_uni g13 = 1 ∧
    (g13 ^ ((7 ^ 6 - 1) * (7 ^ 2 + 1))) ^ (7 ^ 4 - 7 ^ 2 + 1) = 1 :=
  ⟨isTower_seven, g13_cyclotomic,
    ((C2_sqr_cyc_basic_eq_sqr isTower_seven).1 g13 g13_cyclotomic).1,
    by decide,
    (C2_sqr_cyc_basic_eq_sqr isTower_seven).2 g13 (fp12_inv_uni g13) (by decide)⟩

/-- C3: for every Fp12 input (cyclotomic or not) the lazy-reduction cyclotomic
squaring returns the same six Fp2 components as the eager one, the unreduced
primitives being exact operations modulo `p`. -/
theorem C3_cyc_lazyr_eq_basic (a : Fp12 p β ξ) :
    fp12_sqr_cyc_lazyr a = fp12_sqr_cyc_basic a :=
  fp12_sqr_cyc_lazyr_eq a

/-- C4, as stated, fails.  Over the tower `p = 7`, `β = −1`, `ξ = 2 + u` the
element `g13` is cyclotomic, its compressed square from a zero output is
`[[0, 4+4u, 1+3u], [6+4u, 0, 4+2u]]`, and with the coordinate naming of spec
§4.4 (`g2 = c0[1]`, `g3 = c1[0]`, `g4 = c0[2]`) the decompression returns
`g0 = 3`, `g1 = 3+3u`, whereas `fp12_sqr g13` has `c[0][0] = 4+3u`,
`c[1][1] = 1+2u`.  For the cyclotomic element `1` the compressed square is
zero in all four coordinates, so that the decompression divides by zero,
under either naming. -/
theorem C4_back_cyc_spec_naming_counterexample :
    IsTower 7 6 xi7 ∧ g13 ^ (7 ^ 4 - 7 ^ 2 + 1) = 1 ∧
    fp12_sqr_pck_basic 0 g13 =
      ⟨⟨⟨0, 0⟩, ⟨4, 4⟩, ⟨1, 3⟩⟩, ⟨⟨6, 4⟩, ⟨0, 0⟩, ⟨4, 2⟩⟩⟩ ∧
    fp12_back_cyc (fp12_sqr_pck_basic 0 g13) =
      some ⟨⟨⟨3, 0⟩, ⟨4, 4⟩, ⟨1, 3⟩⟩, ⟨⟨6, 4⟩, ⟨3, 3⟩, ⟨4, 2⟩⟩⟩ ∧
    fp12_sqr g13 = ⟨⟨⟨4, 3⟩, ⟨4, 4⟩, ⟨1, 3⟩⟩, ⟨⟨6, 4⟩, ⟨1, 2⟩, ⟨4, 2⟩⟩⟩ ∧
    fp12_back_cyc (fp12_sqr_pck_basic 0 g13) ≠ some (fp12_sqr g13) ∧
    (1 : Fp12 7 6 xi7) ^ (7 ^ 4 - 7 ^ 2 + 1) = 1 ∧
    fp12_back_cyc (fp12_sqr_pck_basic 0 (1 : Fp12 7 6 xi7)) = none ∧
    fp12_back_cyc_fp4 (fp12_sqr_pck_basic 0 (1 : Fp12 7 6 xi7)) = none :=
  ⟨isTower_seven, g13_cyclotomic, by decide, by decide, by decide, by decide, one_pow _,
    by decide, by decide⟩

/-- C4, amended: over a well-formed tower, for every cyclotomic `g` and every
prior content of `c` (in particular one whose `g0`, `g1` slots are zero), if the
compressed square has `c[1][0] ≠ 0` or `c[0][2] ≠ 0`, then the decompression of
§4.4 read with `g2 = c1[0]`, `g3 = c0[2]`, `g4 = c0[1]`, `g5 = c1[2]` succeeds
and returns `fp12_sqr g`. -/
theorem C4_back_cyc_sqr_pck (ht : IsTower p β ξ) (c g : Fp12 p β ξ)
    (hg : g ^ (p ^ 4 - p ^ 2 + 1) = 1)
    (hnz : (fp12_sqr_pck_basic c g).c1.c0 ≠ 0 ∨ (fp12_sqr_pck_basic c g).c0.c2 ≠ 0) :
    fp12_back_cyc_fp4 (fp12_sqr_pck_basic c g) = some (fp12_sqr g) := by
  have hsq : fp12_sqr_cyc_basic g = g * g :=
    fp12_sqr_cyc_basic_eq_of_rel g (cycRel_of_pow ht g hg)
  have hcyc : (g * g) ^ (p ^ 4 - p ^ 2 + 1) = 1 := by rw [mul_pow, hg, one_mul]
  have R := cycRel_of_pow ht (g * g) hcyc
  have e01 : (fp12_sqr_pck_basic c g).c0.c1 = (g * g).c0.c1 := by rw [← hsq]; rfl
  have e02 : (fp12_sqr_pck_basic c g).c0.c2 = (g * g).c0.c2 := by rw [← hsq]; rfl
  have e10 : (fp12_sqr_pck_basic c g).c1.c0 = (g * g).c1.c0 := by rw [← hsq]; rfl
  have e12 : (fp12_sqr_pck_basic c g).c1.c2 = (g * g).c1.c2 := by rw [← hsq]; rfl
  rw [e10, e02] at hnz
  unfold fp12_back_cyc_fp4
  rw [e01, e02, e10, e12, back_cyc_coords_of_rel ht (g * g) R hnz, fp12_sqr_eq]
  rfl

/-- Witness of C4 (amended): the element `g13` of the cyclotomic subgroup over
the tower `p = 7`, `β = −1`, `ξ = 2 + u`, from a zero output. -/
theorem C4_back_cyc_sqr_pck_witness :
    IsTower 7 6 xi7 ∧ g13 ^ (7 ^ 4 - 7 ^ 2 + 1) = 1 ∧
    ((fp12_sqr_pck_basic 0 g13).c1.c0 ≠ 0 ∨ (fp12_sqr_pck_basic 0 g13).c0.c2 ≠ 0) ∧
    fp12_back_cyc_fp4 (fp12_sqr_pck_basic 0 g13) = some (fp12_sqr g13) :=
  ⟨isTower_seven, g13_cyclotomic, by decide,
    C4_back_cyc_sqr_pck isTower_seven 0 g13 g13_cyclotomic (by decide)⟩

/-- C5: over a well-formed tower, for every cyclotomic `g` the four components
written by `fp12_sqr_pck_basic`, namely `c[0][1]`, `c[1][0]`, `c[0][2]` and
`c[1][2]`, equal the same components of the true square `fp12_sqr g`. -/
theorem C5_sqr_pck_components (ht : IsTower p β ξ) (c g : Fp12 p β ξ)
    (hg : g ^ (p ^ 4 - p ^ 2 + 1) = 1) :
    (fp12_sqr_pck_basic c g).c0.c1 = (fp12_sqr g).c0.c1 ∧
    (fp12_sqr_pck_basic c g).c1.c0 = (fp12_sqr g).c1.c0 ∧
    (fp12_sqr_pck_basic c g).c0.c2 = (fp12_sqr g).c0.c2 ∧
    (fp12_sqr_pck_basic c g).c1.c2 = (fp12_sqr g).c1.c2 := by
  have hsq : fp12_sqr_cyc_basic g = fp12_sqr g := by
    rw [fp12_sqr_cyc_basic_eq_of_rel g (cycRel_of_pow ht g hg), fp12_sqr_eq]
  rw [← hsq]
  exact ⟨rfl, rfl, rfl, rfl⟩

/-- Witness of C5: the element `g13` of the cyclotomic subgroup over the tower
`p = 7`, `β = −1`, `ξ = 2 + u`. -/
theorem C5_sqr_pck_components_witness :
    IsTower 7 6 xi7 ∧ g13 ^ (7 ^ 4 - 7 ^ 2 + 1) = 1 ∧
    (fp12_sqr_pck_basic 0 g13).c0.c1 = (fp12_sqr g13).c0.c1 ∧
    (fp12_sqr_pck_basic 0 g13).c1.c0 = (fp12_sqr g13).c1.c0 ∧
    (fp12_sqr_pck_basic 0 g13).c0.c2 = (fp12_sqr g13).c0.c2 ∧
    (fp12_sqr_pck_basic 0 g13).c1.c2 = (fp12_sqr g13).c1.c2 :=
  ⟨isTower_seven, g13_cyclotomic,
    C5_sqr_pck_components isTower_seven 0 g13 g13_cyclotomic⟩

/-- C6: for every input `a` and every prior content of the output `c`, the lazy
and the eager compressed squarings leave `c` in the same final state. -/
theorem C6_pck_lazyr_eq_basic (c a : Fp12 p β ξ) :
    fp12_sqr_pck_lazyr c a = fp12_sqr_pck_basic c a :=
  fp12_sqr_pck_lazyr_eq c a

/-- C7: compressed squaring writes only four of the six Fp2 coordinates: after
`fp12_sqr_pck_basic` and after `fp12_sqr_pck_lazyr` the components `c[0][0]`
and `c[1][1]` are what they were before the call. -/
theorem C7_pck_frame (c a : Fp12 p β ξ) :
    (fp12_sqr_pck_basic c a).c0.c0 = c.c0.c0 ∧ (fp12_sqr_pck_basic c a).c1.c1 = c.c1.c1 ∧
    (fp12_sqr_pck_lazyr c a).c0.c0 = c.c0.c0 ∧ (fp12_sqr_pck_lazyr c a).c1.c1 = c.c1.c1 :=
  ⟨rfl, rfl, rfl, rfl⟩

/-- C8: the compressed squaring depends only on the four compressed input
coordinates: inputs that agree on `[0][1]`, `[1][0]`, `[0][2]`, `[1][2]` give the
same values in `c[0][1]`, `c[1][0]`, `c[0][2]`, `c[1][2]`, whatever `[0][0]`,
`[1][1]` and the prior contents of the outputs are. -/
theorem C8_pck_depends_on_compressed (c c' a a' : Fp12 p β ξ)
    (h01 : a.c0.c1 = a'.c0.c1) (h10 : a.c1.c0 = a'.c1.c0)
    (h02 : a.c0.c2 = a'.c0.c2) (h12 : a.c1.c2 = a'.c1.c2) :
    (fp12_sqr_pck_basic c a).c0.c1 = (fp12_sqr_pck_basic c' a').c0.c1 ∧
    (fp12_sqr_pck_basic c a).c1.c0 = (fp12_sqr_pck_basic c' a').c1.c0 ∧
    (fp12_sqr_pck_basic c a).c0.c2 = (fp12_sqr_pck_basic c' a').c0.c2 ∧
    (fp12_sqr_pck_basic c a).c1.c2 = (fp12_sqr_pck_basic c' a').c1.c2 := by
  simp only [fp12_sqr_pck_basic, h01, h10, h02, h12, and_self]

/-- Witness of C8: two inputs over the tower `p = 7`, `β = −1`, `ξ = 2 + u` that
differ in `[0][0]` and `[1][1]` only. -/
theorem C8_pck_depends_on_compressed_witness :
    (fp12_sqr_pck_basic (0 : Fp12 7 6 xi7)
        ⟨⟨⟨1, 2⟩, ⟨3, 4⟩, ⟨5, 6⟩⟩, ⟨⟨0, 1⟩, ⟨2, 3⟩, ⟨4, 5⟩⟩⟩).c0.c1 =
      (fp12_sqr_pck_basic (1 : Fp12 7 6 xi7)
        ⟨⟨⟨6, 6⟩, ⟨3, 4⟩, ⟨5, 6⟩⟩, ⟨⟨0, 1⟩, ⟨0, 0⟩, ⟨4, 5⟩⟩⟩).c0.c1 ∧
    (fp12_sqr_pck_basic (0 : Fp12 7 6 xi7)
        ⟨⟨⟨1, 2⟩, ⟨3, 4⟩, ⟨5, 6⟩⟩, ⟨⟨0, 1⟩, ⟨2, 3⟩, ⟨4, 5⟩⟩⟩).c1.c0 =
      (fp12_sqr_pck_basic (1 : Fp12 7 6 xi7)
        ⟨⟨⟨6, 6⟩, ⟨3, 4⟩, ⟨5, 6⟩⟩, ⟨⟨0, 1⟩, ⟨0, 0⟩, ⟨4, 5⟩⟩⟩).c1.c0 ∧
    (fp12_sqr_pck_basic (0 : Fp12 7 6 xi7)
        ⟨⟨⟨1, 2⟩, ⟨3, 4⟩, ⟨5, 6⟩⟩, ⟨⟨0, 1⟩, ⟨2, 3⟩, ⟨4, 5⟩⟩⟩).c0.c2 =
      (fp12_sqr_pck_basic (1 : Fp12 7 6 xi7)
        ⟨⟨⟨6, 6⟩, ⟨3, 4⟩, ⟨5, 6⟩⟩, ⟨⟨0, 1⟩, ⟨0, 0⟩, ⟨4, 5⟩⟩⟩).c0.c2 ∧
    (fp12_sqr_pck_basic (0 : Fp12 7 6 xi7)
        ⟨⟨⟨1, 2⟩, ⟨3, 4⟩, ⟨5, 6⟩⟩, ⟨⟨0, 1⟩, ⟨2, 3⟩, ⟨4, 5⟩⟩⟩).c1.c2 =
      (fp12_sqr_pck_basic (1 : Fp12 7 6 xi7)
        ⟨⟨⟨6, 6⟩, ⟨3, 4⟩, ⟨5, 6⟩⟩, ⟨⟨0, 1⟩, ⟨0, 0⟩, ⟨4, 5⟩⟩⟩).c1.c2 :=
  C8_pck_depends_on_compressed _ _ _ _ rfl rfl rfl rfl

/-- C9: for every odd prime `p` and every Fp12 element `a` (no cyclotomic
assumption), the alternative squaring `fp12_sqr2`, on both settings of
`FP_SPACE`, returns the same six Fp2 components as `fp12_sqr`, that is `a·a`. -/
theorem C9_fp12_sqr2_eq_sqr (hp : p.Prime) (h2 : p ≠ 2) (fp_space : Bool)
    (a : Fp12 p β ξ) :
    fp12_sqr2 fp_space a = fp12_sqr a ∧ fp12_sqr2 fp_space a = fp12_mul a a := by
  rw [fp12_sqr2_eq hp h2, fp12_sqr_eq, fp12_mul_eq]
  exact ⟨rfl, rfl⟩

/-- Witness of C9 over the tower `p = 7`, `β = −1`, `ξ = 2 + u`. -/
theorem C9_fp12_sqr2_eq_sqr_witness :
    Nat.Prime 7 ∧ 7 ≠ 2 ∧
    fp12_sqr2 true (⟨⟨⟨1, 2⟩, ⟨3, 4⟩, ⟨5, 6⟩⟩, ⟨⟨0, 1⟩, ⟨2, 3⟩, ⟨4, 5⟩⟩⟩ : Fp12 7 6 xi7) =
      fp12_sqr ⟨⟨⟨1, 2⟩, ⟨3, 4⟩, ⟨5, 6⟩⟩, ⟨⟨0, 1⟩, ⟨2, 3⟩, ⟨4, 5⟩⟩⟩ ∧
    fp12_sqr2 true (⟨⟨⟨1, 2⟩, ⟨3, 4⟩, ⟨5, 6⟩⟩, ⟨⟨0, 1⟩, ⟨2, 3⟩, ⟨4, 5⟩⟩⟩ : Fp12 7 6 xi7) =
      fp12_mul ⟨⟨⟨1, 2⟩, ⟨3, 4⟩, ⟨5, 6⟩⟩, ⟨⟨0, 1⟩, ⟨2, 3⟩, ⟨4, 5⟩⟩⟩
        ⟨⟨⟨1, 2⟩, ⟨3, 4⟩, ⟨5, 6⟩⟩, ⟨⟨0, 1⟩, ⟨2, 3⟩, ⟨4, 5⟩⟩⟩ :=
  ⟨by norm_num, by decide, C9_fp12_sqr2_eq_sqr (by norm_num) (by decide) true _⟩

/-- C10: `fp12_sqr` is correct in place.  With `c` and `a` the same storage,
the call leaves in `a` the value that the out-of-place call writes to a
distinct `c`, namely `fp12_sqr` of the original `a`, for every initial store. -/
theorem C10_fp12_sqr_in_place (s : Store6 p β ξ) :
    (fp12_sqr_mem .a0 .a1 .a0 .a1 s) .a0 = (fp12_sqr_mem .c0 .c1 .a0 .a1 s) .c0 ∧
    (fp12_sqr_mem .a0 .a1 .a0 .a1 s) .a1 = (fp12_sqr_mem .c0 .c1 .a0 .a1 s) .c1 ∧
    (⟨(fp12_sqr_mem .c0 .c1 .a0 .a1 s) .c0, (fp12_sqr_mem .c0 .c1 .a0 .a1 s) .c1⟩ :
      Fp12 p β ξ) = fp12_sqr ⟨s .a0, s .a1⟩ := by
  simp [fp12_sqr_mem, Store6.set, fp12_sqr]

/-- C11: the cyclotomic squarings are correct in place.  With `c` and `a` the
same storage, the statements of `fp12_sqr_cyc_basic` and of
`fp12_sqr_cyc_lazyr` leave in `a` the six components that the out-of-place
call writes to a distinct `c`, which are those of the embedding applied to the
original `a`, for every initial store; and no statement reads `a[i][j]` after
a statement has written `c[i][j]`. -/
theorem C11_cyc_in_place (s : Store2 p β) :
    (run2 ξ (fp12_sqr_cyc_basic_prog.body.map Stmt.alias) s).fp12 ξ .a =
      (run2 ξ fp12_sqr_cyc_basic_prog.body s).fp12 ξ .c ∧
    (run2 ξ fp12_sqr_cyc_basic_prog.body s).fp12 ξ .c = fp12_sqr_cyc_basic (s.fp12 ξ .a) ∧
    (run2 ξ (fp12_sqr_cyc_lazyr_prog.body.map Stmt.alias) s).fp12 ξ .a =
      (run2 ξ fp12_sqr_cyc_lazyr_prog.body s).fp12 ξ .c ∧
    (run2 ξ fp12_sqr_cyc_lazyr_prog.body s).fp12 ξ .c = fp12_sqr_cyc_lazyr (s.fp12 ξ .a) ∧
    noReadAfterWrite fp12_sqr_cyc_basic_prog.body = true ∧
    noReadAfterWrite fp12_sqr_cyc_lazyr_prog.body = true := by
  refine ⟨?_, run2_cyc_basic s, ?_, run2_cyc_lazyr s, by decide, by decide⟩
  · rw [run2_cyc_basic_alias, run2_cyc_basic]
  · rw [run2_cyc_lazyr_alias, run2_cyc_lazyr]

/-- C13: errors are not swallowed.  Each squaring routine, as an
`Except`-valued function of the failure scenario, returns an error to its
caller exactly when one of its steps (an acquisition or a consumed primitive,
in the routine or in a routine it calls) raises, and returns its value
otherwise.  An error raised inside a called routine (step 10 of `fp12_sqr2`
is the first statement of `fp4_sqr_unr`) reaches the handler of the caller, as
does one raised by a statement of the routine itself (step 0). -/
theorem C13_errors_not_swallowed (fp_space : Bool) (fail : Option (ℕ × Err))
    (c a : Fp12 p β ξ) :
    fp12_sqr_prog.call fp_space fail (fp12_sqr a) =
      (if stepRaises fail 11 then .error .ERR_CAUGHT else .ok (fp12_sqr a)) ∧
    fp12_sqr2_prog.call fp_space fail (fp12_sqr2 fp_space a) =
      (if stepRaises fail 93 then .error .ERR_CAUGHT else .ok (fp12_sqr2 fp_space a)) ∧
    fp12_sqr_cyc_basic_prog.call fp_space fail (fp12_sqr_cyc_basic a) =
      (if stepRaises fail 50 then .error .ERR_CAUGHT else .ok (fp12_sqr_cyc_basic a)) ∧
    fp12_sqr_cyc_lazyr_prog.call fp_space fail (fp12_sqr_cyc_lazyr a) =
      (if stepRaises fail 56 then .error .ERR_CAUGHT else .ok (fp12_sqr_cyc_lazyr a)) ∧
    fp12_sqr_pck_basic_prog.call fp_space fail (fp12_sqr_pck_basic c a) =
      (if stepRaises fail 36 then .error .ERR_CAUGHT else .ok (fp12_sqr_pck_basic c a)) ∧
    fp12_sqr_pck_lazyr_prog.call fp_space fail (fp12_sqr_pck_lazyr c a) =
      (if stepRaises fail 40 then .error .ERR_CAUGHT else .ok (fp12_sqr_pck_lazyr c a)) ∧
    (runTry fp_space (some (10, .ERR_NO_MEMORY)) fp12_sqr2_prog.body 0).1 =
      some .ERR_CAUGHT ∧
    (runTry fp_space (some (0, .ERR_NO_MEMORY)) fp12_sqr2_prog.body 0).1 =
      some .ERR_NO_MEMORY := by
  have n1 : stepCount fp_space fp12_sqr_prog.body = 11 := by cases fp_space <;> decide
  have n2 : stepCount fp_space fp12_sqr2_prog.body = 93 := by cases fp_space <;> decide
  have n3 : stepCount fp_space fp12_sqr_cyc_basic_prog.body = 50 := by
    cases fp_space <;> decide
  have n4 : stepCount fp_space fp12_sqr_cyc_lazyr_prog.body = 56 := by
    cases fp_space <;> decide
  have n5 : stepCount fp_space fp12_sqr_pck_basic_prog.body = 36 := by
    cases fp_space <;> decide
  have n6 : stepCount fp_space fp12_sqr_pck_lazyr_prog.body = 40 := by
    cases fp_space <;> decide
  refine ⟨?_, ?_, ?_, ?_, ?_, ?_, ?_, ?_⟩
  · rw [call_eq _ rfl, n1]
  · rw [call_eq _ rfl, n2]
  · rw [call_eq _ rfl, n3]
  · rw [call_eq _ rfl, n4]
  · rw [call_eq _ rfl, n5]
  · rw [call_eq _ rfl, n6]
  · cases fp_space <;> decide
  · cases fp_space <;> decide

/-- C14 fails for three routines.  On the event trace of every exit path (the
path without error and the path of a failure at each statement of the `TRY`
block) `fp12_sqr`, `fp12_sqr_cyc_basic`, `fp12_sqr_pck_basic`,
`fp12_sqr_cyc_lazyr` and `fp12_sqr_pck_lazyr` are balanced.  On the path
without error `fp4_mul_unr` is not: it releases `t1`, declared `fp2_t`, with
`dv2_free`; `fp4_sqr_unr` is not: it uses `u0`, `u1`, `t` and never acquires
them; `fp12_sqr2` is not: it uses `u0`, never acquired, and acquires `t6`
without releasing it, and on the path of a failure of its first acquisition it
releases `t2`, which it has not set to `NULL`. -/
theorem C14_temporaries_balance (fp_space : Bool) :
    (∀ k, fp12_sqr_prog.balanced k = true) ∧
    (∀ k, fp12_sqr_cyc_basic_prog.balanced k = true) ∧
    (∀ k, fp12_sqr_pck_basic_prog.balanced k = true) ∧
    (∀ k, fp12_sqr_cyc_lazyr_prog.balanced k = true) ∧
    (∀ k, fp12_sqr_pck_lazyr_prog.balanced k = true) ∧
    (fp4_mul_unr_prog fp_space).balanced 13 = false ∧
    Ev.free .dv2_t .t1 ∈ (fp4_mul_unr_prog fp_space).trace 13 ∧
    kindOf (fp4_mul_unr_prog fp_space).decls .t1 = some .fp2_t ∧
    fp4_sqr_unr_prog.balanced 8 = false ∧
    Ev.use .u0 ∈ fp4_sqr_unr_prog.trace 8 ∧
    (∀ k, Ev.acq k .u0 ∉ fp4_sqr_unr_prog.trace 8) ∧
    fp12_sqr2_prog.balanced 53 = false ∧
    Ev.use .u0 ∈ fp12_sqr2_prog.trace 53 ∧
    (∀ k, Ev.acq k .u0 ∉ fp12_sqr2_prog.trace 53) ∧
    Ev.acq .fp2_t .t6 ∈ fp12_sqr2_prog.trace 53 ∧
    (∀ k, Ev.free k .t6 ∉ fp12_sqr2_prog.trace 53) ∧
    fp12_sqr2_prog.balanced 0 = false ∧
    Ev.free .fp2_t .t2 ∈ fp12_sqr2_prog.trace 0 ∧
    Ev.null .t2 ∉ fp12_sqr2_prog.trace 0 := by
  refine ⟨balanced_fp12_sqr, balanced_cyc_basic, balanced_pck_basic, balanced_cyc_lazyr,
    balanced_pck_lazyr, ?_, ?_, ?_, by decide, by decide, ?_, by decide, by decide, ?_,
    by decide, ?_, by decide, by decide, by decide⟩
  · cases fp_space <;> decide
  · cases fp_space <;> decide
  · cases fp_space <;> decide
  · intro k; cases k <;> decide
  · intro k; cases k <;> decide
  · intro k; cases k <;> decide

/-- C15: `fp12_sqr` follows the generic squaring schedule.  For every
`a = (a0, a1)` over Fp6, with `t0 = a0 + a1`, `t1 = a0 + v·a1`, `t2 = a0·a1`
(`v·x` being `fp6_mul_art`, `(x0, x1, x2) ↦ (ξ·x2, x0, x1)`), the output is
`c0 = t0·t1 − t2 − v·t2`, `c1 = 2·t2`, which equals `c0 = a0² + v·a1²`,
`c1 = 2·a0·a1`. -/
theorem C15_fp12_sqr_schedule (a : Fp12 p β ξ) :
    (fp12_sqr a).c0 =
      fp6_sub (fp6_sub (fp6_mul (fp6_add a.c0 a.c1) (fp6_add a.c0 (fp6_mul_art a.c1)))
        (fp6_mul a.c0 a.c1)) (fp6_mul_art (fp6_mul a.c0 a.c1)) ∧
    (fp12_sqr a).c1 = fp6_dbl (fp6_mul a.c0 a.c1) ∧
    (∀ x : Fp6 p β ξ, fp6_mul_art x = ⟨fp2_mul_nor ξ x.c2, x.c0, x.c1⟩) ∧
    (fp12_sqr a).c0 = fp6_add (fp6_mul a.c0 a.c0) (fp6_mul_art (fp6_mul a.c1 a.c1)) ∧
    (fp12_sqr a).c1 = fp6_dbl (fp6_mul a.c0 a.c1) := by
  refine ⟨rfl, rfl, fun _ => rfl, ?_, rfl⟩
  rw [fp12_sqr_eq]
  simp only [fp12_mul_c0, fp6_add_eq, fp6_mul_eq, fp6_mul_art_eq]

/-- C16: the cyclotomic precondition cannot be dropped.  For every odd prime
`p` the constant 2 (`a[0][0] = 2`, all other components 0) is outside the
cyclotomic subgroup, `2^(p⁴ − p² + 1) = 2 ≠ 1`; `fp12_sqr_cyc_basic` returns
the element 8 on it, `fp12_sqr` returns 4, and the two differ. -/
theorem C16_cyc_precondition_needed (hp : p.Prime) (h2 : p ≠ 2) :
    (2 : Fp12 p β ξ) = ⟨⟨⟨2, 0⟩, ⟨0, 0⟩, ⟨0, 0⟩⟩, ⟨⟨0, 0⟩, ⟨0, 0⟩, ⟨0, 0⟩⟩⟩ ∧
    (2 : Fp12 p β ξ) ^ (p ^ 4 - p ^ 2 + 1) ≠ 1 ∧
    fp12_sqr_cyc_basic (2 : Fp12 p β ξ) = 8 ∧
    fp12_sqr (2 : Fp12 p β ξ) = 4 ∧
    fp12_sqr_cyc_basic (2 : Fp12 p β ξ) ≠ fp12_sqr 2 := by
  refine ⟨rfl, ?_, fp12_sqr_cyc_basic_two, fp12_sqr_two, ?_⟩
  · rw [fp12_two_pow_cyc hp h2]
    exact fp12_two_ne_one hp
  · rw [fp12_sqr_cyc_basic_two, fp12_sqr_two]
    exact fp12_eight_ne_four hp h2

/-- Witness of C16 over the tower `p = 7`, `β = −1`, `ξ = 2 + u`. -/
theorem C16_cyc_precondition_needed_witness :
    Nat.Prime 7 ∧ 7 ≠ 2 ∧
    (2 : Fp12 7 6 xi7) ^ (7 ^ 4 - 7 ^ 2 + 1) ≠ 1 ∧
    fp12_sqr_cyc_basic (2 : Fp12 7 6 xi7) ≠ fp12_sqr 2 :=
  ⟨by norm_num, by decide,
    (C16_cyc_precondition_needed (by norm_num) (by decide)).2.1,
    (C16_cyc_precondition_needed (by norm_num) (by decide)).2.2.2.2⟩

/-- C18: chains of compressed squarings track chains of cyclotomic squarings.
For every initial store and every `k`, running the statements of
`fp12_sqr_pck_basic` in place on `a` `k` times leaves in `a[0][1]`, `a[1][0]`,
`a[0][2]`, `a[1][2]` the components of `fp12_sqr_cyc_basic` applied `k` times
to the original `a`; over a well-formed tower and for cyclotomic `a` that
iterate is `a^(2^k)`. -/
theorem C18_pck_chain (k : ℕ) (s : Store2 p β) :
    (((run2 ξ (fp12_sqr_pck_basic_prog.body.map Stmt.alias))^[k] s).fp12 ξ .a).c0.c1 =
      (fp12_sqr_cyc_basic^[k] (s.fp12 ξ .a)).c0.c1 ∧
    (((run2 ξ (fp12_sqr_pck_basic_prog.body.map Stmt.alias))^[k] s).fp12 ξ .a).c1.c0 =
      (fp12_sqr_cyc_basic^[k] (s.fp12 ξ .a)).c1.c0 ∧
    (((run2 ξ (fp12_sqr_pck_basic_prog.body.map Stmt.alias))^[k] s).fp12 ξ .a).c0.c2 =
      (fp12_sqr_cyc_basic^[k] (s.fp12 ξ .a)).c0.c2 ∧
    (((run2 ξ (fp12_sqr_pck_basic_prog.body.map Stmt.alias))^[k] s).fp12 ξ .a).c1.c2 =
      (fp12_sqr_cyc_basic^[k] (s.fp12 ξ .a)).c1.c2 ∧
    (IsTower p β ξ → (s.fp12 ξ .a) ^ (p ^ 4 - p ^ 2 + 1) = 1 →
      fp12_sqr_cyc_basic^[k] (s.fp12 ξ .a) = (s.fp12 ξ .a) ^ (2 ^ k)) := by
  obtain ⟨h1, h2, h3, h4⟩ := pck_iterate_compressed (ξ := ξ) k s
  exact ⟨h1, h2, h3, h4, fun ht ha => cyc_iterate_pow ht _ ha k⟩

/-- Witness of C18: three compressed squarings in place of the cyclotomic
element `g13` over the tower `p = 7`, `β = −1`, `ξ = 2 + u`. -/
theorem C18_pck_chain_witness :
    IsTower 7 6 xi7 ∧ (store13.fp12 xi7 .a) ^ (7 ^ 4 - 7 ^ 2 + 1) = 1 ∧
    (((run2 xi7 (fp12_sqr_pck_basic_prog.body.map Stmt.alias))^[3] store13).fp12 xi7 .a).c0.c1 =
      (fp12_sqr_cyc_basic^[3] (store13.fp12 xi7 .a)).c0.c1 ∧
    fp12_sqr_cyc_basic^[3] (store13.fp12 xi7 .a) = (store13.fp12 xi7 .a) ^ (2 ^ 3) :=
  ⟨isTower_seven, g13_cyclotomic, (C18_pck_chain 3 store13).1,
    (C18_pck_chain 3 store13).2.2.2.2 isTower_seven g13_cyclotomic⟩

/-- C19, as stated, fails.  Over `p = 7`, `β = −1`, `ξ = 2 + u`, with
`A0 = A1 = 1` and `A2 = 0` in Fp4, the product `A0·A1` is 1 whereas
`((A0+A2+A1)² − (A0+A2−A1)²)/2` is 2. -/
theorem C19_identity_counterexample :
    fp4_mul xi7 true ((⟨1, 0⟩, 0) : Fp4 7 6) (⟨1, 0⟩, 0) = (⟨1, 0⟩, 0) ∧
    fp4_hlv (fp4_sub
      (fp4_sqr xi7 (fp4_add (fp4_add ((⟨1, 0⟩, 0) : Fp4 7 6) (0, 0)) (⟨1, 0⟩, 0)))
      (fp4_sqr xi7 (fp4_sub (fp4_add ((⟨1, 0⟩, 0) : Fp4 7 6) (0, 0)) (⟨1, 0⟩, 0)))) =
        (⟨2, 0⟩, 0) ∧
    fp4_mul xi7 true ((⟨1, 0⟩, 0) : Fp4 7 6) (⟨1, 0⟩, 0) ≠
      fp4_hlv (fp4_sub
        (fp4_sqr xi7 (fp4_add (fp4_add ((⟨1, 0⟩, 0) : Fp4 7 6) (0, 0)) (⟨1, 0⟩, 0)))
        (fp4_sqr xi7 (fp4_sub (fp4_add ((⟨1, 0⟩, 0) : Fp4 7 6) (0, 0)) (⟨1, 0⟩, 0)))) := by
  decide

/-- C19, amended: for every odd prime `p` and all `A0`, `A1`, `A2` in Fp4,
`((A0+A2+A1)² − (A0+A2−A1)²)/2 = 2·(A0+A2)·A1`, and the schedule of
`fp12_sqr2` rests on
`2·A0·A1 = (A0+A2+A1)² − ((A0+A2−A1)² + (A0+A2+A1)²)/2 − 2·A1·A2`. -/
theorem C19_fp4_identity (hp : p.Prime) (h2 : p ≠ 2) (fp_space : Bool) (A0 A1 A2 : Fp4 p β) :
    fp4_hlv (fp4_sub (fp4_sqr ξ (fp4_add (fp4_add A0 A2) A1))
        (fp4_sqr ξ (fp4_sub (fp4_add A0 A2) A1))) =
      fp4_dbl (fp4_mul ξ fp_space (fp4_add A0 A2) A1) ∧
    fp4_dbl (fp4_mul ξ fp_space A0 A1) =
      fp4_sub (fp4_sub (fp4_sqr ξ (fp4_add (fp4_add A0 A2) A1))
        (fp4_hlv (fp4_add (fp4_sqr ξ (fp4_sub (fp4_add A0 A2) A1))
          (fp4_sqr ξ (fp4_add (fp4_add A0 A2) A1)))))
        (fp4_dbl (fp4_mul ξ fp_space A1 A2)) := by
  have hh := Fp2.half_mul_two (β := β) hp h2
  obtain ⟨a0, b0⟩ := A0
  obtain ⟨a1, b1⟩ := A1
  obtain ⟨a2, b2⟩ := A2
  simp only [fp4_hlv_eq, fp4_sub, fp4_add, fp4_sqr, fp4_mul, fp4_dbl, fp4_sqr_unr, fp4_mul_unr,
    fp2_sqrn_low, fp2_nord_low, fp2_addc_low, fp2_subc_low, fp2_rdcn_low, fp2_addn_low,
    fp2_addm_low, fp2_subn_low, fp2_muln_low, fp2_mulc_low, ite_self,
    fp2_add_eq, fp2_sub_eq, fp2_sqr_eq, fp2_mul_eq, fp2_mul_nor_eq]
  refine ⟨Prod.ext ?_ ?_, Prod.ext ?_ ?_⟩
  · linear_combination (2 * (ξ * ((b0 + b2) * b1) + (a0 + a2) * a1)) * hh
  · linear_combination (2 * ((a0 + a2) * b1 + (b0 + b2) * a1)) * hh
  · linear_combination ((a0 + a2) * (a0 + a2) + ξ * ((b0 + b2) * (b0 + b2)) + a1 * a1
      + ξ * (b1 * b1)) * hh
  · linear_combination (2 * (a0 + a2) * (b0 + b2) + 2 * a1 * b1) * hh

/-- Witness of C19 (amended) over `p = 7`, `β = −1`, `ξ = 2 + u`. -/
theorem C19_fp4_identity_witness :
    Nat.Prime 7 ∧ 7 ≠ 2 ∧
    fp4_hlv (fp4_sub
      (fp4_sqr xi7 (fp4_add (fp4_add ((⟨1, 2⟩, ⟨3, 4⟩) : Fp4 7 6) (⟨5, 6⟩, ⟨0, 1⟩))
        (⟨2, 3⟩, ⟨4, 5⟩)))
      (fp4_sqr xi7 (fp4_sub (fp4_add ((⟨1, 2⟩, ⟨3, 4⟩) : Fp4 7 6) (⟨5, 6⟩, ⟨0, 1⟩))
        (⟨2, 3⟩, ⟨4, 5⟩)))) =
      fp4_dbl (fp4_mul xi7 true (fp4_add ((⟨1, 2⟩, ⟨3, 4⟩) : Fp4 7 6) (⟨5, 6⟩, ⟨0, 1⟩))
        (⟨2, 3⟩, ⟨4, 5⟩)) :=
  ⟨by norm_num, by decide,
    (C19_fp4_identity (by norm_num) (by decide) true _ _ _).1⟩

/-- C20 fails.  With `fp2_addn_low` and `fp2_subn_low` as integer addition and
subtraction, over `p = 7`: on the reduced input with `a[1][0] = 1` and all
other components 0 the subtraction of line 206 gives `(0 + 0) − 1 = −1`; on
the reduced input 2 (`a[0][0] = 2`, all other components 0) no subtraction
goes below zero and the value handed to `fp_hlv` in line 215 is
`4 + 4 = 8 ≥ 7`. -/
theorem C20_fp12_sqr2_ranges :
    (fp12_sqr2_ranges (⟨⟨0, 0, 0⟩, ⟨⟨1, 0⟩, 0, 0⟩⟩ : Fp12 7 6 xi7)).sub8 = (-1, 0) ∧
    (fp12_sqr2_ranges (⟨⟨⟨2, 0⟩, 0, 0⟩, 0⟩ : Fp12 7 6 xi7)).sub8 = (2, 0) ∧
    (fp12_sqr2_ranges (⟨⟨⟨2, 0⟩, 0, 0⟩, 0⟩ : Fp12 7 6 xi7)).sub9 = (0, 0) ∧
    (fp12_sqr2_ranges (⟨⟨⟨2, 0⟩, 0, 0⟩, 0⟩ : Fp12 7 6 xi7)).hlv8 = (8, 0) ∧
    ¬ (0 ≤ (fp12_sqr2_ranges (⟨⟨0, 0, 0⟩, ⟨⟨1, 0⟩, 0, 0⟩⟩ : Fp12 7 6 xi7)).sub8.1) ∧
    ¬ ((fp12_sqr2_ranges (⟨⟨⟨2, 0⟩, 0, 0⟩, 0⟩ : Fp12 7 6 xi7)).hlv8.1 < 7) := by
  decide

/-- C21: closed form of the Granger–Scott schedule.  For every Fp12 input `a`
(no assumption) `fp12_sqr_cyc_basic` outputs
`c[0][0] = 3·(a00² + ξ·a11²) − 2·a00`, `c[1][1] = 6·a00·a11 + 2·a11`,
`c[1][0] = 6·ξ·a01·a12 + 2·a10`, `c[0][2] = 3·(a01² + ξ·a12²) − 2·a02`,
`c[0][1] = 3·(a10² + ξ·a02²) − 2·a01`, `c[1][2] = 6·a10·a02 + 2·a12`, where
`ξ·x` is `fp2_mul_nor`. -/
theorem C21_cyc_basic_closed_form (a : Fp12 p β ξ) :
    (fp12_sqr_cyc_basic a).c0.c0 =
      3 * (a.c0.c0 * a.c0.c0 + fp2_mul_nor ξ (a.c1.c1 * a.c1.c1)) - 2 * a.c0.c0 ∧
    (fp12_sqr_cyc_basic a).c1.c1 = 6 * (a.c0.c0 * a.c1.c1) + 2 * a.c1.c1 ∧
    (fp12_sqr_cyc_basic a).c1.c0 = 6 * fp2_mul_nor ξ (a.c0.c1 * a.c1.c2) + 2 * a.c1.c0 ∧
    (fp12_sqr_cyc_basic a).c0.c2 =
      3 * (a.c0.c1 * a.c0.c1 + fp2_mul_nor ξ (a.c1.c2 * a.c1.c2)) - 2 * a.c0.c2 ∧
    (fp12_sqr_cyc_basic a).c0.c1 =
      3 * (a.c1.c0 * a.c1.c0 + fp2_mul_nor ξ (a.c0.c2 * a.c0.c2)) - 2 * a.c0.c1 ∧
    (fp12_sqr_cyc_basic a).c1.c2 = 6 * (a.c1.c0 * a.c0.c2) + 2 * a.c1.c2 := by
  rw [fp12_sqr_cyc_basic_closed]
  simp only [fp2_mul_nor_eq, and_self]

/-- C22: the exact validity domain of the cyclotomic squaring.  For odd `p` and
every Fp12 element `a = A + B·w + C·w²` over `Fp4 = Fp2[z]/(z² − ξ)`, with
`A = a00 + a11·z`, `B = a10 + a02·z`, `C = a01 + a12·z` and `z = w³`,
`fp12_sqr_cyc_basic a = fp12_sqr a` if and only if `A² − conj(A) = z·B·C`,
`z·C² + conj(B) = A·B` and `B² − conj(C) = A·C`. -/
theorem C22_cyc_validity_domain (hp : Odd p) (a : Fp12 p β ξ) :
    a = Fp4.toFp12 a.fp4A + Fp4.toFp12 a.fp4B * Fp12.w
      + Fp4.toFp12 a.fp4C * (Fp12.w * Fp12.w) ∧
    (fp12_sqr_cyc_basic a = fp12_sqr a ↔
      (Fp4.mul ξ a.fp4A a.fp4A - Fp4.conj a.fp4A = Fp4.mulz ξ (Fp4.mul ξ a.fp4B a.fp4C) ∧
       Fp4.mulz ξ (Fp4.mul ξ a.fp4C a.fp4C) + Fp4.conj a.fp4B = Fp4.mul ξ a.fp4A a.fp4B ∧
       Fp4.mul ξ a.fp4B a.fp4B - Fp4.conj a.fp4C = Fp4.mul ξ a.fp4A a.fp4C)) := by
  refine ⟨fp12_fp4_decomp a, ?_⟩
  rw [fp12_sqr_eq, fp12_sqr_cyc_basic_closed, fp12_mul_self_closed]
  obtain ⟨⟨a00, a01, a02⟩, ⟨a10, a11, a12⟩⟩ := a
  simp only [Fp12.ext_iff, Fp6.ext_iff, Prod.ext_iff, Fp4.mul, Fp4.conj, Fp4.mulz, Fp12.fp4A,
    Fp12.fp4B, Fp12.fp4C, Prod.fst_sub, Prod.snd_sub, Prod.fst_add, Prod.snd_add]
  have e00 := fp2_eq_iff_of_two hp
    (s := 3 * (a00 * a00 + ξ * (a11 * a11)) - 2 * a00)
    (t := a00 * a00 + ξ * (a11 * a11) + 2 * (ξ * (a10 * a12 + a02 * a01)))
    (x := a00 * a00 + ξ * (a11 * a11) - a00) (y := ξ * (a10 * a12 + a02 * a01)) (by ring)
  have e11 := fp2_eq_iff_of_two hp
    (s := 6 * (a00 * a11) + 2 * a11)
    (t := 2 * (a00 * a11) + 2 * (a10 * a01 + ξ * (a02 * a12)))
    (x := a00 * a11 + a11 * a00 - -a11) (y := a10 * a01 + ξ * (a02 * a12)) (by ring)
  have e10 := fp2_eq_iff_of_two hp
    (s := 6 * (ξ * (a01 * a12)) + 2 * a10)
    (t := 2 * (a00 * a10 + ξ * (a11 * a02)) + 2 * (ξ * (a01 * a12)))
    (x := ξ * (a01 * a12 + a12 * a01) + a10) (y := a00 * a10 + ξ * (a11 * a02)) (by ring)
  have e02 := fp2_eq_iff_of_two hp
    (s := 3 * (a01 * a01 + ξ * (a12 * a12)) - 2 * a02)
    (t := a01 * a01 + ξ * (a12 * a12) + 2 * (a00 * a02 + a11 * a10))
    (x := a01 * a01 + ξ * (a12 * a12) + -a02) (y := a00 * a02 + a11 * a10) (by ring)
  have e01 := fp2_eq_iff_of_two hp
    (s := 3 * (a10 * a10 + ξ * (a02 * a02)) - 2 * a01)
    (t := a10 * a10 + ξ * (a02 * a02) + 2 * (a00 * a01 + ξ * (a11 * a12)))
    (x := a10 * a10 + ξ * (a02 * a02) - a01) (y := a00 * a01 + ξ * (a11 * a12)) (by ring)
  have e12 := fp2_eq_iff_of_two hp
    (s := 6 * (a10 * a02) + 2 * a12)
    (t := 2 * (a10 * a02) + 2 * (a00 * a12 + a11 * a01))
    (x := a10 * a02 + a02 * a10 - -a12) (y := a00 * a12 + a11 * a01) (by ring)
  constructor
  · rintro ⟨⟨h1, h2, h3⟩, h4, h5, h6⟩
    exact ⟨⟨e00.mp h1, e11.mp h5⟩, ⟨e10.mp h4, e02.mp h3⟩, e01.mp h2, e12.mp h6⟩
  · rintro ⟨⟨h1, h2⟩, ⟨h3, h4⟩, h5, h6⟩
    exact ⟨⟨e00.mpr h1, e01.mpr h5, e02.mpr h4⟩, e10.mpr h3, e11.mpr h2, e12.mpr h6⟩

/-- Witness of C22 over the tower `p = 7`, `β = −1`, `ξ = 2 + u`: the
cyclotomic element `g13` satisfies the three relations. -/
theorem C22_cyc_validity_domain_witness :
    Odd 7 ∧
    Fp4.mul xi7 g13.fp4A g13.fp4A - Fp4.conj g13.fp4A =
      Fp4.mulz xi7 (Fp4.mul xi7 g13.fp4B g13.fp4C) ∧
    Fp4.mulz xi7 (Fp4.mul xi7 g13.fp4C g13.fp4C) + Fp4.conj g13.fp4B =
      Fp4.mul xi7 g13.fp4A g13.fp4B ∧
    Fp4.mul xi7 g13.fp4B g13.fp4B - Fp4.conj g13.fp4C = Fp4.mul xi7 g13.fp4A g13.fp4C :=
  ⟨by decide, (C22_cyc_validity_domain (by decide) g13).2.mp (by decide)⟩

/-- C23: the cyclotomic subgroup is closed under cyclotomic squaring.  Over a
well-formed tower, for every `g` with `g^(p⁴ − p² + 1) = 1` the outputs of
`fp12_sqr_cyc_basic` and of `fp12_sqr_cyc_lazyr` on `g` again satisfy
`h^(p⁴ − p² + 1) = 1`. -/
theorem C23_cyc_closed (ht : IsTower p β ξ) (g : Fp12 p β ξ)
    (hg : g ^ (p ^ 4 - p ^ 2 + 1) = 1) :
    (fp12_sqr_cyc_basic g) ^ (p ^ 4 - p ^ 2 + 1) = 1 ∧
    (fp12_sqr_cyc_lazyr g) ^ (p ^ 4 - p ^ 2 + 1) = 1 := by
  have h : (fp12_sqr_cyc_basic g) ^ (p ^ 4 - p ^ 2 + 1) = 1 := by
    rw [fp12_sqr_cyc_basic_eq_of_rel g (cycRel_of_pow ht g hg), mul_pow, hg, one_mul]
  exact ⟨h, by rw [fp12_sqr_cyc_lazyr_eq]; exact h⟩

/-- Witness of C23: the element `g13` of the cyclotomic subgroup over the tower
`p = 7`, `β = −1`, `ξ = 2 + u`. -/
theorem C23_cyc_closed_witness :
    IsTower 7 6 xi7 ∧ g13 ^ (7 ^ 4 - 7 ^ 2 + 1) = 1 ∧
    (fp12_sqr_cyc_basic g13) ^ (7 ^ 4 - 7 ^ 2 + 1) = 1 ∧
    (fp12_sqr_cyc_lazyr g13) ^ (7 ^ 4 - 7 ^ 2 + 1) = 1 :=
  ⟨isTower_seven, g13_cyclotomic, C23_cyc_closed isTower_seven g13 g13_cyclotomic⟩

/-- C24: `fp4_sqr_unr` squares in `Fp4 = Fp2[z]/(z² − ξ)`.  For all `a`, `b` in
Fp2 the reduced values of its outputs are `c = a² + ξ·b²` and
`d = (a + b)² − a² − b² = 2·a·b`, that is `(a + b·z)² = c + d·z`; the product
of `Fp4` is the product of Fp12 on the elements `x0 + x1·w³`. -/
theorem C24_fp4_sqr_unr (a b : Fp2 p β) :
    fp2_rdcn_low (fp4_sqr_unr ξ a b).1 = fp2_add (fp2_sqr a) (fp2_mul_nor ξ (fp2_sqr b)) ∧
    fp2_rdcn_low (fp4_sqr_unr ξ a b).2 =
      fp2_sub (fp2_sub (fp2_sqr (fp2_add a b)) (fp2_sqr a)) (fp2_sqr b) ∧
    fp2_rdcn_low (fp4_sqr_unr ξ a b).2 = 2 * (a * b) ∧
    (fp2_rdcn_low (fp4_sqr_unr ξ a b).1, fp2_rdcn_low (fp4_sqr_unr ξ a b).2) =
      Fp4.mul ξ (a, b) (a, b) ∧
    (Fp4.toFp12 (fp2_rdcn_low (fp4_sqr_unr ξ a b).1, fp2_rdcn_low (fp4_sqr_unr ξ a b).2) :
      Fp12 p β ξ) = Fp4.toFp12 (a, b) * Fp4.toFp12 (a, b) := by
  have h := fp4_sqr_eq (ξ := ξ) (a, b)
  have h' : (fp2_rdcn_low (fp4_sqr_unr ξ a b).1, fp2_rdcn_low (fp4_sqr_unr ξ a b).2) =
      Fp4.mul ξ (a, b) (a, b) := h
  refine ⟨?_, ?_, ?_, h', ?_⟩
  · simp only [fp4_sqr_unr, fp2_sqrn_low, fp2_nord_low, fp2_addc_low, fp2_rdcn_low,
      fp2_add_eq, fp2_sqr_eq, fp2_mul_nor_eq]
    ring
  · simp only [fp4_sqr_unr, fp2_sqrn_low, fp2_addc_low, fp2_subc_low, fp2_rdcn_low,
      fp2_addm_low, fp2_add_eq, fp2_sub_eq, fp2_sqr_eq]
    ring
  · simp only [fp4_sqr_unr, fp2_sqrn_low, fp2_addc_low, fp2_subc_low, fp2_rdcn_low,
      fp2_addm_low, fp2_add_eq, fp2_sub_eq, fp2_sqr_eq]
    ring
  · rw [h', Fp4.toFp12_mul]

/-- C25: `fp4_mul_unr` multiplies in `Fp4 = Fp2[z]/(z² − ξ)`.  For all `a`, `b`,
`c`, `d` in Fp2 and on both settings of `FP_SPACE` the reduced values of its
outputs are `e = a·c + ξ·b·d` and `f = (a + b)(c + d) − a·c − b·d = a·d + b·c`,
that is `(a + b·z)(c + d·z) = e + f·z`; the product of `Fp4` is the product of
Fp12 on the elements `x0 + x1·w³`. -/
theorem C25_fp4_mul_unr (fp_space : Bool) (a b c d : Fp2 p β) :
    fp2_rdcn_low (fp4_mul_unr ξ fp_space a b c d).1 =
      fp2_add (fp2_mul a c) (fp2_mul_nor ξ (fp2_mul b d)) ∧
    fp2_rdcn_low (fp4_mul_unr ξ fp_space a b c d).2 =
      fp2_sub (fp2_sub (fp2_mul (fp2_add a b) (fp2_add c d)) (fp2_mul a c)) (fp2_mul b d) ∧
    fp2_rdcn_low (fp4_mul_unr ξ fp_space a b c d).2 = a * d + b * c ∧
    (fp2_rdcn_low (fp4_mul_unr ξ fp_space a b c d).1,
      fp2_rdcn_low (fp4_mul_unr ξ fp_space a b c d).2) = Fp4.mul ξ (a, b) (c, d) ∧
    (Fp4.toFp12 (fp2_rdcn_low (fp4_mul_unr ξ fp_space a b c d).1,
      fp2_rdcn_low (fp4_mul_unr ξ fp_space a b c d).2) : Fp12 p β ξ) =
        Fp4.toFp12 (a, b) * Fp4.toFp12 (c, d) := by
  have h' : (fp2_rdcn_low (fp4_mul_unr ξ fp_space a b c d).1,
      fp2_rdcn_low (fp4_mul_unr ξ fp_space a b c d).2) = Fp4.mul ξ (a, b) (c, d) :=
    fp4_mul_eq (ξ := ξ) fp_space (a, b) (c, d)
  refine ⟨?_, ?_, ?_, h', ?_⟩
  · simp only [fp4_mul_unr, fp2_nord_low, fp2_addc_low, fp2_rdcn_low, fp2_muln_low,
      fp2_mulc_low, ite_self, fp2_add_eq, fp2_mul_eq, fp2_mul_nor_eq]
    ring
  · simp only [fp4_mul_unr, fp2_subc_low, fp2_rdcn_low, fp2_muln_low, fp2_mulc_low,
      fp2_addn_low, fp2_addm_low, ite_self, fp2_add_eq, fp2_sub_eq, fp2_mul_eq]
  · simp only [fp4_mul_unr, fp2_subc_low, fp2_rdcn_low, fp2_muln_low, fp2_mulc_low,
      fp2_addn_low, fp2_addm_low, ite_self, fp2_add_eq, fp2_sub_eq, fp2_mul_eq]
    ring
  · rw [h', Fp4.toFp12_mul]

end Relic
